import Mathlib

/-!
# Digital buck converter (peak current mode control): verification development

Shallow embedding of the control code of the repository:

* `csl/csl_cntrl_Pub.h`: the fixed-point controllers `CNTRL_2p2zInline` and
  `CNTRL_3p3zInline` (C28x inline assembly), embedded instruction by
  instruction;
* `csl/csl_cla_t0_Pub.h`: the CLA tasks `CLA_2p2zIMode`, `CLA_2p2zVMode` and
  `CLA_slopeCode`, embedded as the assembled instruction lists run by a CLA
  step function;
* `csl/csl_c2000_Pub.h`, `csl/csl_int_t0_Pub.h`, `csl/csl_pwm_t1_Pub.h`: the
  literal, interrupt identifier and tick conversion macros;
* `Example_2803xAdc_TempSensorConv.c` (main.c): the constants, `SlopeTask`,
  the call order of `main` and the interrupt routine `IsrAdc`.
-/

namespace BuckConverter

/-! ## C28x accumulator arithmetic (SXM = 1, OVM = 1) -/

/-- Two's-complement reading of an integer as a signed word of `w` bits. -/
def wrapS (w : Nat) (x : Int) : Int :=
  (x + 2 ^ (w - 1)) % 2 ^ w - 2 ^ (w - 1)

/-- Overflow mode OVM = 1: a 32-bit accumulator result that overflows is
replaced by `0x7FFFFFFF` or `0x80000000`. -/
def satS32 (x : Int) : Int :=
  if x > 2 ^ 31 - 1 then 2 ^ 31 - 1 else if x < -(2 ^ 31) then -(2 ^ 31) else x

/-- `SUB ACC,loc16` with sign extension: subtraction in the accumulator under OVM. -/
def SUB (acc v : Int) : Int := satS32 (acc - v)

/-- `ADDL ACC,P` / `ADDL ACC,loc32`: 32-bit addition under OVM (product shift mode 0). -/
def ADDL (acc v : Int) : Int := satS32 (acc + v)

/-- `LSL ACC,#n`: logical shift left; the bits shifted out are lost (no saturation). -/
def LSL (acc : Int) (n : Nat) : Int := wrapS 32 (acc * 2 ^ n)

/-- `SFR ACC,#n` with SXM = 1: arithmetic shift right. -/
def SFR (acc : Int) (n : Nat) : Int := acc / 2 ^ n

/-- `QMPYL ACC,XT,loc32` / `QMPYL P,XT,loc32`: upper 32 bits of the signed
64-bit product. -/
def QMPYL (xt v : Int) : Int := (xt * v) / 2 ^ 32

/-- `MINL ACC,loc32`. -/
def MINL (acc v : Int) : Int := min acc v

/-- `MAXL ACC,loc32`. -/
def MAXL (acc v : Int) : Int := max acc v

/-! ## Controller data (`csl_cntrl_Pub.h`) -/

/-- `union CNTRL_ARG { _iq15 m_IQ; int m_Int; }`: a 32-bit cell whose low
word is the `int` view `m_Int`; `m_IQ_hi` is the upper word of `m_IQ`. -/
structure CNTRL_ARG where
  m_Int : Int
  m_IQ_hi : Int
  deriving DecidableEq

/-- `struct CNTRL_2p2zData`, fields in declaration order. -/
structure CNTRL_2p2zData where
  Ref : CNTRL_ARG
  Fdbk : CNTRL_ARG
  Out : CNTRL_ARG
  temp : Int
  m_U1 : Int
  m_U2 : Int
  m_E0 : Int
  m_E1 : Int
  m_E2 : Int
  m_B2 : Int
  m_B1 : Int
  m_B0 : Int
  m_A2 : Int
  m_A1 : Int
  m_K : Int
  m_max : Int
  m_min : Int
  m_PeriodCount : Int
  m_SoftRamp : Int
  m_SoftRef : Int
  m_SoftMax : Int
  deriving DecidableEq

/-- `CNTRL_2p2zInline(x)`: one line per instruction of the assembly block.
`XAR7` walks the coefficient table `m_B2, m_B1, m_B0, m_A2, m_A1, m_K, m_max,
m_min` (offsets +18 .. +32); `@8+k` addresses the history buffer
`m_U1, m_U2, m_E0, m_E1, m_E2` (offsets +8 .. +16). The local names `E0`,
`E1`, `E2`, `temp`, `U1`, `U2` are the memory cells written by the block; each
cell is written once, and they are stored back into the structure at the end. -/
def CNTRL_2p2zInline (x : CNTRL_2p2zData) : CNTRL_2p2zData :=
  let acc := x.Ref.m_Int                       -- MOV   ACC,@0        (Ref) Q15
  let acc := SUB acc x.Fdbk.m_Int              -- SUB   ACC,@2        (Fdbk) Q15
  let acc := LSL acc 16                        -- LSL   ACC,#16       Q31
  let E0 := acc                                -- MOVL  @8+4,ACC
  let xt := x.m_E2                             -- MOVL  XT,@8+8       XT = e(n-2)
  let acc := QMPYL xt x.m_B2                   -- QMPYL ACC,XT,*XAR7++
  let xt := x.m_E1                             -- MOVDL XT,@8+6       XT = e(n-1),
  let E2 := xt                                 --                     e(n-2) = e(n-1)
  let p := QMPYL xt x.m_B1                     -- QMPYL P,XT,*XAR7++
  let acc := ADDL acc p                        -- ADDL  ACC,P
  let xt := E0                                 -- MOVDL XT,@8+4       XT = e(n),
  let E1 := xt                                 --                     e(n-1) = e(n)
  let p := QMPYL xt x.m_B0                     -- QMPYL P,XT,*XAR7++
  let acc := ADDL acc p                        -- ADDL  ACC,P
  let acc := SFR acc 1                         -- SFR   ACC,#1
  let temp := acc                              -- MOVL  @6,ACC        (temp) Q24
  let xt := x.m_U2                             -- MOVL  XT,@8+2       XT = u(n-2)
  let acc := QMPYL xt x.m_A2                   -- QMPYL ACC,XT,*XAR7++
  let xt := x.m_U1                             -- MOVDL XT,@8+0       XT = u(n-1),
  let U2 := xt                                 --                     u(n-2) = u(n-1)
  let p := QMPYL xt x.m_A1                     -- QMPYL P,XT,*XAR7++
  let acc := ADDL acc p                        -- ADDL  ACC,P
  let acc := LSL acc 5                         -- LSL   ACC,#5        Q23
  let acc := ADDL acc acc                      -- ADDL  ACC,ACC       Q24
  let acc := ADDL acc temp                     -- ADDL  ACC,@6
  let U1 := acc                                -- MOVL  @8+0,ACC      u(n)
  let xt := acc                                -- MOVL  XT,ACC
  let acc := QMPYL xt x.m_K                    -- QMPYL ACC,XT,*XAR7++
  let acc := MINL acc x.m_max                  -- MINL  ACC,*XAR7++
  let acc := MAXL acc x.m_min                  -- MAXL  ACC,*XAR7++
  let AL := wrapS 16 acc                       -- MOV   @4,AL         (Out)
  { x with
    Out := { x.Out with m_Int := AL }
    temp := temp, m_U1 := U1, m_U2 := U2, m_E0 := E0, m_E1 := E1, m_E2 := E2 }

/-! ## Control Law Accelerator (`csl_cla_t0_Pub.h`)

The CLA tasks are assembly blocks generated by C macros. They are embedded as
the list of CLA instructions the assembler emits, run by `claRunFp`. Floating
point values are carried as rationals; the rounding done by the
single-precision unit and by the assembler is a parameter (`ClaArith`), and
`claRun` is the run with exact arithmetic. -/

/-- CLA result registers. -/
inductive MReg where
  | MR0 | MR1 | MR2 | MR3
  deriving DecidableEq

/-- Contents of a CLA register: a floating point value, or a 16-bit unsigned
integer held in the low half (as left by `MMOVXI` and `MF32TOUI16`). -/
inductive MVal where
  | f32 (q : ℚ)
  | u16 (n : Nat)
  deriving DecidableEq

/-- 16-bit memory operands of the tasks: `_AdcResult+k`, `_NameCtrl+k`,
`_CompNRegs+k`, `_EPwmNRegs+k`. -/
inductive Mem16 where
  | AdcResult (off : Nat)
  | Ctrl (off : Nat)
  | CompRegs (n off : Nat)
  | EPwmRegs (n off : Nat)
  deriving DecidableEq

/-- 32-bit floating point cells `_NameData+k` of the task data
(`struct CLA_2p2zData`: `m_PreValue` +0, `m_U[0..1]` +2 +4, `m_E[0..1]` +6 +8). -/
inductive Mem32 where
  | Data (off : Nat)
  deriving DecidableEq

/-- The CLA instructions used by the tasks. -/
inductive ClaInstr where
  | MMOVXI (a : MReg) (imm : Nat)
  | MMOV16 (m : Mem16) (a : MReg)
  | MI16TOF32 (a : MReg) (m : Mem16)
  | MMOVF32 (a : MReg) (imm : ℚ)
  | MADDF32 (a b c : MReg)
  | MSUBF32 (a b c : MReg)
  | MMPYF32 (a b c : MReg)
  | MMINF32 (a : MReg) (imm : ℚ)
  | MMAXF32 (a : MReg) (imm : ℚ)
  | MF32TOUI16 (a b : MReg)
  | MMOV32_load (a : MReg) (m : Mem32)
  | MMOV32_store (m : Mem32) (a : MReg)
  | MMACF32_MMOV32 (d e f a : MReg) (m : Mem32)
  | MSTOP
  | MNOP

/-- State seen by a CLA task: registers, the 16-bit words and float cells it
addresses, the 16-bit stores it has performed (in program order) and whether
`MSTOP` has ended the task. -/
structure ClaState where
  MR0 : MVal
  MR1 : MVal
  MR2 : MVal
  MR3 : MVal
  mem16 : Mem16 → Nat
  mem32 : Mem32 → ℚ
  writes : List (Mem16 × Nat)
  stopped : Bool

/-- Read a register. -/
def ClaState.get (s : ClaState) : MReg → MVal
  | .MR0 => s.MR0
  | .MR1 => s.MR1
  | .MR2 => s.MR2
  | .MR3 => s.MR3

/-- Write a register. -/
def ClaState.set (s : ClaState) (r : MReg) (v : MVal) : ClaState :=
  match r with
  | .MR0 => { s with MR0 := v }
  | .MR1 => { s with MR1 := v }
  | .MR2 => { s with MR2 := v }
  | .MR3 => { s with MR3 := v }

/-- A register read as a floating point operand. -/
def ClaState.getF (s : ClaState) (r : MReg) : Option ℚ :=
  match s.get r with
  | .f32 q => some q
  | .u16 _ => none

/-- Conversion done by `MI16TOF32`: the 16-bit word read as a signed integer. -/
def I16TOF32 (w : Nat) : ℚ := ((wrapS 16 (w : Int) : Int) : ℚ)

/-- Conversion done by `MF32TOUI16`: truncation to an unsigned 16-bit integer
(negative values give 0, values above 65535 give 65535). -/
def F32TOUI16 (q : ℚ) : Nat := min (Int.toNat ⌊q⌋) 65535

/-- Single-precision arithmetic of the CLA, left open. `rnd` maps the exact
result of an addition, subtraction or multiplication to the value the unit
delivers (round to nearest even or truncation, selected by `MSTF.RNDF32`);
`imm32` and `imm16` map the literal of a `#32F` immediate operand (`MMOVF32`)
and of a `#16FHi` immediate operand (`MMINF32`, `MMAXF32`) to the value the
assembler encodes. Infinities and NaN are not modelled. -/
structure ClaArith where
  rnd : ℚ → ℚ
  imm32 : ℚ → ℚ
  imm16 : ℚ → ℚ

/-- Exact arithmetic: nothing is rounded. -/
def exactArith : ClaArith := ⟨id, id, id⟩

/-- One CLA instruction under the arithmetic `fp`. `none`: an operand does not
hold the kind of value the instruction reads (this never happens in the tasks
below). The conversions `MI16TOF32` and `MF32TOUI16`, the selections
`MMINF32`/`MMAXF32` and the moves deliver exact results. -/
def claStepFp (fp : ClaArith) (i : ClaInstr) (s : ClaState) : Option ClaState :=
  match i with
  | .MMOVXI a imm => some (s.set a (.u16 imm))
  | .MMOV16 m a =>
      match s.get a with
      | .u16 n => some { s with mem16 := Function.update s.mem16 m n,
                                writes := s.writes ++ [(m, n)] }
      | .f32 _ => none
  | .MI16TOF32 a m => some (s.set a (.f32 (I16TOF32 (s.mem16 m))))
  | .MMOVF32 a imm => some (s.set a (.f32 (fp.imm32 imm)))
  | .MADDF32 a b c =>
      (s.getF b).bind fun x => (s.getF c).bind fun y => some (s.set a (.f32 (fp.rnd (x + y))))
  | .MSUBF32 a b c =>
      (s.getF b).bind fun x => (s.getF c).bind fun y => some (s.set a (.f32 (fp.rnd (x - y))))
  | .MMPYF32 a b c =>
      (s.getF b).bind fun x => (s.getF c).bind fun y => some (s.set a (.f32 (fp.rnd (x * y))))
  | .MMINF32 a imm => (s.getF a).bind fun x => some (s.set a (.f32 (min x (fp.imm16 imm))))
  | .MMAXF32 a imm => (s.getF a).bind fun x => some (s.set a (.f32 (max x (fp.imm16 imm))))
  | .MF32TOUI16 a b => (s.getF b).bind fun x => some (s.set a (.u16 (F32TOUI16 x)))
  | .MMOV32_load a m => some (s.set a (.f32 (s.mem32 m)))
  | .MMOV32_store m a =>
      (s.getF a).bind fun x => some { s with mem32 := Function.update s.mem32 m x }
  | .MMACF32_MMOV32 d e f a m =>
      (s.getF .MR3).bind fun r3 => (s.getF .MR2).bind fun r2 =>
      (s.getF e).bind fun x => (s.getF f).bind fun y =>
        some (((s.set .MR3 (.f32 (fp.rnd (r3 + r2)))).set d (.f32 (fp.rnd (x * y)))).set a
          (.f32 (s.mem32 m)))
  | .MSTOP => some { s with stopped := true }
  | .MNOP => some s

/-- Run a task under the arithmetic `fp`: instructions are executed in order
until `MSTOP`. -/
def claRunFp (fp : ClaArith) : List ClaInstr → ClaState → Option ClaState
  | [], s => some s
  | i :: rest, s => if s.stopped then some s else (claStepFp fp i s).bind (claRunFp fp rest)

/-- One CLA instruction with exact arithmetic. -/
def claStep (i : ClaInstr) (s : ClaState) : Option ClaState := claStepFp exactArith i s

/-- Run a task with exact arithmetic: instructions are executed in order until
`MSTOP`. -/
def claRun : List ClaInstr → ClaState → Option ClaState
  | [], s => some s
  | i :: rest, s => if s.stopped then some s else (claStep i s).bind (claRun rest)

/-- Number of repetitions the assembler performs for a `.loop` directive
without a count. -/
def ASM_LOOP_DEFAULT : Nat := 1024

/-- Assembly-time expansion of
`.loop / body / .eval x+1, x / .break x = Steps / .endloop`
with `count` repetitions left and assembler variable `x`. -/
def asmLoop (body : List ClaInstr) (Steps : Nat) : (count : Nat) → (x : Nat) → List ClaInstr
  | 0, _ => []
  | count + 1, x =>
      let x := x + 1                                      -- .eval x+1, x
      if x = Steps then body                              -- .break x = Steps
      else body ++ asmLoop body Steps count x             -- .endloop

/-- The three instructions between `.loop` and `.eval` in `CLA_slopeCode`. -/
def slopeLoopBody (Comp : Nat) : List ClaInstr :=
  [ .MADDF32 .MR3 .MR3 .MR2,                              -- MADDF32    MR3, MR3, MR2
    .MF32TOUI16 .MR1 .MR3,                                -- MF32TOUI16 MR1, MR3
    .MMOV16 (.CompRegs Comp 6) .MR1 ]                     -- MMOV16     @_CompNRegs+6, MR1

/-- `CLA_slopeCode( Name, Comp, Pwm, Delta, Steps )`: the instructions of the
generated task (`.eval 0, x` sets the assembler variable before the loop). -/
def CLA_slopeCode (Comp Pwm : Nat) (Delta : ℚ) (Steps : Nat) : List ClaInstr :=
  [ .MMOVXI .MR3 1,                                       -- MMOVXI     MR3, #1
    .MMOV16 (.EPwmRegs Pwm 28) .MR3,                      -- MMOV16     @_EPwmNRegs+28, MR3
    .MI16TOF32 .MR3 (.CompRegs Comp 6),                   -- MI16TOF32  MR3, @_CompNRegs+6
    .MMOVF32 .MR2 Delta ]                                 -- MMOVF32    MR2, #Delta
  ++ asmLoop (slopeLoopBody Comp) Steps ASM_LOOP_DEFAULT 0
  ++ [ .MSTOP, .MNOP, .MNOP, .MNOP ]

/-- `CLA_2p2zIMode( Name, Adc, Cmp, A1, A2, B0, B1, B2, K, MiN, MaX )`: the
instructions of the generated task. -/
def CLA_2p2zIMode (Adc Cmp : Nat) (A1 A2 B0 B1 B2 K MiN MaX : ℚ) : List ClaInstr :=
  [ .MI16TOF32 .MR3 (.AdcResult (Adc - 1)),               -- MI16TOF32  MR3, @_AdcResult+Adc-1
    .MI16TOF32 .MR2 (.Ctrl 1),                            -- MI16TOF32  MR2, @_NameCtrl+1
    .MSUBF32 .MR0 .MR2 .MR3,                              -- MSUBF32    MR0, MR2, MR3
    .MMOVF32 .MR2 B0,                                     -- MMOVF32    MR2, #B0
    .MMPYF32 .MR1 .MR0 .MR2,                              -- MMPYF32    MR1, MR0, MR2
    .MMOV32_load .MR3 (.Data 0),                          -- MMOV32     MR3, @_NameData+0
    .MADDF32 .MR2 .MR3 .MR1,                              -- MADDF32    MR2, MR3, MR1
    .MMOV32_store (.Data (2 + 0 * 2)) .MR2,               -- MMOV32     @_NameData+2+(0*2), MR2
    .MMOVF32 .MR1 K,                                      -- MMOVF32    MR1, #K
    .MMPYF32 .MR2 .MR2 .MR1,                              -- MMPYF32    MR2, MR2, MR1
    .MMINF32 .MR2 MaX,                                    -- MMINF32    MR2, #MaX
    .MMAXF32 .MR2 MiN,                                    -- MMAXF32    MR2, #MiN
    .MF32TOUI16 .MR2 .MR2,                                -- MF32TOUI16 MR2, MR2
    .MMOV16 (.CompRegs Cmp 6) .MR2,                       -- MMOV16     @_CompNRegs+6, MR2
    .MMOV32_store (.Data (6 + 0 * 2)) .MR0,               -- MMOV32     @_NameData+6+(0*2), MR0
    .MMOVF32 .MR3 0,                                      -- MMOVF32    MR3, #0.0L
    .MMOVF32 .MR2 0,                                      -- MMOVF32    MR2, #0.0L
    .MMOVF32 .MR1 A2,                                     -- MMOVF32    MR1, #A2
    .MMOV32_load .MR0 (.Data (2 + 1 * 2)),                -- MMOV32     MR0, @_NameData+2+(1*2)
    .MMACF32_MMOV32 .MR2 .MR1 .MR0 .MR0 (.Data (2 + 0 * 2)),  -- MMACF32 || MMOV32 MR0, +2+(0*2)
    .MMOVF32 .MR1 A1,                                     -- MMOVF32    MR1, #A1
    .MMOV32_store (.Data (2 + 1 * 2)) .MR0,               -- MMOV32     @_NameData+2+(1*2), MR0
    .MMACF32_MMOV32 .MR2 .MR1 .MR0 .MR0 (.Data (6 + 1 * 2)),  -- MMACF32 || MMOV32 MR0, +6+(1*2)
    .MMOVF32 .MR1 B2,                                     -- MMOVF32    MR1, #B2
    .MMACF32_MMOV32 .MR2 .MR1 .MR0 .MR0 (.Data (6 + 0 * 2)),  -- MMACF32 || MMOV32 MR0, +6+(0*2)
    .MMOVF32 .MR1 B1,                                     -- MMOVF32    MR1, #B1
    .MMOV32_store (.Data (6 + 1 * 2)) .MR0,               -- MMOV32     @_NameData+6+(1*2), MR0
    .MMACF32_MMOV32 .MR2 .MR1 .MR0 .MR0 (.Data (6 + 0)),  -- MMACF32 || MMOV32 MR0, +6+0
    .MADDF32 .MR3 .MR3 .MR2,                              -- MADDF32    MR3, MR3, MR2
    .MMOV32_store (.Data 0) .MR3,                         -- MMOV32     @_NameData+0, MR3
    .MSTOP, .MNOP, .MNOP, .MNOP ]

/-- A task is triggered again: the ADC result register `_AdcResult+Adc-1`
holds the new sample and the task runs from its first instruction. Registers
and task data keep what the previous execution left. -/
def claTrigger (Adc : Nat) (sample : Nat) (s : ClaState) : ClaState :=
  { s with mem16 := Function.update s.mem16 (.AdcResult (Adc - 1)) sample, stopped := false }

/-- The first `n` executions of a task, the `k`-th one (from 0) triggered with
the ADC sample `adc k`. -/
def claPeriods (prog : List ClaInstr) (Adc : Nat) (adc : Nat → Nat) : Nat → ClaState → Option ClaState
  | 0, s => some s
  | n + 1, s => (claPeriods prog Adc adc n s).bind fun t => claRun prog (claTrigger Adc (adc n) t)

/-- The values stored to the DAC register `_CompNRegs+6`, in program order. -/
def dacWrites (Comp : Nat) (s : ClaState) : List Nat :=
  (s.writes.filter fun w => decide (w.1 = Mem16.CompRegs Comp 6)).map fun w => w.2

/-- The textbook difference equation
`y(n) = A1*y(n-1) + A2*y(n-2) + B0*e(n) + B1*e(n-1) + B2*e(n-2)`
with zero initial conditions (`y` and `e` vanish at negative indices). -/
def textbook2p2z (A1 A2 B0 B1 B2 : ℚ) (e : Nat → ℚ) : Nat → ℚ
  | 0 => B0 * e 0
  | 1 => A1 * textbook2p2z A1 A2 B0 B1 B2 e 0 + B0 * e 1 + B1 * e 0
  | n + 2 => A1 * textbook2p2z A1 A2 B0 B1 B2 e (n + 1) + A2 * textbook2p2z A1 A2 B0 B1 B2 e n
      + B0 * e (n + 2) + B1 * e (n + 1) + B2 * e n

/-! ## Clock constants (`csl_c2000_Pub.h`, `csl_sys_c2803x_Pub.h`) -/

/-- `SYS_LIT( Value, Reg )`. -/
def SYS_LIT (Value Reg : Nat) : Nat := (Value <<< 8) ||| Reg

/-- `SYS_LIT_VALUE( Lit )`. -/
def SYS_LIT_VALUE (Lit : Nat) : Nat := (Lit % 2 ^ 16) >>> 8

/-- `NS_PER_SEC`. -/
def NS_PER_SEC : Nat := 1000000000

/-- `SYS_PLL_MUL_6 = SYS_LIT( 6, 6 )`. -/
def SYS_PLL_MUL_6 : Nat := SYS_LIT 6 6

/-- `SYS_CLK_DIV_1 = SYS_LIT( 1, 3 )`. -/
def SYS_CLK_DIV_1 : Nat := SYS_LIT 1 3

/-- `USR_CLK_IN_HZ` (default). -/
def USR_CLK_IN_HZ : Nat := 10000000

/-- `USR_PLL_MUL` (default). -/
def USR_PLL_MUL : Nat := SYS_PLL_MUL_6

/-- `USR_CLK_DIV` (default). -/
def USR_CLK_DIV : Nat := SYS_CLK_DIV_1

/-- `SYS_CLK_HZ`. -/
def SYS_CLK_HZ : Nat := (1 * USR_CLK_IN_HZ * SYS_LIT_VALUE USR_PLL_MUL) / (1 * SYS_LIT_VALUE USR_CLK_DIV)

/-- Time in nanoseconds taken by `n` CLA instructions, one instruction per
system clock. -/
def claTimeNs (n : Nat) : ℚ := (n : ℚ) * NS_PER_SEC / SYS_CLK_HZ

/-! ## The program (`Example_2803xAdc_TempSensorConv.c`) -/

/-- `#define K (0.5)`. -/
def K : ℚ := 0.5

/-- `#define REF (_IQ15toF(2048))`: the Q15 word 2048 as a real number. -/
def REF : ℚ := 2048 / 2 ^ 15

/-- `#define MIN_DUTY 0`. -/
def MIN_DUTY : Int := 0

/-- `#define MAX_DUTY 1023`. -/
def MAX_DUTY : Int := 1023

/-- `#define A1 +1.69020338`. -/
def A1 : ℚ := 1.69020338

/-- `#define A2 -0.69020338`. -/
def A2 : ℚ := -0.69020338

/-- `#define B0 +3.22868006`. -/
def B0 : ℚ := 3.22868006

/-- `#define B1 +0.29060216`. -/
def B1 : ℚ := 0.29060216

/-- `#define B2 -2.93807791`. -/
def B2 : ℚ := -2.93807791

/-- `#define PERIOD_NS 5000`. -/
def PERIOD_NS : Nat := 5000

/-- The time from the ADC start of conversion to the end of the calculations
used in `main` for the PWM channel B duty, `PWM_nsToTicks( PERIOD_NS-2450+0 )`. -/
def COMPUTE_NS : Nat := 2450

/-- Number of decrements of `SlopeTask`. -/
def SLOPE_STEPS : Nat := 80

/-- Gradient of `SlopeTask`. -/
def SLOPE_DELTA : ℚ := -1.0

/-- `CLA_slopeCode( SlopeTask, 2,1, -1.0, 80 );`. -/
def SlopeTask : List ClaInstr := CLA_slopeCode 2 1 SLOPE_DELTA SLOPE_STEPS

/-- Interval between two decrements of the slope task in nanoseconds, as
documented at `CLA_slopeCode` ("fixed intervals of 50ns"). -/
def SLOPE_STEP_NS : Nat := 50

/-- Duration of the slope ramp of `SlopeTask`: `Steps` decrements. -/
def rampWindowNs : Nat := SLOPE_STEPS * SLOPE_STEP_NS

/-- Calls made by `IsrAdc`, in the order they are performed. -/
inductive IsrEvent where
  | GPIO_set (pin : Nat)
  | ADC_ackInt (adcInt : Nat)
  | storeFdbk (v : Int)
  | CNTRL_2p2z
  | CMP_setDac (cmp : Nat) (v : Nat)
  | GPIO_clr (pin : Nat)
  | CNTRL_2p2zSoftStartUpdate
  deriving DecidableEq

/-- The part of the machine `IsrAdc` works on: the controller `MyCntrl`, the
ADC result register of `ADC_MOD_1`, the DAC value of comparator 2, pin
GPIO12, and the calls performed so far. -/
structure Machine where
  MyCntrl : CNTRL_2p2zData
  ADCRESULT0 : Nat
  Comp2Dac : Nat
  Gpio12 : Bool
  trace : List IsrEvent

/-- `GPIO_set( GPIO_12 )`. -/
def GPIO_set12 (m : Machine) : Machine :=
  { m with Gpio12 := true, trace := m.trace ++ [.GPIO_set 12] }

/-- `GPIO_clr( GPIO_12 )`. -/
def GPIO_clr12 (m : Machine) : Machine :=
  { m with Gpio12 := false, trace := m.trace ++ [.GPIO_clr 12] }

/-- `ADC_ackInt( ADC_INT_1 )`: clears the interrupt flags. -/
def ADC_ackInt1 (m : Machine) : Machine :=
  { m with trace := m.trace ++ [.ADC_ackInt 1] }

/-- `ADC_getValue( ADC_MOD_1 )`, that is `*((Mod) + &AdcResult.ADCRESULT0)`. -/
def ADC_getValue1 (m : Machine) : Nat := m.ADCRESULT0

/-- `MyCntrl.Fdbk.m_Int = v`: the `uint16_t` result is stored in the `int`
view of the union. -/
def setFdbk (c : CNTRL_2p2zData) (v : Nat) : CNTRL_2p2zData :=
  { c with Fdbk := { c.Fdbk with m_Int := wrapS 16 v } }

/-- Conversion of the `int` argument to the `uint16_t` parameter of `CMP_setDac`. -/
def toUint16 (v : Int) : Nat := Int.toNat (v % 2 ^ 16)

/-- Modelled from the spec: `CMP_setDac( CMP_MOD_2, Value )`, whose body is
not part of the sources, is the threshold actuator `setThreshold(value)`; it
stores `Value` as the DAC value of comparator 2. -/
def CMP_setDac2 (Value : Nat) (m : Machine) : Machine :=
  { m with Comp2Dac := Value, trace := m.trace ++ [.CMP_setDac 2 Value] }

/-- `interrupt void IsrAdc( void )`. The bodies of `CNTRL_2p2z` and
`CNTRL_2p2zSoftStartUpdate` are not part of the sources; they are taken as the
parameters `ctl` and `ssu`, functions on the controller structure. -/
def IsrAdc (ctl ssu : CNTRL_2p2zData → CNTRL_2p2zData) (m : Machine) : Machine :=
  let m := GPIO_set12 m                                   -- GPIO_set( GPIO_12 );
  let m := ADC_ackInt1 m                                  -- ADC_ackInt( ADC_INT_1 );
  let v := ADC_getValue1 m                                -- MyCntrl.Fdbk.m_Int =
  let m := { m with MyCntrl := setFdbk m.MyCntrl v,       --     ADC_getValue(ADC_MOD_1);
                    trace := m.trace ++ [IsrEvent.storeFdbk (wrapS 16 v)] }
  let m := { m with MyCntrl := ctl m.MyCntrl,             -- CNTRL_2p2z(&MyCntrl);
                    trace := m.trace ++ [IsrEvent.CNTRL_2p2z] }
  let m := CMP_setDac2 (toUint16 m.MyCntrl.Out.m_Int) m   -- CMP_setDac( CMP_MOD_2, MyCntrl.Out.m_Int );
  let m := GPIO_clr12 m                                   -- GPIO_clr( GPIO_12 );
  { m with MyCntrl := ssu m.MyCntrl,                      -- CNTRL_2p2zSoftStartUpdate(&MyCntrl);
           trace := m.trace ++ [IsrEvent.CNTRL_2p2zSoftStartUpdate] }

/-- One switching period seen from the DAC of comparator 2: `IsrAdc` writes
the demand value, then the PWM period interrupt starts `SlopeTask` on the CLA,
which reads that DAC value. The result is the sequence of values written to
the DAC, `none` if the task does not run to completion. -/
def periodDacSequence (ctl ssu : CNTRL_2p2zData → CNTRL_2p2zData) (m : Machine) (cla : ClaState) :
    Option (List Nat) :=
  let m := IsrAdc ctl ssu m
  let cla := { cla with mem16 := Function.update cla.mem16 (.CompRegs 2 6) m.Comp2Dac,
                        writes := [], stopped := false }
  (claRun SlopeTask cla).map fun c => m.Comp2Dac :: dacWrites 2 c

/-! ## Scaled literals -/

/-- Modelled from the spec: the initialisation bound check on a Scaled value
built from a real literal, which is not part of the sources (the `_IQ`
conversions and `CNTRL_2p2zInit` are only used or declared there). The spec
accepts a literal `v` in format `F` when it lies in `[-2^(15-F), 2^(15-F))`. -/
def scaledLiteralOk (F : Nat) (v : ℚ) : Prop :=
  -((2 : ℚ) ^ ((15 : Int) - (F : Int))) ≤ v ∧ v < (2 : ℚ) ^ ((15 : Int) - (F : Int))

instance (F : Nat) (v : ℚ) : Decidable (scaledLiteralOk F v) := by
  unfold scaledLiteralOk
  infer_instance

/-- A real `v` is representable in format `F` in a signed word of `bits`
bits: `-2^(bits-1-F) <= v < 2^(bits-1-F)`, that is `v * 2^F` lies in the range
of the word. The coefficient and gain fields of `CNTRL_2p2zData` (`_iq26`,
`_iq23`) are 32-bit words; `Ref` is read as a 16-bit word. -/
def fitsWord (bits F : Nat) (v : ℚ) : Prop :=
  -((2 : ℚ) ^ ((bits : Int) - 1 - (F : Int))) ≤ v ∧ v < (2 : ℚ) ^ ((bits : Int) - 1 - (F : Int))

instance (bits F : Nat) (v : ℚ) : Decidable (fitsWord bits F v) := by
  unfold fitsWord
  infer_instance

/-! ## Initialisation (`main`) -/

/-- Rounding of a rational to the nearest integer, ties to the even one. -/
def roundHalfEven (x : ℚ) : Int :=
  if x - ⌊x⌋ < 1 / 2 then ⌊x⌋
  else if 1 / 2 < x - ⌊x⌋ then ⌊x⌋ + 1
  else if ⌊x⌋ % 2 = 0 then ⌊x⌋ else ⌊x⌋ + 1

/-- The value of an unsuffixed decimal literal in C on the C28x: `double` is
the 32-bit single-precision format there, so the literal is rounded to the
nearest number with a 24-bit significand (ties to even; the literals of the
program are far inside the normal range, so neither overflow nor subnormal
numbers are modelled). -/
def f32Literal (q : ℚ) : ℚ :=
  if q = 0 then 0
  else (roundHalfEven (q / 2 ^ (Int.log 2 |q| - 23)) : ℚ) * 2 ^ (Int.log 2 |q| - 23)

/-- The `_IQN(A)` conversions of `IQmathLib.h` (the TI library header included
by `csl_cntrl_Pub.h`, not part of the sources): `(long)((A) * 2^N)` with the
power of two a `long double` constant, so the product of the single-precision
literal is exact and the C conversion truncates it toward zero. -/
def IQN (N : Nat) (A : ℚ) : Int :=
  if 0 ≤ f32Literal A then ⌊f32Literal A * 2 ^ N⌋ else ⌈f32Literal A * 2 ^ N⌉

/-- `_IQ15(A)`. -/
def _IQ15 (A : ℚ) : Int := IQN 15 A

/-- `_IQ23(A)`. -/
def _IQ23 (A : ℚ) : Int := IQN 23 A

/-- `_IQ26(A)`. -/
def _IQ26 (A : ℚ) : Int := IQN 26 A

/-- Modelled from the spec: `CNTRL_2p2zInit`, declared in `csl_cntrl_Pub.h`
but whose body is not part of the sources. The spec's `Init(ref, a1, a2, b0,
b1, b2, k, min, max)` stores the configuration, zeroes the recurrence history
and sets the soft-start sub-state to "not started". -/
def CNTRL_2p2zInit (Ref A1 A2 B0 B1 B2 K Min Max : Int) : CNTRL_2p2zData :=
  { Ref := ⟨wrapS 16 Ref, Ref / 2 ^ 16⟩, Fdbk := ⟨0, 0⟩, Out := ⟨0, 0⟩, temp := 0,
    m_U1 := 0, m_U2 := 0, m_E0 := 0, m_E1 := 0, m_E2 := 0,
    m_B2 := B2, m_B1 := B1, m_B0 := B0, m_A2 := A2, m_A1 := A1, m_K := K,
    m_max := Max, m_min := Min,
    m_PeriodCount := 0, m_SoftRamp := 0, m_SoftRef := 0, m_SoftMax := 0 }

/-- `MyCntrl` after the call in `main`:
`CNTRL_2p2zInit(&MyCntrl, _IQ15(REF), _IQ26(A1), _IQ26(A2), _IQ26(B0),
_IQ26(B1), _IQ26(B2), _IQ23(K), MIN_DUTY, MAX_DUTY)`. -/
def MyCntrl_init : CNTRL_2p2zData :=
  CNTRL_2p2zInit (_IQ15 REF) (_IQ26 A1) (_IQ26 A2) (_IQ26 B0) (_IQ26 B1) (_IQ26 B2)
    (_IQ23 K) MIN_DUTY MAX_DUTY

/-! ## Documented argument limits and controller runs -/

/-- Lower limit of the coefficients `A0-A2, B0-B3` documented in the header of
`csl_cntrl_Pub.h` (`-32 < value`). -/
def COEFF_LIMIT_LO : ℚ := -32

/-- Upper limit of the coefficients documented in the header of
`csl_cntrl_Pub.h` (`value < 31.999999985`). -/
def COEFF_LIMIT_HI : ℚ := 31.999999985

/-- The caller's use of the controller, as in the header example and in
`IsrAdc`: the ADC result `v` is stored in `Fdbk.m_Int` and `CNTRL_2p2zInline`
is run. -/
def CNTRL_2p2zCall (x : CNTRL_2p2zData) (v : Nat) : CNTRL_2p2zData :=
  CNTRL_2p2zInline (setFdbk x v)

/-- The values read after each step of a run: `out` of the state after every
input. -/
def runOutputs {σ ι ο : Type} (step : σ → ι → σ) (out : σ → ο) : σ → List ι → List ο
  | _, [] => []
  | s, i :: is => out (step s i) :: runOutputs step out (step s i) is

/-- The structure after one call per ADC result of the list. -/
def CNTRL_2p2zRun (x : CNTRL_2p2zData) (vs : List Nat) : CNTRL_2p2zData :=
  vs.foldl CNTRL_2p2zCall x

/-- The values of `Out.m_Int` read by the caller after each call of a run. -/
def CNTRL_2p2zOutputs (x : CNTRL_2p2zData) (vs : List Nat) : List Int :=
  runOutputs CNTRL_2p2zCall (fun y => y.Out.m_Int) x vs

/-! ## Soft start -/

/-- Modelled from the spec: the soft-start sub-state of the compensator (ramp
counter, current ramp value, ramp target), for `CNTRL_2p2zSoftStartConfig` and
`CNTRL_2p2zSoftStartUpdate`, which are declared in `csl_cntrl_Pub.h` but whose
bodies are not part of the sources. `N` is the number of periods of the ramp,
`delta` the per-period increment, `max` the ramp target. -/
structure SoftStart where
  N : Nat
  count : Nat
  delta : Int
  currentRampLimit : Int
  max : Int
  complete : Bool
  deriving DecidableEq

/-- Integer division as the hardware has it: not defined for a zero divisor. -/
def checkedDiv (a : Int) (n : Nat) : Option Int :=
  if n = 0 then none else some (a / (n : Int))

/-- Modelled from the spec: `CNTRL_2p2zSoftStartConfig( Ptr, RampMs,
UpdatePeriodNs )` for a structure whose upper bound is `max`. The spec computes
the number of periods `N = rampMs / periodMs` and the per-period increment
`max / N`, starts the ramp limit at 0, and for `N = 0` sets the ramp limit to
`max` immediately instead of dividing. `none`: a division by zero. -/
def CNTRL_2p2zSoftStartConfig (max : Int) (RampMs UpdatePeriodNs : Nat) : Option SoftStart :=
  (checkedDiv ((RampMs * 1000000 : Nat) : Int) UpdatePeriodNs).bind fun n =>
    if n.toNat = 0 then
      some { N := 0, count := 0, delta := 0, currentRampLimit := max, max := max,
             complete := true }
    else
      (checkedDiv max n.toNat).map fun d =>
        { N := n.toNat, count := 0, delta := d, currentRampLimit := 0, max := max,
          complete := false }

/-- Modelled from the spec: `CNTRL_2p2zSoftStartUpdate( Ptr )`, one call per
period. While `count < N` the ramp limit is advanced by `delta` and the count
by one; when `count == N` the ramp limit is set to `max` and the ramp is
complete; once complete, further calls change nothing. -/
def CNTRL_2p2zSoftStartUpdate (s : SoftStart) : SoftStart :=
  if s.complete then s
  else
    let s1 : SoftStart :=
      if s.count < s.N then
        { s with currentRampLimit := s.currentRampLimit + s.delta, count := s.count + 1 }
      else s
    if s1.count = s1.N then { s1 with currentRampLimit := s1.max, complete := true } else s1

/-! ## `main`: order of the calls -/

/-- The calls made by `main`, with the arguments that tell them apart. -/
inductive MainCall where
  | SYS_init
  | ADC_init
  | GPIO_config
  | CLA_config
  | PWM_config
  | PWM_pin (ch : Nat)
  | PWM_setDutyA
  | PWM_setDutyB
  | PWM_setAdcSoc
  | PWM_setCallback
  | PWM_configBlanking
  | PWM_setBlankingWindow
  | PWM_setTripZone
  | PWM_setTripState (ch : Nat)
  | ADC_config
  | ADC_setCallback
  | CNTRL_2p2zInit
  | CMP_config
  | CMP_pin
  | CNTRL_2p2zSoftStartConfig
  | INT_enableGlobal (enable : Bool)
  deriving DecidableEq

/-- `void main( void )`: the calls in program order, up to the idle loop
`while(1)` (channel A is 0, channel B is 1). -/
def main : List MainCall :=
  [ .SYS_init, .ADC_init, .GPIO_config, .CLA_config, .PWM_config, .PWM_pin 0, .PWM_pin 1,
    .PWM_setDutyA, .PWM_setDutyB, .PWM_setAdcSoc, .PWM_setCallback, .PWM_configBlanking,
    .PWM_setBlankingWindow, .PWM_setTripZone, .PWM_setTripState 0, .PWM_setTripState 1,
    .ADC_config, .ADC_setCallback, .CNTRL_2p2zInit, .CMP_config, .CMP_pin,
    .CNTRL_2p2zSoftStartConfig, .INT_enableGlobal true ]

/-- What happens on the CPU: a call of `main`, or an execution of `IsrAdc`. -/
inductive MainEvent where
  | call (c : MainCall)
  | IsrAdc
  deriving DecidableEq

/-- The global interrupt enable after a call. -/
def intEnabledAfter (enabled : Bool) : MainCall → Bool
  | .INT_enableGlobal b => b
  | _ => enabled

/-- The executions of the program: the calls of `main` happen in program
order, and an interrupt routine runs between two of them (or after the last,
in the idle loop) only while interrupts are globally enabled.
`enabled` is the global interrupt enable, `rest` the calls still to make. -/
def mainTraceOk : Bool → List MainCall → List MainEvent → Bool
  | _, _, [] => true
  | enabled, rest, .IsrAdc :: tr => enabled && mainTraceOk enabled rest tr
  | _, [], .call _ :: _ => false
  | enabled, c :: rest, .call d :: tr =>
      decide (c = d) && mainTraceOk (intEnabledAfter enabled c) rest tr

/-! ## PWM ticks (`csl_pwm_t1_Pub.h`) -/

/-- `SYS_CLK_PS`. -/
def SYS_CLK_PS : Nat := NS_PER_SEC / (SYS_CLK_HZ / 1000)

/-- `PWM_nsToTicks( Ns )`, the C macro `((1000L*(Ns))/SYS_CLK_PS)`. -/
def PWM_nsToTicks (Ns : Nat) : Nat := (1000 * Ns) / SYS_CLK_PS

/-- `PWM_freqToTicks( freq )`, the C macro `(SYS_CLK_HZ/(freq))`. -/
def PWM_freqToTicks (freq : Nat) : Nat := SYS_CLK_HZ / freq

/-- The argument of `PWM_setDutyA` in `main`, `PWM_nsToTicks(PERIOD_NS)*0.6`,
converted to the `uint16_t` parameter (the product taken exactly). -/
def DUTY_A_TICKS : Nat := Int.toNat ⌊(PWM_nsToTicks PERIOD_NS : ℚ) * 0.6⌋

/-- The argument of `PWM_setDutyB` in `main`,
`PWM_nsToTicks( PERIOD_NS-2450+0 )`. -/
def DUTY_B_TICKS : Nat := PWM_nsToTicks (PERIOD_NS - COMPUTE_NS + 0)

/-! ## The 3p3z controller (`csl_cntrl_Pub.h`) -/

/-- `struct CNTRL_3p3zData`, fields in declaration order. -/
structure CNTRL_3p3zData where
  Ref : CNTRL_ARG
  Fdbk : CNTRL_ARG
  Out : CNTRL_ARG
  temp : Int
  m_U1 : Int
  m_U2 : Int
  m_U3 : Int
  m_E0 : Int
  m_E1 : Int
  m_E2 : Int
  m_E3 : Int
  m_B3 : Int
  m_B2 : Int
  m_B1 : Int
  m_B0 : Int
  m_A3 : Int
  m_A2 : Int
  m_A1 : Int
  m_K : Int
  m_max : Int
  m_min : Int
  m_PeriodCount : Int
  m_SoftRamp : Int
  m_SoftRef : Int
  m_SoftMax : Int
  deriving DecidableEq

/-- `CNTRL_3p3zInline(x)`: one line per instruction of the assembly block.
`XAR7` walks the coefficient table `m_B3, m_B2, m_B1, m_B0, m_A3, m_A2, m_A1,
m_K, m_max, m_min` (offsets +22 .. +40); `@8+k` addresses the history buffer
`m_U1, m_U2, m_U3, m_E0, m_E1, m_E2, m_E3` (offsets +8 .. +20). -/
def CNTRL_3p3zInline (x : CNTRL_3p3zData) : CNTRL_3p3zData :=
  let acc := x.Ref.m_Int                       -- MOV   ACC,@0        (Ref) Q15
  let acc := SUB acc x.Fdbk.m_Int              -- SUB   ACC,@2        (Fdbk) Q15
  let acc := LSL acc 16                        -- LSL   ACC,#16       Q31
  let E0 := acc                                -- MOVL  @8+6,ACC
  let xt := x.m_E3                             -- MOVL  XT,@8+12      XT = e(n-3)
  let acc := QMPYL xt x.m_B3                   -- QMPYL ACC,XT,*XAR7++
  let xt := x.m_E2                             -- MOVDL XT,@8+10      XT = e(n-2),
  let E3 := xt                                 --                     e(n-3) = e(n-2)
  let p := QMPYL xt x.m_B2                     -- QMPYL P,XT,*XAR7++
  let acc := ADDL acc p                        -- ADDL  ACC,P
  let xt := x.m_E1                             -- MOVDL XT,@8+8       XT = e(n-1),
  let E2 := xt                                 --                     e(n-2) = e(n-1)
  let p := QMPYL xt x.m_B1                     -- QMPYL P,XT,*XAR7++
  let acc := ADDL acc p                        -- ADDL  ACC,P
  let xt := E0                                 -- MOVDL XT,@8+6       XT = e(n),
  let E1 := xt                                 --                     e(n-1) = e(n)
  let p := QMPYL xt x.m_B0                     -- QMPYL P,XT,*XAR7++
  let acc := ADDL acc p                        -- ADDL  ACC,P
  let acc := SFR acc 1                         -- SFR   ACC,#1
  let temp := acc                              -- MOVL  @6,ACC        (temp) Q24
  let xt := x.m_U3                             -- MOVL  XT,@8+4       XT = u(n-3)
  let p := QMPYL xt x.m_A3                     -- QMPYL P,XT,*XAR7++
  let xt := x.m_U2                             -- MOVDL XT,@8+2       XT = u(n-2),
  let U3 := xt                                 --                     u(n-3) = u(n-2)
  let acc := QMPYL xt x.m_A2                   -- QMPYL ACC,XT,*XAR7++
  let acc := ADDL acc p                        -- ADDL  ACC,P
  let xt := x.m_U1                             -- MOVDL XT,@8+0       XT = u(n-1),
  let U2 := xt                                 --                     u(n-2) = u(n-1)
  let p := QMPYL xt x.m_A1                     -- QMPYL P,XT,*XAR7++
  let acc := ADDL acc p                        -- ADDL  ACC,P
  let acc := LSL acc 5                         -- LSL   ACC,#5        Q23
  let acc := ADDL acc acc                      -- ADDL  ACC,ACC       Q24
  let acc := ADDL acc temp                     -- ADDL  ACC,@6
  let U1 := acc                                -- MOVL  @8+0,ACC      u(n)
  let xt := acc                                -- MOVL  XT,ACC
  let acc := QMPYL xt x.m_K                    -- QMPYL ACC,XT,*XAR7++
  let acc := MINL acc x.m_max                  -- MINL  ACC,*XAR7++
  let acc := MAXL acc x.m_min                  -- MAXL  ACC,*XAR7++
  let AL := wrapS 16 acc                       -- MOV   @4,AL         (Out)
  { x with
    Out := { x.Out with m_Int := AL }
    temp := temp, m_U1 := U1, m_U2 := U2, m_U3 := U3,
    m_E0 := E0, m_E1 := E1, m_E2 := E2, m_E3 := E3 }

/-- `x.Fdbk.m_Int = v` for the 3p3z structure. -/
def setFdbk3 (c : CNTRL_3p3zData) (v : Nat) : CNTRL_3p3zData :=
  { c with Fdbk := { c.Fdbk with m_Int := wrapS 16 v } }

/-- The caller's use of the 3p3z controller: the ADC result is stored in
`Fdbk.m_Int` and `CNTRL_3p3zInline` is run. -/
def CNTRL_3p3zCall (x : CNTRL_3p3zData) (v : Nat) : CNTRL_3p3zData :=
  CNTRL_3p3zInline (setFdbk3 x v)

/-- The 3p3z structure after one call per ADC result of the list. -/
def CNTRL_3p3zRun (x : CNTRL_3p3zData) (vs : List Nat) : CNTRL_3p3zData :=
  vs.foldl CNTRL_3p3zCall x

/-- The values of `Out.m_Int` read after each call of a 3p3z run. -/
def CNTRL_3p3zOutputs (x : CNTRL_3p3zData) (vs : List Nat) : List Int :=
  runOutputs CNTRL_3p3zCall (fun y => y.Out.m_Int) x vs

/-- A value that a 32-bit `long` field can hold. -/
def isInt32 (v : Int) : Prop := -(2 ^ 31) ≤ v ∧ v < 2 ^ 31

instance (v : Int) : Decidable (isInt32 v) := by
  unfold isInt32
  infer_instance

/-- No instruction of `CNTRL_2p2zInline` before the final store overflows for
the structure `x`: the subtraction, the two shifts and the five additions give
their exact results (nothing saturates and no bit is shifted out). -/
def CNTRL_2p2zNoOverflow (x : CNTRL_2p2zData) : Prop :=
  let E0 := (x.Ref.m_Int - x.Fdbk.m_Int) * 2 ^ 16
  let sb := QMPYL x.m_E2 x.m_B2 + QMPYL x.m_E1 x.m_B1
  let sa := QMPYL x.m_U2 x.m_A2 + QMPYL x.m_U1 x.m_A1
  isInt32 (x.Ref.m_Int - x.Fdbk.m_Int) ∧ isInt32 E0
    ∧ isInt32 sb ∧ isInt32 (sb + QMPYL E0 x.m_B0)
    ∧ isInt32 sa ∧ isInt32 (sa * 2 ^ 5) ∧ isInt32 (sa * 2 ^ 5 + sa * 2 ^ 5)
    ∧ isInt32 (sa * 2 ^ 5 + sa * 2 ^ 5 + (sb + QMPYL E0 x.m_B0) / 2 ^ 1)

instance (x : CNTRL_2p2zData) : Decidable (CNTRL_2p2zNoOverflow x) := by
  unfold CNTRL_2p2zNoOverflow
  infer_instance

/-! ## Interrupt identifiers (`csl_c2000_Pub.h`, `csl_int_t0_Pub.h`) -/

/-- `INT_GROUP_VAL( Group, Index )`. -/
def INT_GROUP_VAL (Group Index : Nat) : Nat := (Group - 1) * 8 + (Index - 1)

/-- `INT_pieIdToGroup( PieId )`. -/
def INT_pieIdToGroup (PieId : Nat) : Nat := PieId >>> 3

/-- `INT_pieIdToIndex( PieId )`. -/
def INT_pieIdToIndex (PieId : Nat) : Nat := PieId &&& 7

/-- `SYS_LIT_REG( Lit )`. -/
def SYS_LIT_REG (Lit : Nat) : Nat := (Lit % 2 ^ 16) &&& 0xFF

/-- `INT_ID_EPWM1 = INT_GROUP_VAL( 3, 1 )`. -/
def INT_ID_EPWM1 : Nat := INT_GROUP_VAL 3 1

/-- `INT_ID_ADCINT1 = INT_GROUP_VAL( 10, 1 )`. -/
def INT_ID_ADCINT1 : Nat := INT_GROUP_VAL 10 1

/-- `ADC_INT_1 = SYS_LIT( 0, INT_ID_ADCINT1 )`. -/
def ADC_INT_1 : Nat := SYS_LIT 0 INT_ID_ADCINT1

/-- `ADC_getPieId( AdcInt )`, the C macro `((INT_PieId)SYS_LIT_REG(AdcInt))`. -/
def ADC_getPieId (AdcInt : Nat) : Nat := SYS_LIT_REG AdcInt

/-- `INT_ackGroup( GroupId )`: the value written to `PieCtrlRegs.PIEACK.all`,
`(1<<(GroupId))`. -/
def INT_ackGroup (GroupId : Nat) : Nat := 1 <<< GroupId

/-- `INT_ackPieGroup( PieId )`: `INT_ackGroup( INT_pieIdToGroup(PieId) )`. -/
def INT_ackPieGroup (PieId : Nat) : Nat := INT_ackGroup (INT_pieIdToGroup PieId)

/-- `CLA_2p2zVMode( Name, Adc, Pwm, A1, A2, B0, B1, B2, K, MiN, MaX )`: the
instructions of the generated task; it differs from `CLA_2p2zIMode` in the
register written, the compare register `_EPwmNRegs+9`. -/
def CLA_2p2zVMode (Adc Pwm : Nat) (A1 A2 B0 B1 B2 K MiN MaX : ℚ) : List ClaInstr :=
  [ .MI16TOF32 .MR3 (.AdcResult (Adc - 1)),               -- MI16TOF32  MR3, @_AdcResult+Adc-1
    .MI16TOF32 .MR2 (.Ctrl 1),                            -- MI16TOF32  MR2, @_NameCtrl+1
    .MSUBF32 .MR0 .MR2 .MR3,                              -- MSUBF32    MR0, MR2, MR3
    .MMOVF32 .MR2 B0,                                     -- MMOVF32    MR2, #B0
    .MMPYF32 .MR1 .MR0 .MR2,                              -- MMPYF32    MR1, MR0, MR2
    .MMOV32_load .MR3 (.Data 0),                          -- MMOV32     MR3, @_NameData+0
    .MADDF32 .MR2 .MR3 .MR1,                              -- MADDF32    MR2, MR3, MR1
    .MMOV32_store (.Data (2 + 0 * 2)) .MR2,               -- MMOV32     @_NameData+2+(0*2), MR2
    .MMOVF32 .MR1 K,                                      -- MMOVF32    MR1, #K
    .MMPYF32 .MR2 .MR2 .MR1,                              -- MMPYF32    MR2, MR2, MR1
    .MMINF32 .MR2 MaX,                                    -- MMINF32    MR2, #MaX
    .MMAXF32 .MR2 MiN,                                    -- MMAXF32    MR2, #MiN
    .MF32TOUI16 .MR2 .MR2,                                -- MF32TOUI16 MR2, MR2
    .MMOV16 (.EPwmRegs Pwm 9) .MR2,                       -- MMOV16     @_EPwmNRegs+9, MR2
    .MMOV32_store (.Data (6 + 0 * 2)) .MR0,               -- MMOV32     @_NameData+6+(0*2), MR0
    .MMOVF32 .MR3 0,                                      -- MMOVF32    MR3, #0.0L
    .MMOVF32 .MR2 0,                                      -- MMOVF32    MR2, #0.0L
    .MMOVF32 .MR1 A2,                                     -- MMOVF32    MR1, #A2
    .MMOV32_load .MR0 (.Data (2 + 1 * 2)),                -- MMOV32     MR0, @_NameData+2+(1*2)
    .MMACF32_MMOV32 .MR2 .MR1 .MR0 .MR0 (.Data (2 + 0 * 2)),  -- MMACF32 || MMOV32 MR0, +2+(0*2)
    .MMOVF32 .MR1 A1,                                     -- MMOVF32    MR1, #A1
    .MMOV32_store (.Data (2 + 1 * 2)) .MR0,               -- MMOV32     @_NameData+2+(1*2), MR0
    .MMACF32_MMOV32 .MR2 .MR1 .MR0 .MR0 (.Data (6 + 1 * 2)),  -- MMACF32 || MMOV32 MR0, +6+(1*2)
    .MMOVF32 .MR1 B2,                                     -- MMOVF32    MR1, #B2
    .MMACF32_MMOV32 .MR2 .MR1 .MR0 .MR0 (.Data (6 + 0 * 2)),  -- MMACF32 || MMOV32 MR0, +6+(0*2)
    .MMOVF32 .MR1 B1,                                     -- MMOVF32    MR1, #B1
    .MMOV32_store (.Data (6 + 1 * 2)) .MR0,               -- MMOV32     @_NameData+6+(1*2), MR0
    .MMACF32_MMOV32 .MR2 .MR1 .MR0 .MR0 (.Data (6 + 0)),  -- MMACF32 || MMOV32 MR0, +6+0
    .MADDF32 .MR3 .MR3 .MR2,                              -- MADDF32    MR3, MR3, MR2
    .MMOV32_store (.Data 0) .MR3,                         -- MMOV32     @_NameData+0, MR3
    .MSTOP, .MNOP, .MNOP, .MNOP ]

/-! ## Concrete controller states -/

/-- The decimal example coefficients truncated to Q26 (`m_A1 + m_A2 = 2^26`),
holding `U = 2^24` (1.0 in Q24) at zero error. -/
def holdState : CNTRL_2p2zData :=
  { Ref := ⟨2048, 0⟩, Fdbk := ⟨2048, 0⟩, Out := ⟨0, 0⟩, temp := 0,
    m_U1 := 2 ^ 24, m_U2 := 2 ^ 24, m_E0 := 0, m_E1 := 0, m_E2 := 0,
    m_B2 := -197171070, m_B1 := 19501980, m_B0 := 216673051,
    m_A2 := -46318764, m_A1 := 113427628, m_K := 4194304,
    m_max := 1023, m_min := 0,
    m_PeriodCount := 0, m_SoftRamp := 0, m_SoftRef := 0, m_SoftMax := 0 }

/-- A controller with unit zero coefficient `b0 = 1.0`, gain `K = 2.0`, full
scale reference word and bounds wider than the 16-bit output word. -/
def wideBoundsState : CNTRL_2p2zData :=
  { Ref := ⟨32767, 0⟩, Fdbk := ⟨0, 0⟩, Out := ⟨0, 0⟩, temp := 0,
    m_U1 := 0, m_U2 := 0, m_E0 := 0, m_E1 := 0, m_E2 := 0,
    m_B2 := 0, m_B1 := 0, m_B0 := 2 ^ 26, m_A2 := 0, m_A1 := 0, m_K := 2 ^ 24,
    m_max := 100000, m_min := -100000,
    m_PeriodCount := 0, m_SoftRamp := 0, m_SoftRef := 0, m_SoftMax := 0 }

/-- The decimal example coefficients truncated to Q26, with the pole histories
at the two ends of the 32-bit range, so that the pole sum overflows in the
first call. -/
def saturating2p2z : CNTRL_2p2zData :=
  { Ref := ⟨2048, 0⟩, Fdbk := ⟨0, 0⟩, Out := ⟨0, 0⟩, temp := 0,
    m_U1 := 2 ^ 31 - 1, m_U2 := -(2 ^ 31), m_E0 := 0, m_E1 := 0, m_E2 := 0,
    m_B2 := -197171070, m_B1 := 19501980, m_B0 := 216673051,
    m_A2 := -46318764, m_A1 := 113427628, m_K := 4194304,
    m_max := 1023, m_min := 0,
    m_PeriodCount := 0, m_SoftRamp := 0, m_SoftRef := 0, m_SoftMax := 0 }

/-- The 3p3z structure with the configuration and histories of
`saturating2p2z`, `m_A3 = m_B3 = 0`, and arbitrary oldest histories. -/
def reduced3p3z : CNTRL_3p3zData :=
  { Ref := ⟨2048, 0⟩, Fdbk := ⟨0, 0⟩, Out := ⟨0, 0⟩, temp := 0,
    m_U1 := 2 ^ 31 - 1, m_U2 := -(2 ^ 31), m_U3 := 12345,
    m_E0 := 0, m_E1 := 0, m_E2 := 0, m_E3 := -6789,
    m_B3 := 0, m_B2 := -197171070, m_B1 := 19501980, m_B0 := 216673051,
    m_A3 := 0, m_A2 := -46318764, m_A1 := 113427628, m_K := 4194304,
    m_max := 1023, m_min := 0,
    m_PeriodCount := 0, m_SoftRamp := 0, m_SoftRef := 0, m_SoftMax := 0 }

/-! ## Theorems -/

theorem wrapS_16_of_range (v : Int) (hlo : -(2 ^ 15) ≤ v) (hhi : v < 2 ^ 15) :
    wrapS 16 v = v := by
  unfold wrapS
  norm_num
  omega

/-- C1: with `-2^15 <= m_min <= m_max < 2^15`, after one `CNTRL_2p2zInline`
the stored output `Out.m_Int` is `max (min (floor (u(n) * m_K / 2^32)) m_max) m_min`,
where `u(n)` is the value just stored in `m_U1`; hence it lies in
`[m_min, m_max]` whatever the filter result is. -/
theorem CNTRL_2p2zInline_out_clamped (x : CNTRL_2p2zData)
    (hmin : -(2 ^ 15) ≤ x.m_min) (hle : x.m_min ≤ x.m_max) (hmax : x.m_max < 2 ^ 15) :
    (CNTRL_2p2zInline x).Out.m_Int
        = max (min ((CNTRL_2p2zInline x).m_U1 * x.m_K / 2 ^ 32) x.m_max) x.m_min
      ∧ x.m_min ≤ (CNTRL_2p2zInline x).Out.m_Int
      ∧ (CNTRL_2p2zInline x).Out.m_Int ≤ x.m_max := by
  have key : (CNTRL_2p2zInline x).Out.m_Int
      = wrapS 16 (max (min ((CNTRL_2p2zInline x).m_U1 * x.m_K / 2 ^ 32) x.m_max) x.m_min) := rfl
  have hlo : -(2 ^ 15) ≤ max (min ((CNTRL_2p2zInline x).m_U1 * x.m_K / 2 ^ 32) x.m_max) x.m_min :=
    le_trans hmin (le_max_right _ _)
  have hhi : max (min ((CNTRL_2p2zInline x).m_U1 * x.m_K / 2 ^ 32) x.m_max) x.m_min < 2 ^ 15 :=
    lt_of_le_of_lt (max_le (min_le_right _ _) hle) hmax
  rw [key, wrapS_16_of_range _ hlo hhi]
  exact ⟨rfl, le_max_right _ _, max_le (min_le_right _ _) hle⟩

/-! ### One execution of `CLA_2p2zIMode` -/

theorem CLA_2p2zIMode_run_eq (Adc Cmp : Nat) (A1 A2 B0 B1 B2 K MiN MaX : ℚ)
    (r0 r1 r2 r3 : MVal) (m16 : Mem16 → Nat) (m32 : Mem32 → ℚ) (w : List (Mem16 × Nat)) :
    let e0 := I16TOF32 (m16 (.Ctrl 1)) - I16TOF32 (m16 (.AdcResult (Adc - 1)))
    let u0 := m32 (.Data 0) + e0 * B0
    let out := F32TOUI16 (max (min (u0 * K) MaX) MiN)
    let pre := 0 + 0 + A2 * m32 (.Data 4) + A1 * u0 + B2 * m32 (.Data 8) + B1 * e0
    claRun (CLA_2p2zIMode Adc Cmp A1 A2 B0 B1 B2 K MiN MaX) ⟨r0, r1, r2, r3, m16, m32, w, false⟩
      = some ⟨.f32 e0, .f32 B1, .f32 (B1 * e0), .f32 pre,
              Function.update m16 (.CompRegs Cmp 6) out,
              Function.update (Function.update (Function.update (Function.update (Function.update
                m32 (.Data 2) u0) (.Data 6) e0) (.Data 4) u0) (.Data 8) e0) (.Data 0) pre,
              w ++ [(.CompRegs Cmp 6, out)], true⟩ := by
  intro e0 u0 out pre
  rfl

theorem CLA_2p2zIMode_run (Adc Cmp : Nat) (A1 A2 B0 B1 B2 K MiN MaX : ℚ) (s : ClaState)
    (hs : s.stopped = false) :
    ∃ t, claRun (CLA_2p2zIMode Adc Cmp A1 A2 B0 B1 B2 K MiN MaX) s = some t
      ∧ t.mem32 (.Data 2) = s.mem32 (.Data 0)
          + (I16TOF32 (s.mem16 (.Ctrl 1)) - I16TOF32 (s.mem16 (.AdcResult (Adc - 1)))) * B0
      ∧ t.mem32 (.Data 4) = t.mem32 (.Data 2)
      ∧ t.mem32 (.Data 6) = I16TOF32 (s.mem16 (.Ctrl 1)) - I16TOF32 (s.mem16 (.AdcResult (Adc - 1)))
      ∧ t.mem32 (.Data 8) = t.mem32 (.Data 6)
      ∧ t.mem32 (.Data 0) = A2 * s.mem32 (.Data 4) + A1 * t.mem32 (.Data 2)
          + B2 * s.mem32 (.Data 8) + B1 * t.mem32 (.Data 6)
      ∧ t.mem16 (.Ctrl 1) = s.mem16 (.Ctrl 1)
      ∧ t.writes = s.writes ++ [(.CompRegs Cmp 6,
          F32TOUI16 (max (min ((s.mem32 (.Data 0)
            + (I16TOF32 (s.mem16 (.Ctrl 1)) - I16TOF32 (s.mem16 (.AdcResult (Adc - 1)))) * B0) * K)
              MaX) MiN))]
      ∧ t.stopped = true := by
  obtain ⟨r0, r1, r2, r3, m16, m32, w, st⟩ := s
  simp only at hs
  subst hs
  refine ⟨_, CLA_2p2zIMode_run_eq Adc Cmp A1 A2 B0 B1 B2 K MiN MaX r0 r1 r2 r3 m16 m32 w, ?_⟩
  simp [Function.update]

theorem claPeriods_zero (prog : List ClaInstr) (Adc : Nat) (adc : Nat → Nat) (s : ClaState) :
    claPeriods prog Adc adc 0 s = some s := rfl

theorem claPeriods_succ (prog : List ClaInstr) (Adc : Nat) (adc : Nat → Nat) (n : Nat)
    (s : ClaState) :
    claPeriods prog Adc adc (n + 1) s
      = (claPeriods prog Adc adc n s).bind fun t => claRun prog (claTrigger Adc (adc n) t) := rfl

/-- The recurrence invariant, for any task `prog` whose single execution has
the effect established in `CLA_2p2zIMode_run`. -/
theorem claPeriods_inv_of_run (prog : List ClaInstr) (Adc : Nat) (A1 A2 B0 B1 B2 : ℚ)
    (hrun : ∀ s : ClaState, s.stopped = false →
      ∃ t, claRun prog s = some t
        ∧ t.mem32 (.Data 2) = s.mem32 (.Data 0)
            + (I16TOF32 (s.mem16 (.Ctrl 1)) - I16TOF32 (s.mem16 (.AdcResult (Adc - 1)))) * B0
        ∧ t.mem32 (.Data 4) = t.mem32 (.Data 2)
        ∧ t.mem32 (.Data 6)
            = I16TOF32 (s.mem16 (.Ctrl 1)) - I16TOF32 (s.mem16 (.AdcResult (Adc - 1)))
        ∧ t.mem32 (.Data 8) = t.mem32 (.Data 6)
        ∧ t.mem32 (.Data 0) = A2 * s.mem32 (.Data 4) + A1 * t.mem32 (.Data 2)
            + B2 * s.mem32 (.Data 8) + B1 * t.mem32 (.Data 6)
        ∧ t.mem16 (.Ctrl 1) = s.mem16 (.Ctrl 1))
    (adc : Nat → Nat) (s : ClaState)
    (h0 : s.mem32 (.Data 0) = 0) (h4 : s.mem32 (.Data 4) = 0) (h8 : s.mem32 (.Data 8) = 0)
    (n : Nat) :
    ∃ t, claPeriods prog Adc adc (n + 1) s = some t
      ∧ t.mem16 (.Ctrl 1) = s.mem16 (.Ctrl 1)
      ∧ t.mem32 (.Data 2) = textbook2p2z A1 A2 B0 B1 B2
          (fun k => I16TOF32 (s.mem16 (.Ctrl 1)) - I16TOF32 (adc k)) n
      ∧ t.mem32 (.Data 4) = t.mem32 (.Data 2)
      ∧ t.mem32 (.Data 6) = I16TOF32 (s.mem16 (.Ctrl 1)) - I16TOF32 (adc n)
      ∧ t.mem32 (.Data 8) = t.mem32 (.Data 6)
      ∧ t.mem32 (.Data 0) + B0 * (I16TOF32 (s.mem16 (.Ctrl 1)) - I16TOF32 (adc (n + 1)))
          = textbook2p2z A1 A2 B0 B1 B2
              (fun k => I16TOF32 (s.mem16 (.Ctrl 1)) - I16TOF32 (adc k)) (n + 1) := by
  have hadc : ∀ (v : Nat) (u : ClaState),
      (claTrigger Adc v u).mem16 (.AdcResult (Adc - 1)) = v := by
    intro v u; simp [claTrigger]
  have hctl : ∀ (v : Nat) (u : ClaState),
      (claTrigger Adc v u).mem16 (.Ctrl 1) = u.mem16 (.Ctrl 1) := by
    intro v u; simp [claTrigger]
  have hmem : ∀ (v : Nat) (u : ClaState), (claTrigger Adc v u).mem32 = u.mem32 := by
    intro v u; rfl
  induction n with
  | zero =>
    obtain ⟨t, ht, h2', h4', h6', h8', h0', hc⟩ := hrun (claTrigger Adc (adc 0) s) rfl
    simp only [hadc, hctl, hmem] at h2' h6' h0' hc
    refine ⟨t, ?_, hc, ?_, h4', h6', h8', ?_⟩
    · rw [claPeriods_succ, claPeriods_zero, Option.some_bind]
      exact ht
    · rw [h2', h0]; simp only [textbook2p2z]; ring
    · rw [h0', h6', h2', h0, h4, h8]; simp only [textbook2p2z]; ring
  | succ n ih =>
    obtain ⟨u, hu, hcu, h2u, h4u, h6u, h8u, h0u⟩ := ih
    obtain ⟨t, ht, h2', h4', h6', h8', h0', hc⟩ := hrun (claTrigger Adc (adc (n + 1)) u) rfl
    simp only [hadc, hctl, hmem, hcu] at h2' h6' h0' hc
    have e2 : t.mem32 (.Data 2) = textbook2p2z A1 A2 B0 B1 B2
          (fun k => I16TOF32 (s.mem16 (.Ctrl 1)) - I16TOF32 (adc k)) (n + 1) := by
      rw [h2', ← h0u]; ring
    refine ⟨t, ?_, hc, e2, h4', h6', h8', ?_⟩
    · rw [claPeriods_succ, hu, Option.some_bind]
      exact ht
    · rw [h0', h6', e2, h4u, h8u, h6u, h2u]
      simp only [textbook2p2z]
      ring

theorem I16TOF32_zero : I16TOF32 0 = 0 := by
  norm_num [I16TOF32, wrapS]

/-- C2: with exact arithmetic and the task data zeroed at power-up, the value
`U0` stored by the `n`-th execution of the pipelined `CLA_2p2zIMode` task equals
`y(n)` of the textbook difference equation with zero initial conditions and
`e(k) = Ref - Adc(k)`; every execution runs to completion. -/
theorem CLA_2p2zIMode_refines_textbook (Adc Cmp : Nat) (A1 A2 B0 B1 B2 K MiN MaX : ℚ)
    (adc : Nat → Nat) (s : ClaState)
    (hPre : s.mem32 (.Data 0) = 0)
    (hU0 : s.mem32 (.Data 2) = 0) (hU1 : s.mem32 (.Data 4) = 0)
    (hE0 : s.mem32 (.Data 6) = 0) (hE1 : s.mem32 (.Data 8) = 0) (n : Nat) :
    ∃ t, claPeriods (CLA_2p2zIMode Adc Cmp A1 A2 B0 B1 B2 K MiN MaX) Adc adc (n + 1) s = some t
      ∧ t.mem32 (.Data 2) = textbook2p2z A1 A2 B0 B1 B2
          (fun k => I16TOF32 (s.mem16 (.Ctrl 1)) - I16TOF32 (adc k)) n := by
  have _h := hU0
  have _h' := hE0
  obtain ⟨t, ht, -, h2, -⟩ := claPeriods_inv_of_run
    (CLA_2p2zIMode Adc Cmp A1 A2 B0 B1 B2 K MiN MaX) Adc A1 A2 B0 B1 B2
    (fun u hu => by
      obtain ⟨t, ht, a, b, c, d, e, f, -, -⟩ :=
        CLA_2p2zIMode_run Adc Cmp A1 A2 B0 B1 B2 K MiN MaX u hu
      exact ⟨t, ht, a, b, c, d, e, f⟩)
    adc s hPre hU1 hE1 n
  exact ⟨t, ht, h2⟩

/-- Witness for C2: the task of the header example run three times from
zeroed task data. -/
theorem CLA_2p2zIMode_refines_textbook_witness :
    ∃ t, claPeriods (CLA_2p2zIMode 7 3 A1 A2 B0 B1 B2 K 0 240) 7 (fun k => 100 * k) (2 + 1)
          ⟨.u16 0, .u16 0, .u16 0, .u16 0, fun _ => 2048, fun _ => 0, [], true⟩ = some t
      ∧ t.mem32 (.Data 2) = textbook2p2z A1 A2 B0 B1 B2
          (fun k => I16TOF32 2048 - I16TOF32 (100 * k)) 2 :=
  CLA_2p2zIMode_refines_textbook 7 3 A1 A2 B0 B1 B2 K 0 240 (fun k => 100 * k)
    ⟨.u16 0, .u16 0, .u16 0, .u16 0, fun _ => 2048, fun _ => 0, [], true⟩ rfl rfl rfl rfl rfl 2

/-! ### The configuration of `main` as fixed-point words -/

theorem roundHalfEven_eq (x : ℚ) (m : Int) (h1 : (m : ℚ) - 1 / 2 < x) (h2 : x < m + 1 / 2) :
    roundHalfEven x = m := by
  unfold roundHalfEven
  by_cases hx : (m : ℚ) ≤ x
  · have hf : ⌊x⌋ = m := by
      rw [Int.floor_eq_iff]
      constructor <;> linarith
    rw [hf, if_pos (by linarith)]
  · push_neg at hx
    have hf : ⌊x⌋ = m - 1 := by
      rw [Int.floor_eq_iff]
      push_cast
      constructor <;> linarith
    rw [hf]
    push_cast
    rw [if_neg (by linarith), if_pos (by linarith)]
    ring

/-- The single-precision value of a literal `q` with `2^e <= |q| < 2^(e+1)` is
`m * 2^(e-23)`, `m` being the integer nearest to `q / 2^(e-23)`. -/
theorem f32Literal_eq (q : ℚ) (e m : Int) (h1 : (2 : ℚ) ^ e ≤ |q|) (h2 : |q| < (2 : ℚ) ^ (e + 1))
    (h3 : (m : ℚ) - 1 / 2 < q / 2 ^ (e - 23)) (h4 : q / 2 ^ (e - 23) < m + 1 / 2) :
    f32Literal q = m * 2 ^ (e - 23) := by
  have hpos : (0 : ℚ) < |q| := lt_of_lt_of_le (by positivity) h1
  have hq : q ≠ 0 := abs_pos.mp hpos
  have hlog : Int.log 2 |q| = e := by
    apply le_antisymm
    · have := (Int.lt_zpow_iff_log_lt (b := 2) (by norm_num) hpos (x := e + 1)).mp
        (by exact_mod_cast h2)
      omega
    · exact (Int.zpow_le_iff_le_log (b := 2) (by norm_num) hpos).mp (by exact_mod_cast h1)
  unfold f32Literal
  rw [if_neg hq, hlog, roundHalfEven_eq _ m h3 h4]

theorem IQ26_A1 : _IQ26 A1 = 113427632 := by
  have h : f32Literal A1 = (14178454 : Int) * 2 ^ ((0 : Int) - 23) := by
    unfold A1
    apply f32Literal_eq <;> norm_num [abs_of_pos]
  unfold _IQ26 IQN
  rw [h, if_pos (by norm_num), Int.floor_eq_iff]
  norm_num

theorem IQ26_A2 : _IQ26 A2 = -46318764 := by
  have h : f32Literal A2 = (-11579691 : Int) * 2 ^ ((-1 : Int) - 23) := by
    unfold A2
    apply f32Literal_eq <;> norm_num [abs_of_neg]
  unfold _IQ26 IQN
  rw [h, if_neg (by norm_num), Int.ceil_eq_iff]
  norm_num

theorem IQ26_B0 : _IQ26 B0 = 216673056 := by
  have h : f32Literal B0 = (13542066 : Int) * 2 ^ ((1 : Int) - 23) := by
    unfold B0
    apply f32Literal_eq <;> norm_num [abs_of_pos]
  unfold _IQ26 IQN
  rw [h, if_pos (by norm_num), Int.floor_eq_iff]
  norm_num

theorem IQ26_B1 : _IQ26 B1 = 19501980 := by
  have h : f32Literal B1 = (9750990 : Int) * 2 ^ ((-2 : Int) - 23) := by
    unfold B1
    apply f32Literal_eq <;> norm_num [abs_of_pos]
  unfold _IQ26 IQN
  rw [h, if_pos (by norm_num), Int.floor_eq_iff]
  norm_num

theorem IQ26_B2 : _IQ26 B2 = -197171072 := by
  have h : f32Literal B2 = (-12323192 : Int) * 2 ^ ((1 : Int) - 23) := by
    unfold B2
    apply f32Literal_eq <;> norm_num [abs_of_neg]
  unfold _IQ26 IQN
  rw [h, if_neg (by norm_num), Int.ceil_eq_iff]
  norm_num

theorem IQ23_K : _IQ23 K = 4194304 := by
  have h : f32Literal K = (8388608 : Int) * 2 ^ ((-1 : Int) - 23) := by
    unfold K
    apply f32Literal_eq <;> norm_num [abs_of_pos]
  unfold _IQ23 IQN
  rw [h, if_pos (by norm_num), Int.floor_eq_iff]
  norm_num

theorem IQ15_REF : _IQ15 REF = 2048 := by
  have h : f32Literal REF = (8388608 : Int) * 2 ^ ((-4 : Int) - 23) := by
    unfold REF
    apply f32Literal_eq <;> norm_num [abs_of_pos]
  unfold _IQ15 IQN
  rw [h, if_pos (by norm_num), Int.floor_eq_iff]
  norm_num

/-- The controller structure after the initialisation in `main`, field by field. -/
theorem MyCntrl_init_eq : MyCntrl_init =
    { Ref := ⟨2048, 0⟩, Fdbk := ⟨0, 0⟩, Out := ⟨0, 0⟩, temp := 0,
      m_U1 := 0, m_U2 := 0, m_E0 := 0, m_E1 := 0, m_E2 := 0,
      m_B2 := -197171072, m_B1 := 19501980, m_B0 := 216673056,
      m_A2 := -46318764, m_A1 := 113427632, m_K := 4194304,
      m_max := 1023, m_min := 0,
      m_PeriodCount := 0, m_SoftRamp := 0, m_SoftRef := 0, m_SoftMax := 0 } := by
  unfold MyCntrl_init CNTRL_2p2zInit
  rw [IQ26_A1, IQ26_A2, IQ26_B0, IQ26_B1, IQ26_B2, IQ23_K, IQ15_REF]
  rfl


/-- Witness for C1: the controller of `main` right after initialisation. -/
theorem CNTRL_2p2zInline_out_clamped_witness :
    (-(2 ^ 15) ≤ MyCntrl_init.m_min ∧ MyCntrl_init.m_min ≤ MyCntrl_init.m_max
        ∧ MyCntrl_init.m_max < 2 ^ 15)
      ∧ ((CNTRL_2p2zInline MyCntrl_init).Out.m_Int
            = max (min ((CNTRL_2p2zInline MyCntrl_init).m_U1 * MyCntrl_init.m_K / 2 ^ 32)
                MyCntrl_init.m_max) MyCntrl_init.m_min
          ∧ MyCntrl_init.m_min ≤ (CNTRL_2p2zInline MyCntrl_init).Out.m_Int
          ∧ (CNTRL_2p2zInline MyCntrl_init).Out.m_Int ≤ MyCntrl_init.m_max) :=
  ⟨⟨by decide, by decide, by decide⟩,
    CNTRL_2p2zInline_out_clamped MyCntrl_init (by decide) (by decide) (by decide)⟩

/-! ### The value written to the DAC by `CLA_2p2zIMode` -/

theorem F32TOUI16_range (c MiN MaX : ℚ) (h0 : 0 ≤ MiN) (hint : ((⌊MiN⌋ : Int) : ℚ) = MiN)
    (hlo : MiN ≤ c) (hhi : c ≤ MaX) (hM : MaX ≤ 65535) :
    MiN ≤ (F32TOUI16 c : ℚ) ∧ (F32TOUI16 c : ℚ) ≤ MaX := by
  have hf0 : (0 : Int) ≤ ⌊c⌋ := Int.floor_nonneg.2 (h0.trans hlo)
  have hfc : ((⌊c⌋ : Int) : ℚ) ≤ c := Int.floor_le c
  have hf1 : ⌊c⌋ ≤ 65535 := by
    have : ((⌊c⌋ : Int) : ℚ) ≤ ((65535 : Int) : ℚ) := by
      push_cast
      exact hfc.trans (hhi.trans hM)
    exact_mod_cast this
  have hnat : ((Int.toNat ⌊c⌋ : Nat) : Int) = ⌊c⌋ := Int.toNat_of_nonneg hf0
  have hle : Int.toNat ⌊c⌋ ≤ 65535 := by omega
  have hval : ((F32TOUI16 c : Nat) : ℚ) = ((⌊c⌋ : Int) : ℚ) := by
    unfold F32TOUI16
    rw [min_eq_left hle]
    have : (((Int.toNat ⌊c⌋ : Nat) : Int) : ℚ) = ((⌊c⌋ : Int) : ℚ) := by rw [hnat]
    exact_mod_cast this
  rw [hval]
  refine ⟨?_, hfc.trans hhi⟩
  rw [← hint]
  exact_mod_cast Int.floor_mono hlo

theorem F32TOUI16_half : F32TOUI16 (1 / 2) = 0 := by
  have h : ⌊(1 / 2 : ℚ)⌋ = 0 := by
    rw [Int.floor_eq_iff]
    norm_num
  unfold F32TOUI16
  rw [h]
  rfl

/-- Counterexample to C3 as stated: with `MiN = 1/2` and `MaX = 7/10`
(`0 <= MiN <= MaX`), zero task data and `Ref = Adc`, the task writes 0 to the
DAC, which is below `MiN`. -/
theorem CLA_2p2zIMode_dac_value_below_MiN :
    (0 : ℚ) ≤ 1 / 2 ∧ (1 / 2 : ℚ) ≤ 7 / 10
      ∧ ∃ t, claRun (CLA_2p2zIMode 7 3 A1 A2 B0 B1 B2 K (1 / 2) (7 / 10))
            ⟨.u16 0, .u16 0, .u16 0, .u16 0, fun _ => 0, fun _ => 0, [], false⟩ = some t
          ∧ t.writes = [(.CompRegs 3 6, 0)]
          ∧ ¬ ((1 / 2 : ℚ) ≤ ((0 : Nat) : ℚ)) := by
  refine ⟨by norm_num, by norm_num, _,
    CLA_2p2zIMode_run_eq 7 3 A1 A2 B0 B1 B2 K (1 / 2) (7 / 10)
      (.u16 0) (.u16 0) (.u16 0) (.u16 0) (fun _ => 0) (fun _ => 0) [], ?_, by norm_num⟩
  have hmax : max (min (((0 : ℚ) + (I16TOF32 0 - I16TOF32 0) * B0) * K) (7 / 10)) (1 / 2)
      = 1 / 2 := by
    rw [I16TOF32_zero]
    norm_num
  simp only [List.nil_append, hmax, F32TOUI16_half]

/-! ### The interrupt routine -/

/-- C6: every invocation of `IsrAdc` performs, once each and in this order, the
store of the ADC result into `MyCntrl.Fdbk`, `CNTRL_2p2z`, `CMP_setDac` with
`MyCntrl.Out.m_Int`, and `CNTRL_2p2zSoftStartUpdate`; the DAC receives the
output computed from this invocation's feedback sample and the soft-start
update is applied once, after the actuation write. -/
theorem IsrAdc_sequence (ctl ssu : CNTRL_2p2zData → CNTRL_2p2zData) (m : Machine) :
    (IsrAdc ctl ssu m).trace = m.trace ++
        [ .GPIO_set 12, .ADC_ackInt 1, .storeFdbk (wrapS 16 m.ADCRESULT0), .CNTRL_2p2z,
          .CMP_setDac 2 (toUint16 (ctl (setFdbk m.MyCntrl m.ADCRESULT0)).Out.m_Int),
          .GPIO_clr 12, .CNTRL_2p2zSoftStartUpdate ]
      ∧ (setFdbk m.MyCntrl m.ADCRESULT0).Fdbk.m_Int = wrapS 16 m.ADCRESULT0
      ∧ (IsrAdc ctl ssu m).Comp2Dac = toUint16 (ctl (setFdbk m.MyCntrl m.ADCRESULT0)).Out.m_Int
      ∧ (IsrAdc ctl ssu m).MyCntrl = ssu (ctl (setFdbk m.MyCntrl m.ADCRESULT0)) := by
  refine ⟨?_, rfl, rfl, rfl⟩
  simp [IsrAdc, GPIO_set12, GPIO_clr12, ADC_ackInt1, ADC_getValue1, CMP_setDac2]

/-! ### The slope task -/

theorem slopeLoopBody_run (Comp : Nat) (rest : List ClaInstr) (r0 r1 : MVal) (v d : ℚ)
    (m16 : Mem16 → Nat) (m32 : Mem32 → ℚ) (w : List (Mem16 × Nat)) :
    claRun (slopeLoopBody Comp ++ rest) ⟨r0, r1, .f32 d, .f32 v, m16, m32, w, false⟩
      = claRun rest ⟨r0, .u16 (F32TOUI16 (v + d)), .f32 d, .f32 (v + d),
          Function.update m16 (.CompRegs Comp 6) (F32TOUI16 (v + d)), m32,
          w ++ [(.CompRegs Comp 6, F32TOUI16 (v + d))], false⟩ := rfl

/-- The values stored to the DAC by `k` repetitions of the loop body. -/
theorem slopeWrites_succ (Comp : Nat) (v d : ℚ) (k : Nat) :
    (List.range (k + 1)).map
        (fun i : Nat => (Mem16.CompRegs Comp 6, F32TOUI16 (v + ((i : ℚ) + 1) * d)))
      = (Mem16.CompRegs Comp 6, F32TOUI16 (v + d)) ::
        (List.range k).map
          (fun i : Nat => (Mem16.CompRegs Comp 6, F32TOUI16 (v + d + ((i : ℚ) + 1) * d))) := by
  rw [List.range_succ_eq_map, List.map_cons, List.map_map]
  congr 1
  · simp
  · apply List.map_congr_left
    intro i _
    simp only [Function.comp, Nat.cast_succ]
    congr 2
    ring

theorem asmLoop_slope_run (Comp : Nat) (d : ℚ) (Steps : Nat) (rest : List ClaInstr) :
    ∀ (count x k : Nat) (r0 r1 : MVal) (v : ℚ) (m16 : Mem16 → Nat) (m32 : Mem32 → ℚ)
      (w : List (Mem16 × Nat)), x < Steps → k = min (count + 1) (Steps - x) →
      claRun (asmLoop (slopeLoopBody Comp) Steps (count + 1) x ++ rest)
          ⟨r0, r1, .f32 d, .f32 v, m16, m32, w, false⟩
        = claRun rest ⟨r0, .u16 (F32TOUI16 (v + (k : ℚ) * d)), .f32 d, .f32 (v + (k : ℚ) * d),
            Function.update m16 (.CompRegs Comp 6) (F32TOUI16 (v + (k : ℚ) * d)), m32,
            w ++ (List.range k).map
              (fun i : Nat => (Mem16.CompRegs Comp 6, F32TOUI16 (v + ((i : ℚ) + 1) * d))),
            false⟩ := by
  intro count
  induction count with
  | zero =>
    intro x k r0 r1 v m16 m32 w hx hk
    have hk1 : k = 1 := by omega
    subst hk1
    have hl : asmLoop (slopeLoopBody Comp) Steps (0 + 1) x ++ rest
        = slopeLoopBody Comp ++ rest := by
      simp [asmLoop]
    rw [hl, slopeLoopBody_run]
    have hr : List.range 1 = [0] := rfl
    simp [hr]
  | succ count ih =>
    intro x k r0 r1 v m16 m32 w hx hk
    by_cases hbrk : x + 1 = Steps
    · have hk1 : k = 1 := by omega
      subst hk1
      have hl : asmLoop (slopeLoopBody Comp) Steps (count + 1 + 1) x ++ rest
          = slopeLoopBody Comp ++ rest := by
        simp [asmLoop, hbrk]
      rw [hl, slopeLoopBody_run]
      have hr : List.range 1 = [0] := rfl
      simp [hr]
    · have hl : asmLoop (slopeLoopBody Comp) Steps (count + 1 + 1) x ++ rest
          = slopeLoopBody Comp ++ (asmLoop (slopeLoopBody Comp) Steps (count + 1) (x + 1) ++ rest) := by
        rw [asmLoop]
        simp [hbrk]
      obtain ⟨k', rfl⟩ : ∃ k', k = k' + 1 := ⟨k - 1, by omega⟩
      rw [hl, slopeLoopBody_run,
        ih (x + 1) k' r0 _ (v + d) _ m32 _ (by omega) (by omega)]
      have hv : v + d + (k' : ℚ) * d = v + ((k' + 1 : Nat) : ℚ) * d := by
        push_cast; ring
      rw [hv, Function.update_idem, slopeWrites_succ, List.append_assoc]
      rfl

theorem CLA_slopeCode_run_eq (Comp Pwm : Nat) (Delta : ℚ) (Steps k : Nat) (h1 : 1 ≤ Steps)
    (hk : k = min ASM_LOOP_DEFAULT Steps)
    (r0 r1 r2 r3 : MVal) (m16 : Mem16 → Nat) (m32 : Mem32 → ℚ) (w : List (Mem16 × Nat)) :
    claRun (CLA_slopeCode Comp Pwm Delta Steps) ⟨r0, r1, r2, r3, m16, m32, w, false⟩
      = some ⟨r0, .u16 (F32TOUI16 (I16TOF32 (m16 (.CompRegs Comp 6)) + (k : ℚ) * Delta)),
          .f32 Delta, .f32 (I16TOF32 (m16 (.CompRegs Comp 6)) + (k : ℚ) * Delta),
          Function.update (Function.update m16 (.EPwmRegs Pwm 28) 1) (.CompRegs Comp 6)
            (F32TOUI16 (I16TOF32 (m16 (.CompRegs Comp 6)) + (k : ℚ) * Delta)),
          m32,
          (w ++ [(.EPwmRegs Pwm 28, 1)]) ++ (List.range k).map
            (fun i : Nat => (Mem16.CompRegs Comp 6,
              F32TOUI16 (I16TOF32 (m16 (.CompRegs Comp 6)) + ((i : ℚ) + 1) * Delta))),
          true⟩ := by
  have hpro : ∀ rest : List ClaInstr,
      claRun ([ClaInstr.MMOVXI .MR3 1, .MMOV16 (.EPwmRegs Pwm 28) .MR3,
          .MI16TOF32 .MR3 (.CompRegs Comp 6), .MMOVF32 .MR2 Delta] ++ rest)
          ⟨r0, r1, r2, r3, m16, m32, w, false⟩
        = claRun rest ⟨r0, r1, .f32 Delta, .f32 (I16TOF32 (m16 (.CompRegs Comp 6))),
            Function.update m16 (.EPwmRegs Pwm 28) 1, m32, w ++ [(.EPwmRegs Pwm 28, 1)],
            false⟩ := fun _ => rfl
  have hk' : k = min (1023 + 1) (Steps - 0) := by
    rw [hk]; rfl
  unfold CLA_slopeCode
  rw [List.append_assoc, hpro]
  show claRun (asmLoop (slopeLoopBody Comp) Steps (1023 + 1) 0 ++ _) _ = _
  rw [asmLoop_slope_run Comp Delta Steps _ 1023 0 k r0 r1 _ _ m32 _ (by omega) hk']
  rfl

theorem I16TOF32_of_lt (w : Nat) (h : w < 32768) : I16TOF32 w = (w : ℚ) := by
  have hw : wrapS 16 (w : Int) = (w : Int) := by
    apply wrapS_16_of_range <;> omega
  unfold I16TOF32
  rw [hw]
  exact Int.cast_natCast w

theorem F32TOUI16_natCast (n : Nat) (h : n ≤ 65535) : F32TOUI16 (n : ℚ) = n := by
  unfold F32TOUI16
  rw [Int.floor_natCast, Int.toNat_natCast]
  exact min_eq_left h

theorem SlopeTask_dac_word (v i : Nat) (hi : i + 1 ≤ v) (hv : v ≤ 1023) :
    F32TOUI16 (I16TOF32 v + ((i : ℚ) + 1) * SLOPE_DELTA) = v - (i + 1) := by
  have h1 : I16TOF32 v + ((i : ℚ) + 1) * SLOPE_DELTA = ((v - (i + 1) : Nat) : ℚ) := by
    rw [I16TOF32_of_lt v (by omega), Nat.cast_sub hi]
    unfold SLOPE_DELTA
    push_cast
    norm_num
    ring
  rw [h1, F32TOUI16_natCast _ (by omega)]

/-- C5: for the `SlopeTask` of the program (`Delta = -1.0`, `Steps = 80`) and
every initial value `v` with `80 <= v <= 1023` written by `IsrAdc`, the
sequence of values written to the comparator-2 DAC in one period is exactly
`v, v-1, ..., v-80`, which has `Steps + 1 = 81` elements. -/
theorem SlopeTask_period_sequence (ctl ssu : CNTRL_2p2zData → CNTRL_2p2zData) (m : Machine)
    (cla : ClaState) (v : Nat)
    (hv : toUint16 (ctl (setFdbk m.MyCntrl m.ADCRESULT0)).Out.m_Int = v)
    (h80 : 80 ≤ v) (h1023 : v ≤ 1023) :
    periodDacSequence ctl ssu m cla
        = some ((List.range (SLOPE_STEPS + 1)).map fun i => v - i)
      ∧ ((List.range (SLOPE_STEPS + 1)).map fun i => v - i).length = 81 := by
  refine ⟨?_, by simp [SLOPE_STEPS]⟩
  have hdac : (IsrAdc ctl ssu m).Comp2Dac = v := hv
  have hrun := CLA_slopeCode_run_eq 2 1 SLOPE_DELTA SLOPE_STEPS 80 (by decide) (by decide)
    cla.MR0 cla.MR1 cla.MR2 cla.MR3 (Function.update cla.mem16 (.CompRegs 2 6) v) cla.mem32 []
  have hstep : periodDacSequence ctl ssu m cla
      = (claRun (CLA_slopeCode 2 1 SLOPE_DELTA SLOPE_STEPS)
          ⟨cla.MR0, cla.MR1, cla.MR2, cla.MR3, Function.update cla.mem16 (.CompRegs 2 6) v,
            cla.mem32, [], false⟩).map fun c => v :: dacWrites 2 c := by
    unfold periodDacSequence
    simp only [hdac]
    rfl
  have hlist : (List.range 80).map (fun i : Nat =>
        F32TOUI16 (I16TOF32 v + ((i : ℚ) + 1) * SLOPE_DELTA))
      = (List.range 80).map fun i => v - (i + 1) := by
    apply List.map_congr_left
    intro i hi
    rw [List.mem_range] at hi
    exact SlopeTask_dac_word v i (by omega) h1023
  have hall : List.filter (fun _ : Nat => decide (Mem16.CompRegs 2 6 = Mem16.CompRegs 2 6))
      (List.range 80) = List.range 80 := by
    simp
  rw [hstep, hrun]
  simp only [Option.map_some', Function.update_same, dacWrites, List.nil_append,
    List.singleton_append, List.filter_cons, List.filter_map, List.map_map, Function.comp_def,
    reduceCtorEq, decide_False, decide_True, Bool.false_eq_true, ↓reduceIte, hall,
    List.filter_true, hlist]
  show some (v :: List.map (fun i => v - (i + 1)) (List.range 80))
    = some (List.map (fun i => v - i) (List.range (80 + 1)))
  rw [List.range_succ_eq_map 80, List.map_cons, List.map_map]
  rfl

/-- Witness for C5: a controller routine that outputs 600. -/
theorem SlopeTask_period_sequence_witness :
    (80 ≤ 600 ∧ 600 ≤ 1023)
      ∧ (periodDacSequence (fun c => { c with Out := ⟨600, 0⟩ }) id
            ⟨MyCntrl_init, 0, 0, false, []⟩
            ⟨.u16 0, .u16 0, .u16 0, .u16 0, fun _ => 0, fun _ => 0, [], false⟩
          = some ((List.range (SLOPE_STEPS + 1)).map fun i => 600 - i)
        ∧ ((List.range (SLOPE_STEPS + 1)).map fun i => 600 - i).length = 81) :=
  ⟨⟨by decide, by decide⟩,
    SlopeTask_period_sequence (fun c => { c with Out := ⟨600, 0⟩ }) id
      ⟨MyCntrl_init, 0, 0, false, []⟩
      ⟨.u16 0, .u16 0, .u16 0, .u16 0, fun _ => 0, fun _ => 0, [], false⟩ 600
      (by decide) (by decide) (by decide)⟩

/-! ### Timing -/

/-- Counterexample to C7 as stated: with the constants of the program the
compute time plus the ramp window exceeds the switching period
(2450 + 80 * 50 = 6450 > 5000). -/
theorem compute_plus_ramp_exceeds_period :
    ¬ (COMPUTE_NS + rampWindowNs ≤ PERIOD_NS) := by
  decide

/-- C7 (amended): with the timing constants of the program the compute time
(2450 ns) and the slope ramp window (80 steps of 50 ns) each fit inside the
switching period of 5000 ns, the ramp leaving 1000 ns and the PWM channel B
pulse width `PERIOD_NS - 2450` being 2550 ns; the two windows overlap in time,
their sum being 6450 ns. -/
theorem compute_and_ramp_each_fit_period :
    COMPUTE_NS ≤ PERIOD_NS ∧ rampWindowNs ≤ PERIOD_NS
      ∧ rampWindowNs + 1000 = PERIOD_NS ∧ PERIOD_NS - COMPUTE_NS = 2550
      ∧ COMPUTE_NS + rampWindowNs = 6450 := by
  decide

theorem SYS_CLK_HZ_eq : SYS_CLK_HZ = 60000000 := by decide

theorem asmLoop_length (body : List ClaInstr) (Steps : Nat) :
    ∀ count x : Nat, x < Steps →
      (asmLoop body Steps count x).length = body.length * min count (Steps - x) := by
  intro count
  induction count with
  | zero => intro x _; simp [asmLoop]
  | succ count ih =>
    intro x hx
    rw [asmLoop]
    by_cases hbrk : x + 1 = Steps
    · have hm : min (count + 1) (Steps - x) = 1 := by omega
      simp [hbrk, hm]
    · have hm : min (count + 1) (Steps - x) = min count (Steps - (x + 1)) + 1 := by omega
      simp only [hbrk, ↓reduceIte, List.length_append, ih (x + 1) (by omega), hm]
      ring

/-- C8: the loop body assembled by `CLA_slopeCode` has exactly three CLA
instructions per step; at `SYS_CLK_HZ = 60,000,000` and one instruction per
clock one decrement takes 50 ns, the 80 decrements of `SlopeTask` (240
instructions) take 4000 ns, which leaves 1000 ns in the 5000 ns period. -/
theorem slope_step_timing :
    (∀ Comp, (slopeLoopBody Comp).length = 3)
      ∧ SYS_CLK_HZ = 60000000
      ∧ claTimeNs 3 = 50
      ∧ (asmLoop (slopeLoopBody 2) SLOPE_STEPS ASM_LOOP_DEFAULT 0).length = 3 * 80
      ∧ SlopeTask.length = 4 + 3 * 80 + 4
      ∧ claTimeNs (3 * 80) = 4000
      ∧ (PERIOD_NS : ℚ) - claTimeNs (3 * 80) = 1000
      ∧ claTimeNs 3 = (SLOPE_STEP_NS : ℚ) := by
  have h3 : claTimeNs 3 = 50 := by
    unfold claTimeNs
    rw [SYS_CLK_HZ_eq]
    norm_num [NS_PER_SEC]
  have h240 : claTimeNs (3 * 80) = 4000 := by
    unfold claTimeNs
    rw [SYS_CLK_HZ_eq]
    norm_num [NS_PER_SEC]
  have hloop : (asmLoop (slopeLoopBody 2) SLOPE_STEPS ASM_LOOP_DEFAULT 0).length = 3 * 80 := by
    rw [asmLoop_length _ _ _ _ (by decide)]
    rfl
  have hlen : SlopeTask.length = 4 + 3 * 80 + 4 := by
    unfold SlopeTask CLA_slopeCode
    rw [List.length_append, List.length_append, hloop]
    rfl
  refine ⟨fun _ => rfl, SYS_CLK_HZ_eq, h3, hloop, hlen, h240, ?_, ?_⟩
  · rw [h240]; norm_num [PERIOD_NS]
  · rw [h3]; norm_num [SLOPE_STEP_NS]

/-! ### Scaled literals of the configuration -/

/-- Counterexample to C10 as stated: the coefficient `A1 = 1.69020338`, given
in Q26, is outside `[-2^(15-26), 2^(15-26))`, so the bound check of the spec
rejects the canonical configuration. -/
theorem scaledLiteralOk_rejects_A1 : ¬ scaledLiteralOk 26 A1 := by
  unfold scaledLiteralOk A1
  norm_num

/-- C10 (amended): every fixed-point literal of the canonical configuration is
representable in its field: `A1, A2, B0, B1, B2` in Q26 and `K` in Q23 fit a
32-bit word (`-2^(31-F) <= v < 2^(31-F)`), and `REF` in Q15 fits the 16-bit
word read by the controller (`-2^(15-15) <= REF < 2^(15-15)`, the bound of the
spec for `F = 15`). -/
theorem configuration_literals_fit :
    fitsWord 32 26 A1 ∧ fitsWord 32 26 A2 ∧ fitsWord 32 26 B0 ∧ fitsWord 32 26 B1
      ∧ fitsWord 32 26 B2 ∧ fitsWord 32 23 K ∧ fitsWord 16 15 REF
      ∧ scaledLiteralOk 15 REF := by
  unfold fitsWord scaledLiteralOk A1 A2 B0 B1 B2 K REF
  norm_num

/-! ### Coefficient limits -/

/-- C11: every real `v` inside the documented coefficient limits
`-32 < v < 31.999999985` has `-2^31 <= floor(v * 2^26) <= 2^31 - 1`, so it fits
a 32-bit signed Q26 word; the upper limit is `(2^31 - 1)/2^26` rounded down to
nine decimals; and the example coefficients `A1, A2, B0, B1, B2` of main.c lie
inside the limits. -/
theorem coefficient_limits_fit_iq26 :
    (∀ v : ℝ, ((COEFF_LIMIT_LO : ℚ) : ℝ) < v → v < ((COEFF_LIMIT_HI : ℚ) : ℝ) →
        -(2 ^ 31) ≤ ⌊v * 2 ^ 26⌋ ∧ ⌊v * 2 ^ 26⌋ ≤ 2 ^ 31 - 1)
      ∧ ((⌊((2 ^ 31 - 1) / 2 ^ 26 : ℚ) * 10 ^ 9⌋ : Int) : ℚ) / 10 ^ 9 = COEFF_LIMIT_HI
      ∧ (COEFF_LIMIT_LO < A1 ∧ A1 < COEFF_LIMIT_HI)
      ∧ (COEFF_LIMIT_LO < A2 ∧ A2 < COEFF_LIMIT_HI)
      ∧ (COEFF_LIMIT_LO < B0 ∧ B0 < COEFF_LIMIT_HI)
      ∧ (COEFF_LIMIT_LO < B1 ∧ B1 < COEFF_LIMIT_HI)
      ∧ (COEFF_LIMIT_LO < B2 ∧ B2 < COEFF_LIMIT_HI) := by
  refine ⟨?_, ?_, ?_, ?_, ?_, ?_, ?_⟩
  · intro v hlo hhi
    have hlo' : (-32 : ℝ) < v := by
      have : ((COEFF_LIMIT_LO : ℚ) : ℝ) = -32 := by unfold COEFF_LIMIT_LO; norm_num
      rwa [this] at hlo
    have hhi' : v < (31.999999985 : ℝ) := by
      have : ((COEFF_LIMIT_HI : ℚ) : ℝ) = 31.999999985 := by unfold COEFF_LIMIT_HI; norm_num
      rwa [this] at hhi
    constructor
    · rw [Int.le_floor]
      push_cast
      nlinarith
    · have h : ⌊v * 2 ^ 26⌋ < 2 ^ 31 := by
        rw [Int.floor_lt]
        push_cast
        nlinarith
      omega
  · have h : ⌊((2 ^ 31 - 1) / 2 ^ 26 : ℚ) * 10 ^ 9⌋ = 31999999985 := by
      rw [Int.floor_eq_iff]
      norm_num
    rw [h]
    unfold COEFF_LIMIT_HI
    norm_num
  all_goals
    unfold COEFF_LIMIT_LO COEFF_LIMIT_HI
    first
      | (unfold A1; norm_num)
      | (unfold A2; norm_num)
      | (unfold B0; norm_num)
      | (unfold B1; norm_num)
      | (unfold B2; norm_num)

/-- Witness for C11: the coefficient `1.5`. -/
theorem coefficient_limits_fit_iq26_witness :
    (((COEFF_LIMIT_LO : ℚ) : ℝ) < (1.5 : ℝ) ∧ (1.5 : ℝ) < ((COEFF_LIMIT_HI : ℚ) : ℝ))
      ∧ (-(2 ^ 31) ≤ ⌊(1.5 : ℝ) * 2 ^ 26⌋ ∧ ⌊(1.5 : ℝ) * 2 ^ 26⌋ ≤ 2 ^ 31 - 1) :=
  ⟨⟨by unfold COEFF_LIMIT_LO; norm_num, by unfold COEFF_LIMIT_HI; norm_num⟩,
    coefficient_limits_fit_iq26.1 1.5 (by unfold COEFF_LIMIT_LO; norm_num)
      (by unfold COEFF_LIMIT_HI; norm_num)⟩

/-! ### Runs of the fixed-point controller -/

theorem wrapS_32_of_range (v : Int) (hlo : -(2 ^ 31) ≤ v) (hhi : v < 2 ^ 31) :
    wrapS 32 v = v := by
  unfold wrapS
  norm_num
  omega

theorem satS32_of_range (v : Int) (hlo : -(2 ^ 31) ≤ v) (hhi : v < 2 ^ 31) :
    satS32 v = v := by
  unfold satS32
  rw [if_neg (by omega), if_neg (by omega)]

/-- One call with the feedback equal to the reference and zero histories. -/
theorem CNTRL_2p2zInline_zero (x : CNTRL_2p2zData) (hf : x.Fdbk.m_Int = x.Ref.m_Int)
    (hU1 : x.m_U1 = 0) (hU2 : x.m_U2 = 0) (hE1 : x.m_E1 = 0) (hE2 : x.m_E2 = 0) :
    (CNTRL_2p2zInline x).m_U1 = 0 ∧ (CNTRL_2p2zInline x).m_U2 = 0
      ∧ (CNTRL_2p2zInline x).m_E0 = 0
      ∧ (CNTRL_2p2zInline x).m_E1 = 0 ∧ (CNTRL_2p2zInline x).m_E2 = 0
      ∧ (CNTRL_2p2zInline x).Out.m_Int = wrapS 16 (max (min 0 x.m_max) x.m_min) := by
  have hE0 : LSL (SUB x.Ref.m_Int x.Fdbk.m_Int) 16 = 0 := by
    rw [hf]
    unfold LSL SUB
    rw [sub_self, satS32_of_range 0 (by norm_num) (by norm_num), zero_mul]
    exact wrapS_32_of_range 0 (by norm_num) (by norm_num)
  have hq : ∀ v : Int, QMPYL 0 v = 0 := by
    intro v; unfold QMPYL; simp
  have ha : ADDL 0 0 = 0 := by
    unfold ADDL; exact satS32_of_range 0 (by norm_num) (by norm_num)
  have hl : LSL 0 5 = 0 := by
    unfold LSL; rw [zero_mul]; exact wrapS_32_of_range 0 (by norm_num) (by norm_num)
  have hs : SFR 0 1 = 0 := by
    unfold SFR; simp
  have hu : (CNTRL_2p2zInline x).m_U1 = 0 := by
    show ADDL (ADDL (LSL (ADDL (QMPYL x.m_U2 x.m_A2) (QMPYL x.m_U1 x.m_A1)) 5)
        (LSL (ADDL (QMPYL x.m_U2 x.m_A2) (QMPYL x.m_U1 x.m_A1)) 5))
      (SFR (ADDL (ADDL (QMPYL x.m_E2 x.m_B2) (QMPYL x.m_E1 x.m_B1))
        (QMPYL (LSL (SUB x.Ref.m_Int x.Fdbk.m_Int) 16) x.m_B0)) 1) = 0
    rw [hE0, hU1, hU2, hE1, hE2]
    simp only [hq, ha, hl, hs]
  refine ⟨hu, hU1, hE0, hE0, hE1, ?_⟩
  show wrapS 16 (MAXL (MINL (QMPYL (CNTRL_2p2zInline x).m_U1 x.m_K) x.m_max) x.m_min) = _
  rw [hu, hq]
  rfl

theorem setFdbk_fields (x : CNTRL_2p2zData) (v : Nat) :
    (setFdbk x v).Fdbk.m_Int = wrapS 16 v ∧ (setFdbk x v).Ref = x.Ref
      ∧ (setFdbk x v).m_U1 = x.m_U1 ∧ (setFdbk x v).m_U2 = x.m_U2
      ∧ (setFdbk x v).m_E1 = x.m_E1 ∧ (setFdbk x v).m_E2 = x.m_E2
      ∧ (setFdbk x v).m_max = x.m_max ∧ (setFdbk x v).m_min = x.m_min := by
  simp [setFdbk]

theorem CNTRL_2p2zInline_keeps (y : CNTRL_2p2zData) :
    (CNTRL_2p2zInline y).Ref = y.Ref ∧ (CNTRL_2p2zInline y).Fdbk = y.Fdbk
      ∧ (CNTRL_2p2zInline y).m_B2 = y.m_B2 ∧ (CNTRL_2p2zInline y).m_B1 = y.m_B1
      ∧ (CNTRL_2p2zInline y).m_B0 = y.m_B0 ∧ (CNTRL_2p2zInline y).m_A2 = y.m_A2
      ∧ (CNTRL_2p2zInline y).m_A1 = y.m_A1 ∧ (CNTRL_2p2zInline y).m_K = y.m_K
      ∧ (CNTRL_2p2zInline y).m_max = y.m_max ∧ (CNTRL_2p2zInline y).m_min = y.m_min :=
  ⟨rfl, rfl, rfl, rfl, rfl, rfl, rfl, rfl, rfl, rfl⟩

theorem CNTRL_2p2zRun_cons (x : CNTRL_2p2zData) (v : Nat) (vs : List Nat) :
    CNTRL_2p2zRun x (v :: vs) = CNTRL_2p2zRun (CNTRL_2p2zCall x v) vs := by
  rw [CNTRL_2p2zRun, CNTRL_2p2zRun, List.foldl_cons]

theorem CNTRL_2p2zOutputs_cons (x : CNTRL_2p2zData) (v : Nat) (vs : List Nat) :
    CNTRL_2p2zOutputs x (v :: vs) = (CNTRL_2p2zCall x v).Out.m_Int
      :: CNTRL_2p2zOutputs (CNTRL_2p2zCall x v) vs := by
  rw [CNTRL_2p2zOutputs, CNTRL_2p2zOutputs, runOutputs]

/-- One call with the feedback word equal to the reference and zero histories. -/
theorem CNTRL_2p2zCall_zero (x : CNTRL_2p2zData) (v : Nat)
    (hv : wrapS 16 (v : Int) = x.Ref.m_Int)
    (hU1 : x.m_U1 = 0) (hU2 : x.m_U2 = 0) (hE1 : x.m_E1 = 0) (hE2 : x.m_E2 = 0) :
    (CNTRL_2p2zCall x v).m_U1 = 0 ∧ (CNTRL_2p2zCall x v).m_U2 = 0
      ∧ (CNTRL_2p2zCall x v).m_E1 = 0 ∧ (CNTRL_2p2zCall x v).m_E2 = 0
      ∧ (CNTRL_2p2zCall x v).Out.m_Int = wrapS 16 (max (min 0 x.m_max) x.m_min)
      ∧ (CNTRL_2p2zCall x v).Ref = x.Ref
      ∧ (CNTRL_2p2zCall x v).m_max = x.m_max ∧ (CNTRL_2p2zCall x v).m_min = x.m_min := by
  obtain ⟨f1, f2, f3, f4, f5, f6, f7, f8⟩ := setFdbk_fields x v
  obtain ⟨g1, g2, -, g4, g5, g6⟩ := CNTRL_2p2zInline_zero (setFdbk x v)
    (by rw [f1, f2, hv]) (by rw [f3, hU1]) (by rw [f4, hU2]) (by rw [f5, hE1]) (by rw [f6, hE2])
  obtain ⟨k1, -, -, -, -, -, -, -, k9, k10⟩ := CNTRL_2p2zInline_keeps (setFdbk x v)
  rw [f7, f8] at g6
  unfold CNTRL_2p2zCall
  exact ⟨g1, g2, g4, g5, g6, by rw [k1, f2], by rw [k9, f7], by rw [k10, f8]⟩

/-- Counterexample to C12 as stated: with zero histories, `Fdbk = Ref` and the
bounds `m_min = m_max = 40000`, the stored output is the 16-bit word -25536 and
not `max (min 0 m_max) m_min = 40000`. -/
theorem CNTRL_2p2zInline_zero_error_wide_bounds :
    (CNTRL_2p2zInline
        { Ref := ⟨0, 0⟩, Fdbk := ⟨0, 0⟩, Out := ⟨0, 0⟩, temp := 0,
          m_U1 := 0, m_U2 := 0, m_E0 := 0, m_E1 := 0, m_E2 := 0,
          m_B2 := 0, m_B1 := 0, m_B0 := 0, m_A2 := 0, m_A1 := 0, m_K := 0,
          m_max := 40000, m_min := 40000,
          m_PeriodCount := 0, m_SoftRamp := 0, m_SoftRef := 0, m_SoftMax := 0 }).Out.m_Int
        = -25536
      ∧ max (min 0 (40000 : Int)) 40000 = 40000 ∧ (-25536 : Int) ≠ 40000 := by
  decide

/-- C12 (amended): for every coefficient set and gain, and for bounds whose
clamp of zero `max (min 0 m_max) m_min` lies in the 16-bit range of
`Out.m_Int`: starting from zeroed histories, if every feedback equals `Ref`,
then after any number of `CNTRL_2p2zInline` calls all histories are still zero
and `Out.m_Int` equals `max (min 0 m_max) m_min` on every call. -/
theorem CNTRL_2p2zRun_zero_error (x : CNTRL_2p2zData) (vs : List Nat)
    (hU1 : x.m_U1 = 0) (hU2 : x.m_U2 = 0) (hE1 : x.m_E1 = 0) (hE2 : x.m_E2 = 0)
    (hfb : ∀ v ∈ vs, wrapS 16 (v : Int) = x.Ref.m_Int)
    (hlo : -(2 ^ 15) ≤ max (min 0 x.m_max) x.m_min)
    (hhi : max (min 0 x.m_max) x.m_min < 2 ^ 15) :
    CNTRL_2p2zOutputs x vs = List.replicate vs.length (max (min 0 x.m_max) x.m_min)
      ∧ (CNTRL_2p2zRun x vs).m_U1 = 0 ∧ (CNTRL_2p2zRun x vs).m_U2 = 0
      ∧ (CNTRL_2p2zRun x vs).m_E1 = 0 ∧ (CNTRL_2p2zRun x vs).m_E2 = 0 := by
  induction vs generalizing x with
  | nil => exact ⟨rfl, hU1, hU2, hE1, hE2⟩
  | cons v vs ih =>
    obtain ⟨g1, g2, g4, g5, g6, href, hmax, hmin⟩ := CNTRL_2p2zCall_zero x v
      (hfb v (List.mem_cons_self v vs)) hU1 hU2 hE1 hE2
    rw [wrapS_16_of_range _ hlo hhi] at g6
    have ih' := ih (CNTRL_2p2zCall x v) g1 g2 g4 g5
      (by intro u hu; rw [href]; exact hfb u (List.mem_cons_of_mem v hu))
      (by rw [hmax, hmin]; exact hlo) (by rw [hmax, hmin]; exact hhi)
    rw [hmax, hmin] at ih'
    rw [CNTRL_2p2zRun_cons, CNTRL_2p2zOutputs_cons, g6, ih'.1]
    exact ⟨rfl, ih'.2⟩

/-- Witness for C12: the controller of `main` fed three samples equal to the
reference word 2048. -/
theorem CNTRL_2p2zRun_zero_error_witness :
    CNTRL_2p2zOutputs MyCntrl_init [2048, 2048, 2048]
        = List.replicate [2048, 2048, 2048].length
            (max (min 0 MyCntrl_init.m_max) MyCntrl_init.m_min)
      ∧ (CNTRL_2p2zRun MyCntrl_init [2048, 2048, 2048]).m_U1 = 0
      ∧ (CNTRL_2p2zRun MyCntrl_init [2048, 2048, 2048]).m_U2 = 0
      ∧ (CNTRL_2p2zRun MyCntrl_init [2048, 2048, 2048]).m_E1 = 0
      ∧ (CNTRL_2p2zRun MyCntrl_init [2048, 2048, 2048]).m_E2 = 0 :=
  CNTRL_2p2zRun_zero_error MyCntrl_init [2048, 2048, 2048] rfl rfl rfl rfl
    (by rw [MyCntrl_init_eq]; decide) (by decide) (by decide)

/-! ### Steady-state gain -/

/-- Counterexample to C13 as stated: for the example coefficients the
denominator `1 - a1 - a2` of the steady-state gain is zero. -/
theorem dc_gain_denominator_zero : 1 - A1 - A2 = 0 := by
  unfold A1 A2
  norm_num

/-- C13 (amended): for the example coefficients, taken at the decimal values
written in the program, `a1 + a2 = 1` exactly, so the denominator
`1 - a1 - a2` of the steady-state gain is zero; the numerator
`b0 + b1 + b2 = 0.58120431` and the gain `k = 0.5` are non-zero, so no finite
number `g` satisfies `g * (1 - a1 - a2) = b0 + b1 + b2`. -/
theorem example_coefficients_integrator :
    A1 + A2 = 1 ∧ B0 + B1 + B2 = 0.58120431 ∧ B0 + B1 + B2 ≠ 0 ∧ K ≠ 0
      ∧ ¬ ∃ g : ℚ, g * (1 - A1 - A2) = B0 + B1 + B2 := by
  have hd : 1 - A1 - A2 = 0 := by unfold A1 A2; norm_num
  have hn : B0 + B1 + B2 ≠ 0 := by unfold B0 B1 B2; norm_num
  refine ⟨by unfold A1 A2; norm_num, by unfold B0 B1 B2; norm_num, hn,
    by unfold K; norm_num, ?_⟩
  rintro ⟨g, hg⟩
  rw [hd, mul_zero] at hg
  exact hn hg.symm

/-! ### Determinism and frame of the fixed-point controller -/

/-- `u(n)`, the value `CNTRL_2p2zInline` stores in `m_U1`, and `e(n)`, the
value it stores in `m_E0`, as functions of the fields they are computed from. -/
theorem CNTRL_2p2zInline_values (x : CNTRL_2p2zData) :
    (CNTRL_2p2zInline x).m_E0 = LSL (SUB x.Ref.m_Int x.Fdbk.m_Int) 16
      ∧ (CNTRL_2p2zInline x).m_E1 = (CNTRL_2p2zInline x).m_E0
      ∧ (CNTRL_2p2zInline x).m_E2 = x.m_E1
      ∧ (CNTRL_2p2zInline x).m_U2 = x.m_U1
      ∧ (CNTRL_2p2zInline x).temp
          = SFR (ADDL (ADDL (QMPYL x.m_E2 x.m_B2) (QMPYL x.m_E1 x.m_B1))
              (QMPYL (LSL (SUB x.Ref.m_Int x.Fdbk.m_Int) 16) x.m_B0)) 1
      ∧ (CNTRL_2p2zInline x).m_U1
          = ADDL (ADDL (LSL (ADDL (QMPYL x.m_U2 x.m_A2) (QMPYL x.m_U1 x.m_A1)) 5)
                (LSL (ADDL (QMPYL x.m_U2 x.m_A2) (QMPYL x.m_U1 x.m_A1)) 5))
              (CNTRL_2p2zInline x).temp
      ∧ (CNTRL_2p2zInline x).Out.m_Int
          = wrapS 16 (MAXL (MINL (QMPYL (CNTRL_2p2zInline x).m_U1 x.m_K) x.m_max) x.m_min)
      ∧ (CNTRL_2p2zInline x).Out.m_IQ_hi = x.Out.m_IQ_hi :=
  ⟨rfl, rfl, rfl, rfl, rfl, rfl, rfl, rfl⟩

theorem setFdbk_all (x : CNTRL_2p2zData) (v : Nat) :
    (setFdbk x v).Fdbk.m_Int = wrapS 16 v ∧ (setFdbk x v).Ref = x.Ref
      ∧ (setFdbk x v).m_U1 = x.m_U1 ∧ (setFdbk x v).m_U2 = x.m_U2
      ∧ (setFdbk x v).m_E1 = x.m_E1 ∧ (setFdbk x v).m_E2 = x.m_E2
      ∧ (setFdbk x v).m_B2 = x.m_B2 ∧ (setFdbk x v).m_B1 = x.m_B1
      ∧ (setFdbk x v).m_B0 = x.m_B0 ∧ (setFdbk x v).m_A2 = x.m_A2
      ∧ (setFdbk x v).m_A1 = x.m_A1 ∧ (setFdbk x v).m_K = x.m_K
      ∧ (setFdbk x v).m_max = x.m_max ∧ (setFdbk x v).m_min = x.m_min := by
  simp [setFdbk]

/-- One caller step: the values stored, in terms of the structure before the
step and of the ADC word. -/
theorem CNTRL_2p2zCall_values (x : CNTRL_2p2zData) (v : Nat) :
    (CNTRL_2p2zCall x v).m_E0 = LSL (SUB x.Ref.m_Int (wrapS 16 v)) 16
      ∧ (CNTRL_2p2zCall x v).m_E1 = LSL (SUB x.Ref.m_Int (wrapS 16 v)) 16
      ∧ (CNTRL_2p2zCall x v).m_E2 = x.m_E1
      ∧ (CNTRL_2p2zCall x v).m_U2 = x.m_U1
      ∧ (CNTRL_2p2zCall x v).m_U1
          = ADDL (ADDL (LSL (ADDL (QMPYL x.m_U2 x.m_A2) (QMPYL x.m_U1 x.m_A1)) 5)
                (LSL (ADDL (QMPYL x.m_U2 x.m_A2) (QMPYL x.m_U1 x.m_A1)) 5))
              (SFR (ADDL (ADDL (QMPYL x.m_E2 x.m_B2) (QMPYL x.m_E1 x.m_B1))
                (QMPYL (LSL (SUB x.Ref.m_Int (wrapS 16 v)) 16) x.m_B0)) 1)
      ∧ (CNTRL_2p2zCall x v).Out.m_Int
          = wrapS 16 (MAXL (MINL (QMPYL (CNTRL_2p2zCall x v).m_U1 x.m_K) x.m_max) x.m_min)
      ∧ (CNTRL_2p2zCall x v).Ref = x.Ref
      ∧ (CNTRL_2p2zCall x v).m_B2 = x.m_B2 ∧ (CNTRL_2p2zCall x v).m_B1 = x.m_B1
      ∧ (CNTRL_2p2zCall x v).m_B0 = x.m_B0 ∧ (CNTRL_2p2zCall x v).m_A2 = x.m_A2
      ∧ (CNTRL_2p2zCall x v).m_A1 = x.m_A1 ∧ (CNTRL_2p2zCall x v).m_K = x.m_K
      ∧ (CNTRL_2p2zCall x v).m_max = x.m_max ∧ (CNTRL_2p2zCall x v).m_min = x.m_min := by
  obtain ⟨f1, f2, f3, f4, f5, f6, f7, f8, f9, f10, f11, f12, f13, f14⟩ := setFdbk_all x v
  obtain ⟨g1, g2, g3, g4, g5, g6, g7, -⟩ := CNTRL_2p2zInline_values (setFdbk x v)
  obtain ⟨k1, -, k3, k4, k5, k6, k7, k8, k9, k10⟩ := CNTRL_2p2zInline_keeps (setFdbk x v)
  rw [g5] at g6
  rw [g1] at g2
  rw [f1, f2] at g1 g2
  rw [f5] at g3
  rw [f3] at g4
  rw [f1, f2, f3, f4, f5, f6, f7, f8, f9, f10, f11] at g6
  rw [f12, f13, f14] at g7
  unfold CNTRL_2p2zCall
  exact ⟨g1, g2, g3, g4, g6, g7, by rw [k1, f2], by rw [k3, f7], by rw [k4, f8],
    by rw [k5, f9], by rw [k6, f10], by rw [k7, f11], by rw [k8, f12], by rw [k9, f13],
    by rw [k10, f14]⟩

/-- Two structures that agree on the reference word, the coefficients, the
gain, the bounds and the histories give the same outputs and histories for
the same ADC words. -/
theorem CNTRL_2p2zRun_agree (vs : List Nat) :
    ∀ x y : CNTRL_2p2zData, x.Ref.m_Int = y.Ref.m_Int →
      x.m_B2 = y.m_B2 → x.m_B1 = y.m_B1 → x.m_B0 = y.m_B0 → x.m_A2 = y.m_A2 →
      x.m_A1 = y.m_A1 → x.m_K = y.m_K → x.m_max = y.m_max → x.m_min = y.m_min →
      x.m_U1 = y.m_U1 → x.m_U2 = y.m_U2 → x.m_E1 = y.m_E1 → x.m_E2 = y.m_E2 →
      CNTRL_2p2zOutputs x vs = CNTRL_2p2zOutputs y vs
        ∧ (CNTRL_2p2zRun x vs).m_U1 = (CNTRL_2p2zRun y vs).m_U1
        ∧ (CNTRL_2p2zRun x vs).m_U2 = (CNTRL_2p2zRun y vs).m_U2
        ∧ (CNTRL_2p2zRun x vs).m_E1 = (CNTRL_2p2zRun y vs).m_E1
        ∧ (CNTRL_2p2zRun x vs).m_E2 = (CNTRL_2p2zRun y vs).m_E2 := by
  induction vs with
  | nil =>
    intro x y _ _ _ _ _ _ _ _ _ hU1 hU2 hE1 hE2
    exact ⟨rfl, hU1, hU2, hE1, hE2⟩
  | cons v vs ih =>
    intro x y hR hB2 hB1 hB0 hA2 hA1 hK hmax hmin hU1 hU2 hE1 hE2
    obtain ⟨-, a2, a3, a4, a5, a6, a7, a8, a9, a10, a11, a12, a13, a14, a15⟩ :=
      CNTRL_2p2zCall_values x v
    obtain ⟨-, b2, b3, b4, b5, b6, b7, b8, b9, b10, b11, b12, b13, b14, b15⟩ :=
      CNTRL_2p2zCall_values y v
    have eU1 : (CNTRL_2p2zCall x v).m_U1 = (CNTRL_2p2zCall y v).m_U1 := by
      rw [a5, b5, hR, hB2, hB1, hB0, hA2, hA1, hU1, hU2, hE1, hE2]
    have eOut : (CNTRL_2p2zCall x v).Out.m_Int = (CNTRL_2p2zCall y v).Out.m_Int := by
      rw [a6, b6, eU1, hK, hmax, hmin]
    have ih' := ih (CNTRL_2p2zCall x v) (CNTRL_2p2zCall y v)
      (by rw [a7, b7, hR]) (by rw [a8, b8, hB2]) (by rw [a9, b9, hB1]) (by rw [a10, b10, hB0])
      (by rw [a11, b11, hA2]) (by rw [a12, b12, hA1]) (by rw [a13, b13, hK])
      (by rw [a14, b14, hmax]) (by rw [a15, b15, hmin]) eU1 (by rw [a4, b4, hU1])
      (by rw [a2, b2, hR]) (by rw [a3, b3, hE1])
    rw [CNTRL_2p2zRun_cons, CNTRL_2p2zRun_cons, CNTRL_2p2zOutputs_cons,
      CNTRL_2p2zOutputs_cons, eOut, ih'.1]
    exact ⟨rfl, ih'.2⟩

/-- C14: two `CNTRL_2p2zData` structures that agree on `Ref`, the five
coefficients, `m_K`, `m_min` and `m_max` and have zeroed histories (whatever
they hold in `temp`, `m_E0` and `Out`) give, for the same feedback sequence,
identical `Out.m_Int` sequences and identical histories after every call. -/
theorem CNTRL_2p2z_restart_deterministic (x y : CNTRL_2p2zData) (vs : List Nat)
    (hRef : x.Ref = y.Ref)
    (hB2 : x.m_B2 = y.m_B2) (hB1 : x.m_B1 = y.m_B1) (hB0 : x.m_B0 = y.m_B0)
    (hA2 : x.m_A2 = y.m_A2) (hA1 : x.m_A1 = y.m_A1) (hK : x.m_K = y.m_K)
    (hmax : x.m_max = y.m_max) (hmin : x.m_min = y.m_min)
    (hx : x.m_U1 = 0 ∧ x.m_U2 = 0 ∧ x.m_E1 = 0 ∧ x.m_E2 = 0)
    (hy : y.m_U1 = 0 ∧ y.m_U2 = 0 ∧ y.m_E1 = 0 ∧ y.m_E2 = 0) :
    CNTRL_2p2zOutputs x vs = CNTRL_2p2zOutputs y vs
      ∧ ∀ n : Nat,
          (CNTRL_2p2zRun x (vs.take n)).m_U1 = (CNTRL_2p2zRun y (vs.take n)).m_U1
        ∧ (CNTRL_2p2zRun x (vs.take n)).m_U2 = (CNTRL_2p2zRun y (vs.take n)).m_U2
        ∧ (CNTRL_2p2zRun x (vs.take n)).m_E1 = (CNTRL_2p2zRun y (vs.take n)).m_E1
        ∧ (CNTRL_2p2zRun x (vs.take n)).m_E2 = (CNTRL_2p2zRun y (vs.take n)).m_E2 := by
  obtain ⟨x1, x2, x3, x4⟩ := hx
  obtain ⟨y1, y2, y3, y4⟩ := hy
  have hR : x.Ref.m_Int = y.Ref.m_Int := by rw [hRef]
  refine ⟨(CNTRL_2p2zRun_agree vs x y hR hB2 hB1 hB0 hA2 hA1 hK hmax hmin
    (by rw [x1, y1]) (by rw [x2, y2]) (by rw [x3, y3]) (by rw [x4, y4])).1, fun n => ?_⟩
  exact (CNTRL_2p2zRun_agree (vs.take n) x y hR hB2 hB1 hB0 hA2 hA1 hK hmax hmin
    (by rw [x1, y1]) (by rw [x2, y2]) (by rw [x3, y3]) (by rw [x4, y4])).2

/-- Witness for C14: the controller of `main` after initialisation, and the
same with stale values in `temp`, `m_E0` and `Out`. -/
theorem CNTRL_2p2z_restart_deterministic_witness :
    CNTRL_2p2zOutputs MyCntrl_init [0, 1000, 2048]
        = CNTRL_2p2zOutputs
            { MyCntrl_init with temp := 77, m_E0 := -5, Out := ⟨1023, 3⟩ } [0, 1000, 2048]
      ∧ ∀ n : Nat,
          (CNTRL_2p2zRun MyCntrl_init (([0, 1000, 2048] : List Nat).take n)).m_U1
            = (CNTRL_2p2zRun { MyCntrl_init with temp := 77, m_E0 := -5, Out := ⟨1023, 3⟩ }
                (([0, 1000, 2048] : List Nat).take n)).m_U1
        ∧ (CNTRL_2p2zRun MyCntrl_init (([0, 1000, 2048] : List Nat).take n)).m_U2
            = (CNTRL_2p2zRun { MyCntrl_init with temp := 77, m_E0 := -5, Out := ⟨1023, 3⟩ }
                (([0, 1000, 2048] : List Nat).take n)).m_U2
        ∧ (CNTRL_2p2zRun MyCntrl_init (([0, 1000, 2048] : List Nat).take n)).m_E1
            = (CNTRL_2p2zRun { MyCntrl_init with temp := 77, m_E0 := -5, Out := ⟨1023, 3⟩ }
                (([0, 1000, 2048] : List Nat).take n)).m_E1
        ∧ (CNTRL_2p2zRun MyCntrl_init (([0, 1000, 2048] : List Nat).take n)).m_E2
            = (CNTRL_2p2zRun { MyCntrl_init with temp := 77, m_E0 := -5, Out := ⟨1023, 3⟩ }
                (([0, 1000, 2048] : List Nat).take n)).m_E2 :=
  CNTRL_2p2z_restart_deterministic MyCntrl_init
    { MyCntrl_init with temp := 77, m_E0 := -5, Out := ⟨1023, 3⟩ } [0, 1000, 2048]
    rfl rfl rfl rfl rfl rfl rfl rfl rfl ⟨rfl, rfl, rfl, rfl⟩ ⟨rfl, rfl, rfl, rfl⟩

/-- C15: `CNTRL_2p2zInline` never modifies the configuration: `Ref`, `Fdbk`,
the coefficients `m_B2 .. m_A1`, `m_K`, `m_max`, `m_min` and the soft-start
fields are unchanged, and so is the upper word of `Out`; what is written is the
low word of `Out`, `temp`, `m_U1`, `m_U2`, `m_E0`, `m_E1` and `m_E2`. -/
theorem CNTRL_2p2zInline_frame (x : CNTRL_2p2zData) :
    (CNTRL_2p2zInline x).Ref = x.Ref ∧ (CNTRL_2p2zInline x).Fdbk = x.Fdbk
      ∧ (CNTRL_2p2zInline x).m_B2 = x.m_B2 ∧ (CNTRL_2p2zInline x).m_B1 = x.m_B1
      ∧ (CNTRL_2p2zInline x).m_B0 = x.m_B0 ∧ (CNTRL_2p2zInline x).m_A2 = x.m_A2
      ∧ (CNTRL_2p2zInline x).m_A1 = x.m_A1 ∧ (CNTRL_2p2zInline x).m_K = x.m_K
      ∧ (CNTRL_2p2zInline x).m_max = x.m_max ∧ (CNTRL_2p2zInline x).m_min = x.m_min
      ∧ (CNTRL_2p2zInline x).m_PeriodCount = x.m_PeriodCount
      ∧ (CNTRL_2p2zInline x).m_SoftRamp = x.m_SoftRamp
      ∧ (CNTRL_2p2zInline x).m_SoftRef = x.m_SoftRef
      ∧ (CNTRL_2p2zInline x).m_SoftMax = x.m_SoftMax
      ∧ (CNTRL_2p2zInline x).Out.m_IQ_hi = x.Out.m_IQ_hi
      ∧ CNTRL_2p2zInline x =
          { x with
            Out := ⟨(CNTRL_2p2zInline x).Out.m_Int, x.Out.m_IQ_hi⟩
            temp := (CNTRL_2p2zInline x).temp
            m_U1 := (CNTRL_2p2zInline x).m_U1, m_U2 := (CNTRL_2p2zInline x).m_U2
            m_E0 := (CNTRL_2p2zInline x).m_E0, m_E1 := (CNTRL_2p2zInline x).m_E1
            m_E2 := (CNTRL_2p2zInline x).m_E2 } :=
  ⟨rfl, rfl, rfl, rfl, rfl, rfl, rfl, rfl, rfl, rfl, rfl, rfl, rfl, rfl, rfl, rfl⟩

/-! ### Soft start (modelled from the spec) -/

theorem checkedDiv_pos (a : Int) (n : Nat) (hn : 0 < n) :
    checkedDiv a n = some (a / (n : Int)) := by
  unfold checkedDiv
  rw [if_neg (by omega)]

theorem CNTRL_2p2zSoftStartConfig_eq (max : Int) (RampMs UpdatePeriodNs : Nat)
    (hP : 0 < UpdatePeriodNs) :
    CNTRL_2p2zSoftStartConfig max RampMs UpdatePeriodNs
      = if RampMs * 1000000 / UpdatePeriodNs = 0 then
          some { N := 0, count := 0, delta := 0, currentRampLimit := max, max := max,
                 complete := true }
        else
          some { N := RampMs * 1000000 / UpdatePeriodNs, count := 0,
                 delta := max / ((RampMs * 1000000 / UpdatePeriodNs : Nat) : Int),
                 currentRampLimit := 0, max := max, complete := false } := by
  have hn : (((RampMs * 1000000 : Nat) : Int) / (UpdatePeriodNs : Int)).toNat
      = RampMs * 1000000 / UpdatePeriodNs := by
    rw [← Int.natCast_div, Int.toNat_natCast]
  unfold CNTRL_2p2zSoftStartConfig
  rw [checkedDiv_pos _ _ hP, Option.some_bind, hn]
  by_cases h0 : RampMs * 1000000 / UpdatePeriodNs = 0
  · rw [if_pos h0, if_pos h0]
  · rw [if_neg h0, if_neg h0, checkedDiv_pos _ _ (by omega)]
    rfl

/-- The state of a ramp of `N > 0` periods after `k <= N` updates. -/
theorem CNTRL_2p2zSoftStartUpdate_iterate (N : Nat) (d max : Int) (hN : 0 < N) :
    ∀ k : Nat, k ≤ N →
      CNTRL_2p2zSoftStartUpdate^[k]
          { N := N, count := 0, delta := d, currentRampLimit := 0, max := max,
            complete := false }
        = if k = N then
            { N := N, count := N, delta := d, currentRampLimit := max, max := max,
              complete := true }
          else
            { N := N, count := k, delta := d, currentRampLimit := (k : Int) * d, max := max,
              complete := false } := by
  intro k
  induction k with
  | zero =>
    intro _
    rw [if_neg (by omega)]
    simp
  | succ k ih =>
    intro hk
    rw [Function.iterate_succ_apply', ih (by omega), if_neg (by omega)]
    by_cases hlast : k + 1 = N
    · rw [if_pos hlast]
      simp [CNTRL_2p2zSoftStartUpdate, hlast, show k < N by omega]
    · rw [if_neg hlast]
      simp [CNTRL_2p2zSoftStartUpdate, hlast, show k < N by omega]
      ring

theorem softStart_below_max (N k : Nat) (max : Int) (hmax : 0 < max) (hk : k < N) :
    (k : Int) * (max / (N : Int)) < max := by
  have hNpos : (0 : Int) < (N : Int) := by exact_mod_cast (show 0 < N by omega)
  have hd0 : 0 ≤ max / (N : Int) := Int.ediv_nonneg hmax.le hNpos.le
  have hmul : max / (N : Int) * (N : Int) ≤ max := Int.ediv_mul_le _ (by omega)
  have hk' : (k : Int) + 1 ≤ (N : Int) := by exact_mod_cast hk
  rcases hd0.eq_or_lt with h | h
  · rw [← h]; simpa using hmax
  · nlinarith

/-- C16: after `CNTRL_2p2zSoftStartConfig(Ptr, RampMs, UpdatePeriodNs)` for a
ramp-up to `max > 0`, starting from a ramp limit of 0, the ramp limit equals
`max` after exactly `N = RampMs / period` calls of `CNTRL_2p2zSoftStartUpdate`
(`N = 100000` for the 500 ms ramp of the program at a 5000 ns period); before
that it is non-decreasing and strictly less than `max`. -/
theorem softStart_ramp_up (max : Int) (RampMs UpdatePeriodNs : Nat)
    (hP : 0 < UpdatePeriodNs) (hmax : 0 < max) :
    ∃ s0, CNTRL_2p2zSoftStartConfig max RampMs UpdatePeriodNs = some s0
      ∧ s0.N = RampMs * 1000000 / UpdatePeriodNs
      ∧ (0 < s0.N → s0.currentRampLimit = 0)
      ∧ (CNTRL_2p2zSoftStartUpdate^[s0.N] s0).currentRampLimit = max
      ∧ (∀ k, k < s0.N →
          (CNTRL_2p2zSoftStartUpdate^[k] s0).currentRampLimit < max
          ∧ (CNTRL_2p2zSoftStartUpdate^[k] s0).currentRampLimit
              ≤ (CNTRL_2p2zSoftStartUpdate^[k + 1] s0).currentRampLimit)
      ∧ 500 * 1000000 / PERIOD_NS = 100000 := by
  rw [CNTRL_2p2zSoftStartConfig_eq max RampMs UpdatePeriodNs hP]
  generalize RampMs * 1000000 / UpdatePeriodNs = N
  by_cases h0 : N = 0
  · rw [if_pos h0]
    refine ⟨_, rfl, h0.symm, fun h => absurd h (by simp), by simp, ?_, by decide⟩
    intro k hk
    simp at hk
  · rw [if_neg h0]
    have hN : 0 < N := by omega
    refine ⟨_, rfl, rfl, fun _ => rfl, ?_, ?_, by decide⟩
    · show (CNTRL_2p2zSoftStartUpdate^[N] _).currentRampLimit = max
      rw [CNTRL_2p2zSoftStartUpdate_iterate _ _ _ hN _ (le_refl _), if_pos rfl]
    · intro k hk
      have hk' : k < N := hk
      have hlt := softStart_below_max _ k max hmax hk'
      rw [CNTRL_2p2zSoftStartUpdate_iterate _ _ _ hN k (by omega), if_neg (by omega),
        CNTRL_2p2zSoftStartUpdate_iterate _ _ _ hN (k + 1) (by omega)]
      refine ⟨hlt, ?_⟩
      by_cases hlast : k + 1 = N
      · rw [if_pos hlast]
        exact hlt.le
      · rw [if_neg hlast]
        have hd0 : 0 ≤ max / (N : Int) :=
          Int.ediv_nonneg hmax.le (by positivity)
        show (k : Int) * _ ≤ ((k + 1 : Nat) : Int) * _
        push_cast
        nlinarith

/-- Witness for C16: the soft start of `main`, 500 ms at `PERIOD_NS`, ramping
up to `MAX_DUTY`. -/
theorem softStart_ramp_up_witness :
    (0 < PERIOD_NS ∧ 0 < MAX_DUTY)
      ∧ ∃ s0, CNTRL_2p2zSoftStartConfig MAX_DUTY 500 PERIOD_NS = some s0
        ∧ s0.N = 500 * 1000000 / PERIOD_NS
        ∧ (0 < s0.N → s0.currentRampLimit = 0)
        ∧ (CNTRL_2p2zSoftStartUpdate^[s0.N] s0).currentRampLimit = MAX_DUTY
        ∧ (∀ k, k < s0.N →
            (CNTRL_2p2zSoftStartUpdate^[k] s0).currentRampLimit < MAX_DUTY
            ∧ (CNTRL_2p2zSoftStartUpdate^[k] s0).currentRampLimit
                ≤ (CNTRL_2p2zSoftStartUpdate^[k + 1] s0).currentRampLimit)
        ∧ 500 * 1000000 / PERIOD_NS = 100000 :=
  ⟨⟨by decide, by decide⟩, softStart_ramp_up MAX_DUTY 500 PERIOD_NS (by decide) (by decide)⟩

/-- C17: when the configured ramp duration is shorter than one update period
(`N = 0`), `CNTRL_2p2zSoftStartConfig` sets the ramp limit to `max` at once and
every later `CNTRL_2p2zSoftStartUpdate` leaves it there; no division by zero
takes place (the configuration is defined). -/
theorem softStart_zero_periods (max : Int) (RampMs UpdatePeriodNs : Nat)
    (hshort : RampMs * 1000000 < UpdatePeriodNs) :
    ∃ s0, CNTRL_2p2zSoftStartConfig max RampMs UpdatePeriodNs = some s0
      ∧ s0.N = 0 ∧ s0.currentRampLimit = max ∧ s0.complete = true
      ∧ ∀ k, (CNTRL_2p2zSoftStartUpdate^[k] s0).currentRampLimit = max := by
  have h0 : RampMs * 1000000 / UpdatePeriodNs = 0 := Nat.div_eq_of_lt hshort
  rw [CNTRL_2p2zSoftStartConfig_eq max RampMs UpdatePeriodNs (by omega), if_pos h0]
  refine ⟨_, rfl, rfl, rfl, rfl, ?_⟩
  intro k
  have hfix : ∀ k, CNTRL_2p2zSoftStartUpdate^[k]
      ({ N := 0, count := 0, delta := 0, currentRampLimit := max, max := max,
         complete := true } : SoftStart)
      = { N := 0, count := 0, delta := 0, currentRampLimit := max, max := max,
          complete := true } := by
    intro k
    induction k with
    | zero => rfl
    | succ k ih =>
      rw [Function.iterate_succ_apply', ih]
      simp [CNTRL_2p2zSoftStartUpdate]
  rw [hfix k]

/-- Witness for C17: a ramp of 0 ms at the period of the program. -/
theorem softStart_zero_periods_witness :
    0 * 1000000 < PERIOD_NS
      ∧ ∃ s0, CNTRL_2p2zSoftStartConfig MAX_DUTY 0 PERIOD_NS = some s0
        ∧ s0.N = 0 ∧ s0.currentRampLimit = MAX_DUTY ∧ s0.complete = true
        ∧ ∀ k, (CNTRL_2p2zSoftStartUpdate^[k] s0).currentRampLimit = MAX_DUTY :=
  ⟨by decide, softStart_zero_periods MAX_DUTY 0 PERIOD_NS (by decide)⟩

/-! ### Order of the calls in `main` -/

/-- While the calls `pre` (none of which is `INT_enableGlobal`) are being made
with interrupts disabled, no interrupt routine runs: an execution in which
`IsrAdc` occurs at position `i` has made all the calls of `pre` before. -/
theorem mainTraceOk_disabled (rest : List MainCall) (pre : List MainCall) :
    (∀ c ∈ pre, ∀ b, c ≠ MainCall.INT_enableGlobal b) →
    ∀ (tr : List MainEvent) (i : Nat), mainTraceOk false (pre ++ rest) tr = true →
      tr[i]? = some MainEvent.IsrAdc →
      ∃ tr', tr = pre.map MainEvent.call ++ tr' ∧ pre.length ≤ i
        ∧ mainTraceOk false rest tr' = true ∧ tr'[i - pre.length]? = some MainEvent.IsrAdc := by
  induction pre with
  | nil =>
    intro _ tr i htr hi
    exact ⟨tr, rfl, Nat.zero_le _, htr, hi⟩
  | cons c pre ih =>
    intro hpre tr i htr hi
    cases tr with
    | nil => simp at hi
    | cons e tr =>
      cases e with
      | IsrAdc => simp [mainTraceOk] at htr
      | call d =>
        rw [List.cons_append, mainTraceOk] at htr
        simp only [Bool.and_eq_true, decide_eq_true_eq] at htr
        obtain ⟨hcd, htr⟩ := htr
        have hen : intEnabledAfter false c = false := by
          cases c <;> first | rfl | exact absurd rfl (hpre _ (List.mem_cons_self _ _) _)
        rw [hen] at htr
        cases i with
        | zero => simp at hi
        | succ j =>
          rw [List.getElem?_cons_succ] at hi
          obtain ⟨tr', h1, h2, h3, h4⟩ :=
            ih (fun c' hc' => hpre c' (List.mem_cons_of_mem _ hc')) tr j htr hi
          refine ⟨tr', by rw [h1, hcd]; rfl, by simpa using h2, h3, ?_⟩
          simpa using h4

/-- C18: in `main`, `CNTRL_2p2zInit` and `CNTRL_2p2zSoftStartConfig` are both
called before `INT_enableGlobal(true)`, which is the last call before the idle
loop; so, interrupts being globally disabled until then, in every execution
each run of `IsrAdc` comes after both initialisation calls. -/
theorem IsrAdc_after_init :
    main.getLast? = some (MainCall.INT_enableGlobal true)
      ∧ main.indexOf MainCall.CNTRL_2p2zInit < main.indexOf (MainCall.INT_enableGlobal true)
      ∧ main.indexOf MainCall.CNTRL_2p2zSoftStartConfig
          < main.indexOf (MainCall.INT_enableGlobal true)
      ∧ main.indexOf (MainCall.INT_enableGlobal true) + 1 = main.length
      ∧ ∀ (tr : List MainEvent) (i : Nat), mainTraceOk false main tr = true →
          tr[i]? = some MainEvent.IsrAdc →
            MainEvent.call MainCall.CNTRL_2p2zInit ∈ tr.take i
            ∧ MainEvent.call MainCall.CNTRL_2p2zSoftStartConfig ∈ tr.take i
            ∧ MainEvent.call (MainCall.INT_enableGlobal true) ∈ tr.take i := by
  refine ⟨by decide, by decide, by decide, by decide, ?_⟩
  intro tr i htr hi
  have hmain : main = main.dropLast ++ [MainCall.INT_enableGlobal true] := by decide
  have hpre : ∀ c ∈ main.dropLast, ∀ b, c ≠ MainCall.INT_enableGlobal b := by decide
  rw [hmain] at htr
  obtain ⟨tr', h1, h2, h3, h4⟩ := mainTraceOk_disabled _ _ hpre tr i htr hi
  cases tr' with
  | nil => simp at h4
  | cons e t =>
    cases e with
    | IsrAdc => simp [mainTraceOk] at h3
    | call d =>
      rw [mainTraceOk] at h3
      simp only [Bool.and_eq_true, decide_eq_true_eq] at h3
      have hd : d = MainCall.INT_enableGlobal true := h3.1.symm
      have hi1 : main.dropLast.length + 1 ≤ i := by
        rcases Nat.eq_zero_or_pos (i - main.dropLast.length) with h0 | h0
        · rw [h0] at h4
          simp at h4
        · omega
      have htr : tr = main.map MainEvent.call ++ t := by
        rw [h1, hd]
        conv_rhs => rw [hmain]
        simp
      have hlen : (main.map MainEvent.call).length ≤ i := by
        rw [List.length_map, hmain, List.length_append]
        simpa using hi1
      have htake : ∀ e, e ∈ main.map MainEvent.call → e ∈ tr.take i := by
        intro e he
        rw [htr, List.take_append_eq_append_take, List.take_of_length_le hlen]
        exact List.mem_append_left _ he
      exact ⟨htake _ (by decide), htake _ (by decide), htake _ (by decide)⟩

/-- Witness for C18: the execution in which `main` reaches the idle loop and
`IsrAdc` then runs once. -/
theorem IsrAdc_after_init_witness :
    (mainTraceOk false main (main.map MainEvent.call ++ [MainEvent.IsrAdc]) = true
        ∧ (main.map MainEvent.call ++ [MainEvent.IsrAdc])[23]? = some MainEvent.IsrAdc)
      ∧ (MainEvent.call MainCall.CNTRL_2p2zInit
            ∈ (main.map MainEvent.call ++ [MainEvent.IsrAdc]).take 23
        ∧ MainEvent.call MainCall.CNTRL_2p2zSoftStartConfig
            ∈ (main.map MainEvent.call ++ [MainEvent.IsrAdc]).take 23
        ∧ MainEvent.call (MainCall.INT_enableGlobal true)
            ∈ (main.map MainEvent.call ++ [MainEvent.IsrAdc]).take 23) :=
  ⟨⟨by decide, by decide⟩,
    IsrAdc_after_init.2.2.2.2 (main.map MainEvent.call ++ [MainEvent.IsrAdc]) 23
      (by decide) (by decide)⟩

/-! ### PWM ticks -/

/-- C19: with the default clock settings `SYS_CLK_HZ = 60,000,000` and
`SYS_CLK_PS = 16666`; `PWM_nsToTicks(PERIOD_NS) = PWM_nsToTicks(5000) = 300`
ticks, which equals `PWM_freqToTicks(200000)`: the period passed to
`PWM_config` is the 200 kHz switching period. -/
theorem PWM_period_ticks :
    USR_CLK_IN_HZ = 10000000 ∧ SYS_LIT_VALUE USR_PLL_MUL = 6 ∧ SYS_LIT_VALUE USR_CLK_DIV = 1
      ∧ SYS_CLK_HZ = 60000000 ∧ SYS_CLK_PS = 16666
      ∧ PERIOD_NS = 5000 ∧ PWM_nsToTicks PERIOD_NS = 300
      ∧ PWM_freqToTicks 200000 = 300
      ∧ PWM_nsToTicks PERIOD_NS = PWM_freqToTicks 200000 := by
  decide

/-- C20: the ADC start-of-conversion compare value set by `PWM_setDutyB` is
`PWM_nsToTicks(PERIOD_NS - 2450) = 153` ticks, so sampling is triggered
`300 - 153 = 147` ticks, exactly 2450 ns at 60 MHz, before the end of the
300-tick period; the safety duty set by `PWM_setDutyA` is 180 ticks, 60% of
the period. -/
theorem PWM_duty_ticks :
    DUTY_B_TICKS = 153 ∧ PWM_nsToTicks (PERIOD_NS - 2450) = 153
      ∧ PWM_nsToTicks PERIOD_NS - DUTY_B_TICKS = 147
      ∧ 147 * NS_PER_SEC = 2450 * SYS_CLK_HZ
      ∧ claTimeNs 147 = 2450
      ∧ DUTY_A_TICKS = 180
      ∧ (DUTY_A_TICKS : ℚ) = 60 / 100 * (PWM_nsToTicks PERIOD_NS : ℚ) := by
  have hp : PWM_nsToTicks PERIOD_NS = 300 := by decide
  have hA : DUTY_A_TICKS = 180 := by
    unfold DUTY_A_TICKS
    rw [hp]
    have h : ⌊((300 : Nat) : ℚ) * 0.6⌋ = 180 := by
      rw [Int.floor_eq_iff]
      norm_num
    rw [h]
    rfl
  refine ⟨by decide, by decide, by decide, by decide, ?_, hA, ?_⟩
  · unfold claTimeNs
    rw [SYS_CLK_HZ_eq]
    norm_num [NS_PER_SEC]
  · rw [hA, hp]
    norm_num
/-! ### PIE identifiers -/

/-- C21: for every Group in 1..12 and Index in 1..8 the identifier
`INT_GROUP_VAL(Group, Index)` is split by `INT_pieIdToGroup` and
`INT_pieIdToIndex` into `Group - 1` and `Index - 1`, and different pairs give
different identifiers; `INT_ID_EPWM1` maps to `INT_GROUP_3` (2) and
`INT_INDEX_1` (0), and the `ADC_INT_1` acknowledged in `IsrAdc` has the PIE
identifier of group 10, so that the acknowledge writes bit 9 of `PIEACK`. -/
theorem INT_pieId_round_trip :
    (∀ Group Index : Nat, 1 ≤ Group → Group ≤ 12 → 1 ≤ Index → Index ≤ 8 →
        INT_pieIdToGroup (INT_GROUP_VAL Group Index) = Group - 1
        ∧ INT_pieIdToIndex (INT_GROUP_VAL Group Index) = Index - 1)
    ∧ (∀ G I G2 I2 : Nat, 1 ≤ G → G ≤ 12 → 1 ≤ I → I ≤ 8 → 1 ≤ G2 → G2 ≤ 12 → 1 ≤ I2 → I2 ≤ 8 →
        INT_GROUP_VAL G I = INT_GROUP_VAL G2 I2 → G = G2 ∧ I = I2)
    ∧ INT_pieIdToGroup INT_ID_EPWM1 = 2 ∧ INT_pieIdToIndex INT_ID_EPWM1 = 0
    ∧ ADC_getPieId ADC_INT_1 = INT_GROUP_VAL 10 1
    ∧ INT_pieIdToGroup (ADC_getPieId ADC_INT_1) = 9
    ∧ INT_ackPieGroup (ADC_getPieId ADC_INT_1) = 2 ^ 9 := by
  have hand : ∀ n : Nat, n &&& 7 = n % 8 := fun n => Nat.and_pow_two_sub_one_eq_mod n 3
  refine ⟨?_, ?_, by decide, by decide, by decide, by decide, by decide⟩
  · intro G I hG1 hG2 hI1 hI2
    unfold INT_pieIdToGroup INT_pieIdToIndex INT_GROUP_VAL
    rw [hand, Nat.shiftRight_eq_div_pow]
    constructor <;> omega
  · intro G I G2 I2 hG1 hG2 hI1 hI2 hG21 hG22 hI21 hI22 h
    unfold INT_GROUP_VAL at h
    omega

/-! ### The error and the history shift -/

/-- C22: for `Ref` and `Fdbk` words in [0, 32767], `CNTRL_2p2zInline` stores
`m_E0 = (Ref - Fdbk) * 2^16`: as a Q31 number it is exactly the Q15 error
`(Ref - Fdbk) / 2^15`, and it lies inside the signed 32-bit range. -/
theorem CNTRL_2p2zInline_error_exact (x : CNTRL_2p2zData)
    (hr0 : 0 ≤ x.Ref.m_Int) (hr1 : x.Ref.m_Int ≤ 32767)
    (hf0 : 0 ≤ x.Fdbk.m_Int) (hf1 : x.Fdbk.m_Int ≤ 32767) :
    (CNTRL_2p2zInline x).m_E0 = (x.Ref.m_Int - x.Fdbk.m_Int) * 2 ^ 16
    ∧ ((CNTRL_2p2zInline x).m_E0 : ℚ) / 2 ^ 31
        = (x.Ref.m_Int : ℚ) / 2 ^ 15 - (x.Fdbk.m_Int : ℚ) / 2 ^ 15
    ∧ -(2 ^ 31) < (CNTRL_2p2zInline x).m_E0 ∧ (CNTRL_2p2zInline x).m_E0 < 2 ^ 31 := by
  have h0 : (CNTRL_2p2zInline x).m_E0 = LSL (SUB x.Ref.m_Int x.Fdbk.m_Int) 16 := rfl
  have hs : SUB x.Ref.m_Int x.Fdbk.m_Int = x.Ref.m_Int - x.Fdbk.m_Int := by
    unfold SUB
    exact satS32_of_range _ (by omega) (by omega)
  have hl : LSL (x.Ref.m_Int - x.Fdbk.m_Int) 16 = (x.Ref.m_Int - x.Fdbk.m_Int) * 2 ^ 16 := by
    unfold LSL
    exact wrapS_32_of_range _ (by omega) (by omega)
  have h1 : (CNTRL_2p2zInline x).m_E0 = (x.Ref.m_Int - x.Fdbk.m_Int) * 2 ^ 16 := by
    rw [h0, hs, hl]
  refine ⟨h1, ?_, ?_, ?_⟩
  · rw [h1]
    push_cast
    ring
  · rw [h1]
    omega
  · rw [h1]
    omega

theorem CNTRL_2p2zInline_error_exact_witness :
    (CNTRL_2p2zInline (setFdbk MyCntrl_init 1000)).m_E0 = (2048 - 1000) * 2 ^ 16 := by
  have h := CNTRL_2p2zInline_error_exact (setFdbk MyCntrl_init 1000)
    (by rw [MyCntrl_init_eq]; decide) (by rw [MyCntrl_init_eq]; decide)
    (by rw [MyCntrl_init_eq]; decide) (by rw [MyCntrl_init_eq]; decide)
  have hr : (setFdbk MyCntrl_init 1000).Ref.m_Int = 2048 := by rw [MyCntrl_init_eq]; decide
  have hf : (setFdbk MyCntrl_init 1000).Fdbk.m_Int = 1000 := by rw [MyCntrl_init_eq]; decide
  rw [hr, hf] at h
  exact h.1

/-- C23: after one `CNTRL_2p2zInline`, `m_E1` is the error just computed
(the stored `m_E0`), `m_E2` is the previous `m_E1`, `m_U2` is the previous
`m_U1`, and `m_U1` is the new filter value: the pole sum scaled to Q24 plus
the zero sum `temp`, taken before the gain and the clamp; the previous `m_E2`
and `m_U2` enter the sums and are not kept. -/
theorem CNTRL_2p2zInline_history_shift (x : CNTRL_2p2zData) :
    (CNTRL_2p2zInline x).m_E0 = LSL (SUB x.Ref.m_Int x.Fdbk.m_Int) 16
    ∧ (CNTRL_2p2zInline x).m_E1 = (CNTRL_2p2zInline x).m_E0
    ∧ (CNTRL_2p2zInline x).m_E2 = x.m_E1
    ∧ (CNTRL_2p2zInline x).m_U2 = x.m_U1
    ∧ (CNTRL_2p2zInline x).temp
        = SFR (ADDL (ADDL (QMPYL x.m_E2 x.m_B2) (QMPYL x.m_E1 x.m_B1))
            (QMPYL (CNTRL_2p2zInline x).m_E0 x.m_B0)) 1
    ∧ (CNTRL_2p2zInline x).m_U1
        = ADDL (ADDL (LSL (ADDL (QMPYL x.m_U2 x.m_A2) (QMPYL x.m_U1 x.m_A1)) 5)
              (LSL (ADDL (QMPYL x.m_U2 x.m_A2) (QMPYL x.m_U1 x.m_A1)) 5))
            (CNTRL_2p2zInline x).temp
    ∧ (CNTRL_2p2zInline x).Out.m_Int
        = wrapS 16 (MAXL (MINL (QMPYL (CNTRL_2p2zInline x).m_U1 x.m_K) x.m_max) x.m_min) :=
  ⟨rfl, rfl, rfl, rfl, rfl, rfl, rfl⟩
/-! ### The recurrence state of the CLA 2p2z tasks -/

/-- Counterexample to C24 as stated: the task with `A1 = B0 = B1 = 1`,
`A2 = B2 = 0`, reference word 1, run from zeroed task data on the samples 0
and 1. The first execution stores `u(0) = 1` and `e(0) = 1`; after the second
execution `m_U[1]` is 2 and `m_E[1]` is 0, the values `u(1)` and `e(1)`, and
not `u(0)` and `e(0)`. -/
theorem CLA_2p2zIMode_U1_not_previous :
    ∃ t1 t2,
      claPeriods (CLA_2p2zIMode 7 3 1 0 1 1 0 1 0 240) 7 (fun k => k) 1
          ⟨.u16 0, .u16 0, .u16 0, .u16 0, fun _ => 1, fun _ => 0, [], true⟩ = some t1
      ∧ claPeriods (CLA_2p2zIMode 7 3 1 0 1 1 0 1 0 240) 7 (fun k => k) 2
          ⟨.u16 0, .u16 0, .u16 0, .u16 0, fun _ => 1, fun _ => 0, [], true⟩ = some t2
      ∧ t1.mem32 (.Data 2) = 1 ∧ t1.mem32 (.Data 6) = 1
      ∧ t2.mem32 (.Data 4) = 2 ∧ t2.mem32 (.Data 8) = 0
      ∧ t2.mem32 (.Data 4) ≠ t1.mem32 (.Data 2) ∧ t2.mem32 (.Data 8) ≠ t1.mem32 (.Data 6) := by
  have hrun : ∀ s : ClaState, s.stopped = false →
      ∃ t, claRun (CLA_2p2zIMode 7 3 1 0 1 1 0 1 0 240) s = some t
        ∧ t.mem32 (.Data 2) = s.mem32 (.Data 0)
            + (I16TOF32 (s.mem16 (.Ctrl 1)) - I16TOF32 (s.mem16 (.AdcResult (7 - 1)))) * 1
        ∧ t.mem32 (.Data 4) = t.mem32 (.Data 2)
        ∧ t.mem32 (.Data 6)
            = I16TOF32 (s.mem16 (.Ctrl 1)) - I16TOF32 (s.mem16 (.AdcResult (7 - 1)))
        ∧ t.mem32 (.Data 8) = t.mem32 (.Data 6)
        ∧ t.mem32 (.Data 0) = 0 * s.mem32 (.Data 4) + 1 * t.mem32 (.Data 2)
            + 0 * s.mem32 (.Data 8) + 1 * t.mem32 (.Data 6)
        ∧ t.mem16 (.Ctrl 1) = s.mem16 (.Ctrl 1) := by
    intro u hu
    obtain ⟨t, ht, a, b, c, d, e, f, -, -⟩ := CLA_2p2zIMode_run 7 3 1 0 1 1 0 1 0 240 u hu
    exact ⟨t, ht, a, b, c, d, e, f⟩
  obtain ⟨t1, h1, -, a2, -, a6, -, -⟩ := claPeriods_inv_of_run
    (CLA_2p2zIMode 7 3 1 0 1 1 0 1 0 240) 7 1 0 1 1 0 hrun (fun k => k)
    ⟨.u16 0, .u16 0, .u16 0, .u16 0, fun _ => 1, fun _ => 0, [], true⟩ rfl rfl rfl 0
  obtain ⟨t2, h2, -, b2, b4, b6, b8, -⟩ := claPeriods_inv_of_run
    (CLA_2p2zIMode 7 3 1 0 1 1 0 1 0 240) 7 1 0 1 1 0 hrun (fun k => k)
    ⟨.u16 0, .u16 0, .u16 0, .u16 0, fun _ => 1, fun _ => 0, [], true⟩ rfl rfl rfl 1
  have i0 : I16TOF32 0 = 0 := I16TOF32_zero
  have i1 : I16TOF32 1 = 1 := by
    have h := I16TOF32_of_lt 1 (by decide)
    simpa using h
  have e1 : t1.mem32 (.Data 2) = 1 := by
    rw [a2]; simp only [textbook2p2z, i0, i1]; norm_num
  have e2 : t1.mem32 (.Data 6) = 1 := by
    rw [a6]; simp only [i0, i1]; norm_num
  have e3 : t2.mem32 (.Data 4) = 2 := by
    rw [b4, b2]; simp only [textbook2p2z, i0, i1]; norm_num
  have e4 : t2.mem32 (.Data 8) = 0 := by
    rw [b8, b6]; simp only [i0, i1]; norm_num
  refine ⟨t1, t2, h1, h2, e1, e2, e3, e4, ?_, ?_⟩
  · rw [e1, e3]; norm_num
  · rw [e2, e4]; norm_num

/-! ### Overflow of the shifts -/

/-- C25: `LSL ACC,#5` does not saturate. With `m_U1 = 2^29` (32.0 in Q24) and
`m_A1 = 2^30 + 8` (just above 16.0 in Q26), everything else zero, the pole sum
is `2^27 + 1`; scaled to Q24 it is `2^33 + 64`, far above the 32-bit range, and
`CNTRL_2p2zInline` stores `m_U1 = 64`, the wrapped value, where saturation
gives `2^31 - 1`. With the decimal example coefficients truncated to Q26 and
the histories `m_U1 = 2^31 - 1`, `m_U2 = -2^31` the positive pole sum 79873195
is stored as the most negative word. -/
theorem CNTRL_2p2zInline_shift_wraps :
    QMPYL 0 0 + QMPYL (2 ^ 29) (2 ^ 30 + 8) = 2 ^ 27 + 1
    ∧ (2 ^ 31 - 1 : Int) < (2 ^ 27 + 1) * 2 ^ 5 * 2
    ∧ (CNTRL_2p2zInline
        { Ref := ⟨0, 0⟩, Fdbk := ⟨0, 0⟩, Out := ⟨0, 0⟩, temp := 0,
          m_U1 := 2 ^ 29, m_U2 := 0, m_E0 := 0, m_E1 := 0, m_E2 := 0,
          m_B2 := 0, m_B1 := 0, m_B0 := 0, m_A2 := 0, m_A1 := 2 ^ 30 + 8, m_K := 0,
          m_max := 1023, m_min := 0,
          m_PeriodCount := 0, m_SoftRamp := 0, m_SoftRef := 0, m_SoftMax := 0 }).m_U1 = 64
    ∧ QMPYL (-(2 ^ 31)) (-46318764) + QMPYL (2 ^ 31 - 1) 113427628 = 79873195
    ∧ (CNTRL_2p2zInline
        { Ref := ⟨2048, 0⟩, Fdbk := ⟨2048, 0⟩, Out := ⟨0, 0⟩, temp := 0,
          m_U1 := 2 ^ 31 - 1, m_U2 := -(2 ^ 31), m_E0 := 0, m_E1 := 0, m_E2 := 0,
          m_B2 := -197171070, m_B1 := 19501980, m_B0 := 216673051,
          m_A2 := -46318764, m_A1 := 113427628, m_K := 4194304,
          m_max := 1023, m_min := 0,
          m_PeriodCount := 0, m_SoftRamp := 0, m_SoftRef := 0, m_SoftMax := 0 }).m_U1
        = -(2 ^ 31) := by
  decide
/-! ### Exact arithmetic of the fixed-point update -/

/-- When nothing overflows, the instructions of `CNTRL_2p2zInline` compute with
plain integer arithmetic: sums, products by powers of two and floor divisions. -/
theorem CNTRL_2p2zInline_exact (x : CNTRL_2p2zData) (h : CNTRL_2p2zNoOverflow x) :
    (CNTRL_2p2zInline x).m_E0 = (x.Ref.m_Int - x.Fdbk.m_Int) * 2 ^ 16
    ∧ (CNTRL_2p2zInline x).m_U1
        = (x.m_U2 * x.m_A2 / 2 ^ 32 + x.m_U1 * x.m_A1 / 2 ^ 32) * 64
          + (x.m_E2 * x.m_B2 / 2 ^ 32 + x.m_E1 * x.m_B1 / 2 ^ 32
              + (x.Ref.m_Int - x.Fdbk.m_Int) * 2 ^ 16 * x.m_B0 / 2 ^ 32) / 2 := by
  obtain ⟨g1, -, -, -, g5, g6, -, -⟩ := CNTRL_2p2zInline_values x
  simp only [CNTRL_2p2zNoOverflow, isInt32] at h
  obtain ⟨⟨a1, a2⟩, ⟨b1, b2⟩, ⟨c1, c2⟩, ⟨d1, d2⟩, ⟨e1, e2⟩, ⟨f1, f2⟩, ⟨k1, k2⟩, ⟨l1, l2⟩⟩ := h
  have hs : SUB x.Ref.m_Int x.Fdbk.m_Int = x.Ref.m_Int - x.Fdbk.m_Int :=
    satS32_of_range _ a1 a2
  have hl : LSL (x.Ref.m_Int - x.Fdbk.m_Int) 16 = (x.Ref.m_Int - x.Fdbk.m_Int) * 2 ^ 16 :=
    wrapS_32_of_range _ b1 b2
  have hsb : ADDL (QMPYL x.m_E2 x.m_B2) (QMPYL x.m_E1 x.m_B1)
      = QMPYL x.m_E2 x.m_B2 + QMPYL x.m_E1 x.m_B1 := satS32_of_range _ c1 c2
  have hsb0 : ADDL (QMPYL x.m_E2 x.m_B2 + QMPYL x.m_E1 x.m_B1)
        (QMPYL ((x.Ref.m_Int - x.Fdbk.m_Int) * 2 ^ 16) x.m_B0)
      = QMPYL x.m_E2 x.m_B2 + QMPYL x.m_E1 x.m_B1
        + QMPYL ((x.Ref.m_Int - x.Fdbk.m_Int) * 2 ^ 16) x.m_B0 := satS32_of_range _ d1 d2
  have hsa : ADDL (QMPYL x.m_U2 x.m_A2) (QMPYL x.m_U1 x.m_A1)
      = QMPYL x.m_U2 x.m_A2 + QMPYL x.m_U1 x.m_A1 := satS32_of_range _ e1 e2
  have hl5 : LSL (QMPYL x.m_U2 x.m_A2 + QMPYL x.m_U1 x.m_A1) 5
      = (QMPYL x.m_U2 x.m_A2 + QMPYL x.m_U1 x.m_A1) * 2 ^ 5 := wrapS_32_of_range _ f1 f2
  have hdb : ADDL ((QMPYL x.m_U2 x.m_A2 + QMPYL x.m_U1 x.m_A1) * 2 ^ 5)
        ((QMPYL x.m_U2 x.m_A2 + QMPYL x.m_U1 x.m_A1) * 2 ^ 5)
      = (QMPYL x.m_U2 x.m_A2 + QMPYL x.m_U1 x.m_A1) * 2 ^ 5
        + (QMPYL x.m_U2 x.m_A2 + QMPYL x.m_U1 x.m_A1) * 2 ^ 5 := satS32_of_range _ k1 k2
  have hfin : ADDL ((QMPYL x.m_U2 x.m_A2 + QMPYL x.m_U1 x.m_A1) * 2 ^ 5
          + (QMPYL x.m_U2 x.m_A2 + QMPYL x.m_U1 x.m_A1) * 2 ^ 5)
        ((QMPYL x.m_E2 x.m_B2 + QMPYL x.m_E1 x.m_B1
          + QMPYL ((x.Ref.m_Int - x.Fdbk.m_Int) * 2 ^ 16) x.m_B0) / 2 ^ 1)
      = (QMPYL x.m_U2 x.m_A2 + QMPYL x.m_U1 x.m_A1) * 2 ^ 5
          + (QMPYL x.m_U2 x.m_A2 + QMPYL x.m_U1 x.m_A1) * 2 ^ 5
        + (QMPYL x.m_E2 x.m_B2 + QMPYL x.m_E1 x.m_B1
          + QMPYL ((x.Ref.m_Int - x.Fdbk.m_Int) * 2 ^ 16) x.m_B0) / 2 ^ 1 :=
    satS32_of_range _ l1 l2
  have hE0 : (CNTRL_2p2zInline x).m_E0 = (x.Ref.m_Int - x.Fdbk.m_Int) * 2 ^ 16 := by
    rw [g1, hs, hl]
  refine ⟨hE0, ?_⟩
  rw [g6, g5, hs, hl, hsb, hsb0, hsa, hl5, hdb]
  unfold SFR
  rw [hfin]
  unfold QMPYL
  ring_nf

/-- C26: when no instruction overflows, with `e_i = m_Ei/2^31`,
`u_i = m_Ui/2^24`, `a_i = m_Ai/2^26`, `b_i = m_Bi/2^26` (`e0` the error just
stored), the value `u(n) = m_U1/2^24` stored by `CNTRL_2p2zInline` is not
above `a1*u1 + a2*u2 + b0*e0 + b1*e1 + b2*e2` and is below it by less than
`130 * 2^-24`, hence by less than `2^-16`. -/
theorem CNTRL_2p2zInline_truncation_error (x : CNTRL_2p2zData)
    (h : CNTRL_2p2zNoOverflow x) :
    0 ≤ ((x.m_A1 : ℚ) / 2 ^ 26 * ((x.m_U1 : ℚ) / 2 ^ 24)
          + (x.m_A2 : ℚ) / 2 ^ 26 * ((x.m_U2 : ℚ) / 2 ^ 24)
          + (x.m_B0 : ℚ) / 2 ^ 26 * (((CNTRL_2p2zInline x).m_E0 : ℚ) / 2 ^ 31)
          + (x.m_B1 : ℚ) / 2 ^ 26 * ((x.m_E1 : ℚ) / 2 ^ 31)
          + (x.m_B2 : ℚ) / 2 ^ 26 * ((x.m_E2 : ℚ) / 2 ^ 31))
        - ((CNTRL_2p2zInline x).m_U1 : ℚ) / 2 ^ 24
    ∧ ((x.m_A1 : ℚ) / 2 ^ 26 * ((x.m_U1 : ℚ) / 2 ^ 24)
          + (x.m_A2 : ℚ) / 2 ^ 26 * ((x.m_U2 : ℚ) / 2 ^ 24)
          + (x.m_B0 : ℚ) / 2 ^ 26 * (((CNTRL_2p2zInline x).m_E0 : ℚ) / 2 ^ 31)
          + (x.m_B1 : ℚ) / 2 ^ 26 * ((x.m_E1 : ℚ) / 2 ^ 31)
          + (x.m_B2 : ℚ) / 2 ^ 26 * ((x.m_E2 : ℚ) / 2 ^ 31))
        - ((CNTRL_2p2zInline x).m_U1 : ℚ) / 2 ^ 24 < 130 / 2 ^ 24
    ∧ (130 : ℚ) / 2 ^ 24 < 1 / 2 ^ 16 := by
  obtain ⟨hE0, hU1⟩ := CNTRL_2p2zInline_exact x h
  have key : ∀ pa1 pa2 pb0 pb1 pb2 U : Int,
      U = (pa2 / 2 ^ 32 + pa1 / 2 ^ 32) * 64 + (pb2 / 2 ^ 32 + pb1 / 2 ^ 32 + pb0 / 2 ^ 32) / 2 →
      0 ≤ 128 * (pa1 + pa2) + (pb0 + pb1 + pb2) - 2 ^ 33 * U
      ∧ 128 * (pa1 + pa2) + (pb0 + pb1 + pb2) - 2 ^ 33 * U < 130 * 2 ^ 33 := by
    intro pa1 pa2 pb0 pb1 pb2 U hU
    norm_num at hU ⊢
    omega
  obtain ⟨k1, k2⟩ := key (x.m_U1 * x.m_A1) (x.m_U2 * x.m_A2)
    ((x.Ref.m_Int - x.Fdbk.m_Int) * 2 ^ 16 * x.m_B0) (x.m_E1 * x.m_B1) (x.m_E2 * x.m_B2)
    (CNTRL_2p2zInline x).m_U1 hU1
  have hq : ((x.m_A1 : ℚ) / 2 ^ 26 * ((x.m_U1 : ℚ) / 2 ^ 24)
          + (x.m_A2 : ℚ) / 2 ^ 26 * ((x.m_U2 : ℚ) / 2 ^ 24)
          + (x.m_B0 : ℚ) / 2 ^ 26 * (((CNTRL_2p2zInline x).m_E0 : ℚ) / 2 ^ 31)
          + (x.m_B1 : ℚ) / 2 ^ 26 * ((x.m_E1 : ℚ) / 2 ^ 31)
          + (x.m_B2 : ℚ) / 2 ^ 26 * ((x.m_E2 : ℚ) / 2 ^ 31))
        - ((CNTRL_2p2zInline x).m_U1 : ℚ) / 2 ^ 24
      = ((128 * (x.m_U1 * x.m_A1 + x.m_U2 * x.m_A2)
          + ((x.Ref.m_Int - x.Fdbk.m_Int) * 2 ^ 16 * x.m_B0 + x.m_E1 * x.m_B1 + x.m_E2 * x.m_B2)
          - 2 ^ 33 * (CNTRL_2p2zInline x).m_U1 : Int) : ℚ) / 2 ^ 57 := by
    rw [hE0]
    push_cast
    ring
  have c1 : (0 : ℚ) ≤ ((128 * (x.m_U1 * x.m_A1 + x.m_U2 * x.m_A2)
          + ((x.Ref.m_Int - x.Fdbk.m_Int) * 2 ^ 16 * x.m_B0 + x.m_E1 * x.m_B1 + x.m_E2 * x.m_B2)
          - 2 ^ 33 * (CNTRL_2p2zInline x).m_U1 : Int) : ℚ) := Int.cast_nonneg.mpr k1
  have c2 : ((128 * (x.m_U1 * x.m_A1 + x.m_U2 * x.m_A2)
          + ((x.Ref.m_Int - x.Fdbk.m_Int) * 2 ^ 16 * x.m_B0 + x.m_E1 * x.m_B1 + x.m_E2 * x.m_B2)
          - 2 ^ 33 * (CNTRL_2p2zInline x).m_U1 : Int) : ℚ) < ((130 * 2 ^ 33 : Int) : ℚ) :=
    Int.cast_lt.mpr k2
  rw [hq]
  generalize ((128 * (x.m_U1 * x.m_A1 + x.m_U2 * x.m_A2)
          + ((x.Ref.m_Int - x.Fdbk.m_Int) * 2 ^ 16 * x.m_B0 + x.m_E1 * x.m_B1 + x.m_E2 * x.m_B2)
          - 2 ^ 33 * (CNTRL_2p2zInline x).m_U1 : Int) : ℚ) = d at c1 c2
  refine ⟨div_nonneg c1 (by positivity), ?_, by norm_num⟩
  rw [div_lt_div_iff₀ (by positivity) (by positivity)]
  push_cast at c2
  have c3 := mul_lt_mul_of_pos_right c2 (show (0 : ℚ) < 2 ^ 24 by positivity)
  calc d * 2 ^ 24 < (1116691496960 : ℚ) * 2 ^ 24 := c3
    _ = 130 * 2 ^ 57 := by norm_num

/-- Witness for C26: the controller of `main` called with the ADC word 1000. -/
theorem CNTRL_2p2zInline_truncation_error_witness :
    CNTRL_2p2zNoOverflow (setFdbk MyCntrl_init 1000)
    ∧ (0 ≤ (((setFdbk MyCntrl_init 1000).m_A1 : ℚ) / 2 ^ 26 * (((setFdbk MyCntrl_init 1000).m_U1 : ℚ) / 2 ^ 24)
          + ((setFdbk MyCntrl_init 1000).m_A2 : ℚ) / 2 ^ 26 * (((setFdbk MyCntrl_init 1000).m_U2 : ℚ) / 2 ^ 24)
          + ((setFdbk MyCntrl_init 1000).m_B0 : ℚ) / 2 ^ 26 * (((CNTRL_2p2zInline (setFdbk MyCntrl_init 1000)).m_E0 : ℚ) / 2 ^ 31)
          + ((setFdbk MyCntrl_init 1000).m_B1 : ℚ) / 2 ^ 26 * (((setFdbk MyCntrl_init 1000).m_E1 : ℚ) / 2 ^ 31)
          + ((setFdbk MyCntrl_init 1000).m_B2 : ℚ) / 2 ^ 26 * (((setFdbk MyCntrl_init 1000).m_E2 : ℚ) / 2 ^ 31))
        - ((CNTRL_2p2zInline (setFdbk MyCntrl_init 1000)).m_U1 : ℚ) / 2 ^ 24
    ∧ (((setFdbk MyCntrl_init 1000).m_A1 : ℚ) / 2 ^ 26 * (((setFdbk MyCntrl_init 1000).m_U1 : ℚ) / 2 ^ 24)
          + ((setFdbk MyCntrl_init 1000).m_A2 : ℚ) / 2 ^ 26 * (((setFdbk MyCntrl_init 1000).m_U2 : ℚ) / 2 ^ 24)
          + ((setFdbk MyCntrl_init 1000).m_B0 : ℚ) / 2 ^ 26 * (((CNTRL_2p2zInline (setFdbk MyCntrl_init 1000)).m_E0 : ℚ) / 2 ^ 31)
          + ((setFdbk MyCntrl_init 1000).m_B1 : ℚ) / 2 ^ 26 * (((setFdbk MyCntrl_init 1000).m_E1 : ℚ) / 2 ^ 31)
          + ((setFdbk MyCntrl_init 1000).m_B2 : ℚ) / 2 ^ 26 * (((setFdbk MyCntrl_init 1000).m_E2 : ℚ) / 2 ^ 31))
        - ((CNTRL_2p2zInline (setFdbk MyCntrl_init 1000)).m_U1 : ℚ) / 2 ^ 24 < 130 / 2 ^ 24
    ∧ (130 : ℚ) / 2 ^ 24 < 1 / 2 ^ 16) :=
  ⟨by rw [MyCntrl_init_eq]; decide,
    CNTRL_2p2zInline_truncation_error (setFdbk MyCntrl_init 1000)
      (by rw [MyCntrl_init_eq]; decide)⟩

/-! ### Held output at zero error -/

/-- Counterexample to C27 as stated: the decimal example coefficients
truncated to Q26 (`m_A1 + m_A2 = 2^26`), zero error histories, `Fdbk = Ref` and
`m_U1 = m_U2 = 1`; nothing overflows, and after the call `m_U1` is -64. -/
theorem CNTRL_2p2zInline_hold_drifts :
    (113427628 : Int) + -46318764 = 2 ^ 26
    ∧ CNTRL_2p2zNoOverflow
        { Ref := ⟨2048, 0⟩, Fdbk := ⟨2048, 0⟩, Out := ⟨0, 0⟩, temp := 0,
          m_U1 := 1, m_U2 := 1, m_E0 := 0, m_E1 := 0, m_E2 := 0,
          m_B2 := -197171070, m_B1 := 19501980, m_B0 := 216673051,
          m_A2 := -46318764, m_A1 := 113427628, m_K := 4194304,
          m_max := 1023, m_min := 0,
          m_PeriodCount := 0, m_SoftRamp := 0, m_SoftRef := 0, m_SoftMax := 0 }
    ∧ (CNTRL_2p2zInline
        { Ref := ⟨2048, 0⟩, Fdbk := ⟨2048, 0⟩, Out := ⟨0, 0⟩, temp := 0,
          m_U1 := 1, m_U2 := 1, m_E0 := 0, m_E1 := 0, m_E2 := 0,
          m_B2 := -197171070, m_B1 := 19501980, m_B0 := 216673051,
          m_A2 := -46318764, m_A1 := 113427628, m_K := 4194304,
          m_max := 1023, m_min := 0,
          m_PeriodCount := 0, m_SoftRamp := 0, m_SoftRef := 0, m_SoftMax := 0 }).m_U1 = -64
    ∧ (-64 : Int) ≠ 1 := by
  decide

/-- C27 (amended): for Q26 pole coefficients with `m_A1 + m_A2 = 2^26`, zero
error histories, `Fdbk` equal to `Ref` and `m_U1 = m_U2 = U` without overflow,
`CNTRL_2p2zInline` stores `64 * (floor(A2*U/2^32) + floor(A1*U/2^32))`, a value
in `(U - 128, U]`: the held value never rises and falls by less than 128 units
of Q24 per call; `U = 0` is a fixed point. -/
theorem CNTRL_2p2zInline_hold_within (x : CNTRL_2p2zData) (U : Int)
    (hA : x.m_A1 + x.m_A2 = 2 ^ 26) (hE1 : x.m_E1 = 0) (hE2 : x.m_E2 = 0)
    (hF : x.Fdbk.m_Int = x.Ref.m_Int) (hU1 : x.m_U1 = U) (hU2 : x.m_U2 = U)
    (h : CNTRL_2p2zNoOverflow x) :
    (CNTRL_2p2zInline x).m_U1 = 64 * (x.m_A2 * U / 2 ^ 32 + x.m_A1 * U / 2 ^ 32)
    ∧ U - 128 < (CNTRL_2p2zInline x).m_U1 ∧ (CNTRL_2p2zInline x).m_U1 ≤ U
    ∧ (U = 0 → (CNTRL_2p2zInline x).m_U1 = 0) := by
  obtain ⟨-, hv⟩ := CNTRL_2p2zInline_exact x h
  rw [hE1, hE2, hF, hU1, hU2] at hv
  have hz : (0 * x.m_B2 / 2 ^ 32 + 0 * x.m_B1 / 2 ^ 32
      + (x.Ref.m_Int - x.Ref.m_Int) * 2 ^ 16 * x.m_B0 / 2 ^ 32) / 2 = (0 : Int) := by
    simp
  rw [hz] at hv
  have hsum : U * x.m_A1 + U * x.m_A2 = 2 ^ 26 * U := by
    rw [← mul_add, hA, mul_comm]
  have e1 : x.m_A1 * U = U * x.m_A1 := mul_comm _ _
  have e2 : x.m_A2 * U = U * x.m_A2 := mul_comm _ _
  rw [e1, e2]
  have hzero : U = 0 → (CNTRL_2p2zInline x).m_U1 = 0 := by
    intro h0
    rw [hv, h0]
    simp
  generalize U * x.m_A1 = p1 at hv hsum ⊢
  generalize U * x.m_A2 = p2 at hv hsum ⊢
  generalize (CNTRL_2p2zInline x).m_U1 = r at hv hzero ⊢
  norm_num at hv hsum ⊢
  exact ⟨by omega, by omega, by omega, hzero⟩

/-- Witness for C27: the decimal example coefficients truncated to Q26,
holding `U = 2^24` (1.0 in Q24) at zero error. -/
theorem CNTRL_2p2zInline_hold_within_witness :
    (CNTRL_2p2zInline holdState).m_U1
        = 64 * (holdState.m_A2 * 2 ^ 24 / 2 ^ 32 + holdState.m_A1 * 2 ^ 24 / 2 ^ 32)
    ∧ (2 ^ 24 : Int) - 128 < (CNTRL_2p2zInline holdState).m_U1
    ∧ (CNTRL_2p2zInline holdState).m_U1 ≤ 2 ^ 24
    ∧ ((2 ^ 24 : Int) = 0 → (CNTRL_2p2zInline holdState).m_U1 = 0) :=
  CNTRL_2p2zInline_hold_within holdState (2 ^ 24) (by decide) rfl rfl rfl rfl rfl (by decide)
/-! ### Monotonicity in the feedback -/

theorem QMPYL_mono (a b k : Int) (hk : 0 ≤ k) (h : a ≤ b) : QMPYL a k ≤ QMPYL b k := by
  unfold QMPYL
  exact Int.ediv_le_ediv (by norm_num) (mul_le_mul_of_nonneg_right h hk)

theorem clamp_word (q lo hi : Int) (hlo : -(2 ^ 15) ≤ lo) (hmm : lo ≤ hi) (hhi : hi < 2 ^ 15) :
    wrapS 16 (MAXL (MINL q hi) lo) = max (min q hi) lo := by
  unfold MAXL MINL
  have h1 : lo ≤ max (min q hi) lo := le_max_right _ _
  have h2 : max (min q hi) lo ≤ hi := max_le (min_le_right _ _) hmm
  exact wrapS_16_of_range _ (by omega) (by omega)

/-- Two structures that differ in the feedback word only: the larger feedback
gives the smaller or equal output when nothing overflows and the bounds lie in
the range of the output word. -/
theorem CNTRL_2p2zInline_antitone (x y : CNTRL_2p2zData)
    (hRef : y.Ref.m_Int = x.Ref.m_Int) (hU1 : y.m_U1 = x.m_U1) (hU2 : y.m_U2 = x.m_U2)
    (hE1 : y.m_E1 = x.m_E1) (hE2 : y.m_E2 = x.m_E2) (hB2 : y.m_B2 = x.m_B2)
    (hB1 : y.m_B1 = x.m_B1) (hB0 : y.m_B0 = x.m_B0) (hA2 : y.m_A2 = x.m_A2)
    (hA1 : y.m_A1 = x.m_A1) (hK : y.m_K = x.m_K) (hmax : y.m_max = x.m_max)
    (hmin : y.m_min = x.m_min)
    (hf : x.Fdbk.m_Int ≤ y.Fdbk.m_Int) (hb : 0 ≤ x.m_B0) (hk : 0 ≤ x.m_K)
    (hlo : -(2 ^ 15) ≤ x.m_min) (hmm : x.m_min ≤ x.m_max) (hhi : x.m_max < 2 ^ 15)
    (hx : CNTRL_2p2zNoOverflow x) (hy : CNTRL_2p2zNoOverflow y) :
    (CNTRL_2p2zInline y).Out.m_Int ≤ (CNTRL_2p2zInline x).Out.m_Int := by
  obtain ⟨-, ux⟩ := CNTRL_2p2zInline_exact x hx
  obtain ⟨-, uy⟩ := CNTRL_2p2zInline_exact y hy
  obtain ⟨-, -, -, -, -, -, ox, -⟩ := CNTRL_2p2zInline_values x
  obtain ⟨-, -, -, -, -, -, oy, -⟩ := CNTRL_2p2zInline_values y
  rw [hRef, hU1, hU2, hE1, hE2, hB2, hB1, hB0, hA2, hA1] at uy
  rw [hK, hmax, hmin] at oy
  rw [clamp_word _ _ _ hlo hmm hhi] at ox oy
  have hp : (x.Ref.m_Int - y.Fdbk.m_Int) * 2 ^ 16 * x.m_B0
      ≤ (x.Ref.m_Int - x.Fdbk.m_Int) * 2 ^ 16 * x.m_B0 :=
    mul_le_mul_of_nonneg_right (by omega) hb
  have hq : (x.Ref.m_Int - y.Fdbk.m_Int) * 2 ^ 16 * x.m_B0 / 2 ^ 32
      ≤ (x.Ref.m_Int - x.Fdbk.m_Int) * 2 ^ 16 * x.m_B0 / 2 ^ 32 :=
    Int.ediv_le_ediv (by norm_num) hp
  have ht : (x.m_E2 * x.m_B2 / 2 ^ 32 + x.m_E1 * x.m_B1 / 2 ^ 32
        + (x.Ref.m_Int - y.Fdbk.m_Int) * 2 ^ 16 * x.m_B0 / 2 ^ 32) / 2
      ≤ (x.m_E2 * x.m_B2 / 2 ^ 32 + x.m_E1 * x.m_B1 / 2 ^ 32
        + (x.Ref.m_Int - x.Fdbk.m_Int) * 2 ^ 16 * x.m_B0 / 2 ^ 32) / 2 :=
    Int.ediv_le_ediv (by norm_num) (by omega)
  have hu : (CNTRL_2p2zInline y).m_U1 ≤ (CNTRL_2p2zInline x).m_U1 := by
    rw [ux, uy]
    omega
  rw [ox, oy]
  exact max_le_max (min_le_min (QMPYL_mono _ _ _ hk hu) le_rfl) le_rfl

/-- Counterexample to C29 as stated: `wideBoundsState` has `m_B0 >= 0`,
`m_K >= 0` and `m_min <= m_max`; for the feedback words 0 and 16384 no
instruction overflows, the clamped values are 65534 and 32766, and the stored
outputs are -2 and 32766: the larger feedback gives the larger output. -/
theorem CNTRL_2p2zCall_not_antitone :
    0 ≤ wideBoundsState.m_B0 ∧ 0 ≤ wideBoundsState.m_K
    ∧ wideBoundsState.m_min ≤ wideBoundsState.m_max
    ∧ CNTRL_2p2zNoOverflow (setFdbk wideBoundsState 0)
    ∧ CNTRL_2p2zNoOverflow (setFdbk wideBoundsState 16384)
    ∧ QMPYL (CNTRL_2p2zCall wideBoundsState 0).m_U1 wideBoundsState.m_K = 65534
    ∧ (CNTRL_2p2zCall wideBoundsState 0).Out.m_Int = -2
    ∧ (CNTRL_2p2zCall wideBoundsState 16384).Out.m_Int = 32766
    ∧ ¬ ((CNTRL_2p2zCall wideBoundsState 16384).Out.m_Int
          ≤ (CNTRL_2p2zCall wideBoundsState 0).Out.m_Int) := by
  decide

/-- C29 (amended): for a fixed `CNTRL_2p2zData` state with `m_B0 >= 0`,
`m_K >= 0` and bounds `-2^15 <= m_min <= m_max < 2^15` that fit the output
word, and two feedback values `f <= f'` in [0, 32767] for which no instruction
overflows, the output of `CNTRL_2p2zInline` for `f'` is less than or equal to
the output for `f`. -/
theorem CNTRL_2p2zCall_antitone (x : CNTRL_2p2zData) (f f' : Nat)
    (hb : 0 ≤ x.m_B0) (hk : 0 ≤ x.m_K)
    (hlo : -(2 ^ 15) ≤ x.m_min) (hmm : x.m_min ≤ x.m_max) (hhi : x.m_max < 2 ^ 15)
    (hf : f ≤ f') (hf' : f' ≤ 32767)
    (h1 : CNTRL_2p2zNoOverflow (setFdbk x f)) (h2 : CNTRL_2p2zNoOverflow (setFdbk x f')) :
    (CNTRL_2p2zCall x f').Out.m_Int ≤ (CNTRL_2p2zCall x f).Out.m_Int := by
  obtain ⟨a1, a2, a3, a4, a5, a6, a7, a8, a9, a10, a11, a12, a13, a14⟩ := setFdbk_all x f
  obtain ⟨b1, b2, b3, b4, b5, b6, b7, b8, b9, b10, b11, b12, b13, b14⟩ := setFdbk_all x f'
  have w1 : wrapS 16 (f : Int) = f := wrapS_16_of_range _ (by omega) (by omega)
  have w2 : wrapS 16 (f' : Int) = f' := wrapS_16_of_range _ (by omega) (by omega)
  unfold CNTRL_2p2zCall
  exact CNTRL_2p2zInline_antitone (setFdbk x f) (setFdbk x f')
    (by rw [b2, a2]) (by rw [b3, a3]) (by rw [b4, a4]) (by rw [b5, a5]) (by rw [b6, a6])
    (by rw [b7, a7]) (by rw [b8, a8]) (by rw [b9, a9]) (by rw [b10, a10]) (by rw [b11, a11])
    (by rw [b12, a12]) (by rw [b13, a13]) (by rw [b14, a14])
    (by rw [a1, b1, w1, w2]; exact_mod_cast hf) (by rw [a9]; exact hb) (by rw [a12]; exact hk)
    (by rw [a14]; exact hlo) (by rw [a14, a13]; exact hmm) (by rw [a13]; exact hhi) h1 h2

/-- Witness for C29: the controller of `main` with the feedback words 1000
and 1001. -/
theorem CNTRL_2p2zCall_antitone_witness :
    (CNTRL_2p2zCall MyCntrl_init 1001).Out.m_Int ≤ (CNTRL_2p2zCall MyCntrl_init 1000).Out.m_Int :=
  CNTRL_2p2zCall_antitone MyCntrl_init 1000 1001
    (by rw [MyCntrl_init_eq]; decide) (by rw [MyCntrl_init_eq]; decide)
    (by rw [MyCntrl_init_eq]; decide) (by rw [MyCntrl_init_eq]; decide)
    (by rw [MyCntrl_init_eq]; decide) (by decide) (by decide)
    (by rw [MyCntrl_init_eq]; decide) (by rw [MyCntrl_init_eq]; decide)

/-! ### Inverted bounds -/

theorem QMPYL_zero (a : Int) : QMPYL a 0 = 0 := by
  simp [QMPYL]

theorem QMPYL_isInt32 (a b : Int) (ha : isInt32 a) (hb : isInt32 b) : isInt32 (QMPYL a b) := by
  obtain ⟨a1, a2⟩ := ha
  obtain ⟨b1, b2⟩ := hb
  have p1 : 0 ≤ (2 ^ 31 - a) * (2 ^ 31 + b) := mul_nonneg (by omega) (by omega)
  have p2 : 0 ≤ (2 ^ 31 + a) * (2 ^ 31 - b) := mul_nonneg (by omega) (by omega)
  have p3 : 0 ≤ (2 ^ 31 + a) * (2 ^ 31 + b) := mul_nonneg (by omega) (by omega)
  have p4 : 0 ≤ (2 ^ 31 - a) * (2 ^ 31 - b) := mul_nonneg (by omega) (by omega)
  have hu : a * b ≤ 2 ^ 62 := by nlinarith
  have hl : -(2 ^ 62) ≤ a * b := by nlinarith
  unfold QMPYL isInt32
  generalize a * b = p at hu hl
  constructor <;> omega

theorem satS32_isInt32 (v : Int) : isInt32 (satS32 v) := by
  unfold satS32 isInt32
  split_ifs <;> constructor <;> omega

theorem LSL_isInt32 (a : Int) (n : Nat) : isInt32 (LSL a n) := by
  unfold LSL wrapS isInt32
  constructor <;> omega

theorem ADDL_zero_left (q : Int) (h : isInt32 q) : ADDL 0 q = q := by
  unfold ADDL
  rw [zero_add]
  exact satS32_of_range _ h.1 h.2

theorem ADDL_zero_right (q : Int) (h : isInt32 q) : ADDL q 0 = q := by
  unfold ADDL
  rw [add_zero]
  exact satS32_of_range _ h.1 h.2

theorem CNTRL_3p3zInline_values (x : CNTRL_3p3zData) :
    (CNTRL_3p3zInline x).m_E1 = LSL (SUB x.Ref.m_Int x.Fdbk.m_Int) 16
    ∧ (CNTRL_3p3zInline x).m_E2 = x.m_E1
    ∧ (CNTRL_3p3zInline x).m_U2 = x.m_U1
    ∧ (CNTRL_3p3zInline x).m_U1
        = ADDL (ADDL (LSL (ADDL (ADDL (QMPYL x.m_U2 x.m_A2) (QMPYL x.m_U3 x.m_A3))
                  (QMPYL x.m_U1 x.m_A1)) 5)
              (LSL (ADDL (ADDL (QMPYL x.m_U2 x.m_A2) (QMPYL x.m_U3 x.m_A3))
                  (QMPYL x.m_U1 x.m_A1)) 5))
            (SFR (ADDL (ADDL (ADDL (QMPYL x.m_E3 x.m_B3) (QMPYL x.m_E2 x.m_B2))
                  (QMPYL x.m_E1 x.m_B1))
                (QMPYL (LSL (SUB x.Ref.m_Int x.Fdbk.m_Int) 16) x.m_B0)) 1)
    ∧ (CNTRL_3p3zInline x).Out.m_Int
        = wrapS 16 (MAXL (MINL (QMPYL (CNTRL_3p3zInline x).m_U1 x.m_K) x.m_max) x.m_min)
    ∧ (CNTRL_3p3zInline x).Ref = x.Ref
    ∧ (CNTRL_3p3zInline x).m_B3 = x.m_B3 ∧ (CNTRL_3p3zInline x).m_B2 = x.m_B2
    ∧ (CNTRL_3p3zInline x).m_B1 = x.m_B1 ∧ (CNTRL_3p3zInline x).m_B0 = x.m_B0
    ∧ (CNTRL_3p3zInline x).m_A3 = x.m_A3 ∧ (CNTRL_3p3zInline x).m_A2 = x.m_A2
    ∧ (CNTRL_3p3zInline x).m_A1 = x.m_A1 ∧ (CNTRL_3p3zInline x).m_K = x.m_K
    ∧ (CNTRL_3p3zInline x).m_max = x.m_max ∧ (CNTRL_3p3zInline x).m_min = x.m_min :=
  ⟨rfl, rfl, rfl, rfl, rfl, rfl, rfl, rfl, rfl, rfl, rfl, rfl, rfl, rfl, rfl, rfl⟩

theorem setFdbk3_all (x : CNTRL_3p3zData) (v : Nat) :
    (setFdbk3 x v).Fdbk.m_Int = wrapS 16 v ∧ (setFdbk3 x v).Ref = x.Ref
      ∧ (setFdbk3 x v).m_U1 = x.m_U1 ∧ (setFdbk3 x v).m_U2 = x.m_U2
      ∧ (setFdbk3 x v).m_U3 = x.m_U3
      ∧ (setFdbk3 x v).m_E1 = x.m_E1 ∧ (setFdbk3 x v).m_E2 = x.m_E2
      ∧ (setFdbk3 x v).m_E3 = x.m_E3
      ∧ (setFdbk3 x v).m_B3 = x.m_B3
      ∧ (setFdbk3 x v).m_B2 = x.m_B2 ∧ (setFdbk3 x v).m_B1 = x.m_B1
      ∧ (setFdbk3 x v).m_B0 = x.m_B0 ∧ (setFdbk3 x v).m_A3 = x.m_A3
      ∧ (setFdbk3 x v).m_A2 = x.m_A2
      ∧ (setFdbk3 x v).m_A1 = x.m_A1 ∧ (setFdbk3 x v).m_K = x.m_K
      ∧ (setFdbk3 x v).m_max = x.m_max ∧ (setFdbk3 x v).m_min = x.m_min := by
  simp [setFdbk3]

/-- One caller step of the 3p3z controller: the values stored, in terms of
the structure before the step and of the ADC word. -/
theorem CNTRL_3p3zCall_values (x : CNTRL_3p3zData) (v : Nat) :
    (CNTRL_3p3zCall x v).m_E1 = LSL (SUB x.Ref.m_Int (wrapS 16 v)) 16
    ∧ (CNTRL_3p3zCall x v).m_E2 = x.m_E1
    ∧ (CNTRL_3p3zCall x v).m_U2 = x.m_U1
    ∧ (CNTRL_3p3zCall x v).m_U1
        = ADDL (ADDL (LSL (ADDL (ADDL (QMPYL x.m_U2 x.m_A2) (QMPYL x.m_U3 x.m_A3))
                  (QMPYL x.m_U1 x.m_A1)) 5)
              (LSL (ADDL (ADDL (QMPYL x.m_U2 x.m_A2) (QMPYL x.m_U3 x.m_A3))
                  (QMPYL x.m_U1 x.m_A1)) 5))
            (SFR (ADDL (ADDL (ADDL (QMPYL x.m_E3 x.m_B3) (QMPYL x.m_E2 x.m_B2))
                  (QMPYL x.m_E1 x.m_B1))
                (QMPYL (LSL (SUB x.Ref.m_Int (wrapS 16 v)) 16) x.m_B0)) 1)
    ∧ (CNTRL_3p3zCall x v).Out.m_Int
        = wrapS 16 (MAXL (MINL (QMPYL (CNTRL_3p3zCall x v).m_U1 x.m_K) x.m_max) x.m_min)
    ∧ (CNTRL_3p3zCall x v).Ref = x.Ref
    ∧ (CNTRL_3p3zCall x v).m_B3 = x.m_B3 ∧ (CNTRL_3p3zCall x v).m_B2 = x.m_B2
    ∧ (CNTRL_3p3zCall x v).m_B1 = x.m_B1 ∧ (CNTRL_3p3zCall x v).m_B0 = x.m_B0
    ∧ (CNTRL_3p3zCall x v).m_A3 = x.m_A3 ∧ (CNTRL_3p3zCall x v).m_A2 = x.m_A2
    ∧ (CNTRL_3p3zCall x v).m_A1 = x.m_A1 ∧ (CNTRL_3p3zCall x v).m_K = x.m_K
    ∧ (CNTRL_3p3zCall x v).m_max = x.m_max ∧ (CNTRL_3p3zCall x v).m_min = x.m_min := by
  obtain ⟨f1, f2, f3, f4, f5, f6, f7, f8, f9, f10, f11, f12, f13, f14, f15, f16, f17, f18⟩ :=
    setFdbk3_all x v
  obtain ⟨g1, g2, g3, g4, g5, g6, g7, g8, g9, g10, g11, g12, g13, g14, g15, g16⟩ :=
    CNTRL_3p3zInline_values (setFdbk3 x v)
  rw [f1, f2] at g1
  rw [f6] at g2
  rw [f3] at g3
  rw [f1, f2, f3, f4, f5, f6, f7, f8, f9, f10, f11, f12, f13, f14, f15] at g4
  rw [f16, f17, f18] at g5
  unfold CNTRL_3p3zCall
  exact ⟨g1, g2, g3, g4, g5, by rw [g6, f2], by rw [g7, f9], by rw [g8, f10],
    by rw [g9, f11], by rw [g10, f12], by rw [g11, f13], by rw [g12, f14],
    by rw [g13, f15], by rw [g14, f16], by rw [g15, f17], by rw [g16, f18]⟩

theorem CNTRL_3p3zRun_cons (x : CNTRL_3p3zData) (v : Nat) (vs : List Nat) :
    CNTRL_3p3zRun x (v :: vs) = CNTRL_3p3zRun (CNTRL_3p3zCall x v) vs := by
  rw [CNTRL_3p3zRun, CNTRL_3p3zRun, List.foldl_cons]

theorem CNTRL_3p3zOutputs_cons (x : CNTRL_3p3zData) (v : Nat) (vs : List Nat) :
    CNTRL_3p3zOutputs x (v :: vs) = (CNTRL_3p3zCall x v).Out.m_Int
      :: CNTRL_3p3zOutputs (CNTRL_3p3zCall x v) vs := by
  rw [CNTRL_3p3zOutputs, CNTRL_3p3zOutputs, runOutputs]

/-- A 3p3z structure with `m_A3 = m_B3 = 0` and a 2p2z structure with the same
configuration and histories stay in step, call after call. -/
theorem CNTRL_3p3zRun_agree (vs : List Nat) :
    ∀ (x : CNTRL_3p3zData) (y : CNTRL_2p2zData), x.m_A3 = 0 → x.m_B3 = 0 →
      x.Ref.m_Int = y.Ref.m_Int →
      x.m_B2 = y.m_B2 → x.m_B1 = y.m_B1 → x.m_B0 = y.m_B0 → x.m_A2 = y.m_A2 →
      x.m_A1 = y.m_A1 → x.m_K = y.m_K → x.m_max = y.m_max → x.m_min = y.m_min →
      x.m_U1 = y.m_U1 → x.m_U2 = y.m_U2 → x.m_E1 = y.m_E1 → x.m_E2 = y.m_E2 →
      isInt32 y.m_U1 → isInt32 y.m_U2 → isInt32 y.m_E1 → isInt32 y.m_E2 →
      isInt32 y.m_A2 → isInt32 y.m_B2 →
      CNTRL_3p3zOutputs x vs = CNTRL_2p2zOutputs y vs
        ∧ (CNTRL_3p3zRun x vs).m_U1 = (CNTRL_2p2zRun y vs).m_U1
        ∧ (CNTRL_3p3zRun x vs).m_U2 = (CNTRL_2p2zRun y vs).m_U2
        ∧ (CNTRL_3p3zRun x vs).m_E1 = (CNTRL_2p2zRun y vs).m_E1
        ∧ (CNTRL_3p3zRun x vs).m_E2 = (CNTRL_2p2zRun y vs).m_E2 := by
  induction vs with
  | nil =>
    intro x y _ _ _ _ _ _ _ _ _ _ _ hU1 hU2 hE1 hE2 _ _ _ _ _ _
    exact ⟨rfl, hU1, hU2, hE1, hE2⟩
  | cons v vs ih =>
    intro x y hA3 hB3 hR hB2 hB1 hB0 hA2 hA1 hK hmax hmin hU1 hU2 hE1 hE2 rU1 rU2 rE1 rE2
      rA2 rB2
    obtain ⟨a1, a2, a3, a4, a5, a6, a7, a8, a9, a10, a11, a12, a13, a14, a15, a16⟩ :=
      CNTRL_3p3zCall_values x v
    obtain ⟨-, b2, b3, b4, b5, b6, b7, b8, b9, b10, b11, b12, b13, b14, b15⟩ :=
      CNTRL_2p2zCall_values y v
    have eU1 : (CNTRL_3p3zCall x v).m_U1 = (CNTRL_2p2zCall y v).m_U1 := by
      rw [a4, b5, hA3, hB3, QMPYL_zero, QMPYL_zero, hR, hB2, hB1, hB0, hA2, hA1, hU1, hU2,
        hE1, hE2, ADDL_zero_left _ (QMPYL_isInt32 _ _ rE2 rB2),
        ADDL_zero_right _ (QMPYL_isInt32 _ _ rU2 rA2)]
    have eOut : (CNTRL_3p3zCall x v).Out.m_Int = (CNTRL_2p2zCall y v).Out.m_Int := by
      rw [a5, b6, eU1, hK, hmax, hmin]
    have ih' := ih (CNTRL_3p3zCall x v) (CNTRL_2p2zCall y v)
      (by rw [a11, hA3]) (by rw [a7, hB3])
      (by rw [a6, b7, hR]) (by rw [a8, b8, hB2]) (by rw [a9, b9, hB1]) (by rw [a10, b10, hB0])
      (by rw [a12, b11, hA2]) (by rw [a13, b12, hA1]) (by rw [a14, b13, hK])
      (by rw [a15, b14, hmax]) (by rw [a16, b15, hmin]) eU1 (by rw [a3, b4, hU1])
      (by rw [a1, b2, hR]) (by rw [a2, b3, hE1])
      (by rw [b5]; exact satS32_isInt32 _) (by rw [b4]; exact rU1)
      (by rw [b2]; exact LSL_isInt32 _ _) (by rw [b3]; exact rE1)
      (by rw [b11]; exact rA2) (by rw [b8]; exact rB2)
    rw [CNTRL_3p3zRun_cons, CNTRL_2p2zRun_cons, CNTRL_3p3zOutputs_cons,
      CNTRL_2p2zOutputs_cons, eOut, ih'.1]
    exact ⟨rfl, ih'.2⟩

/-- C28: for every feedback sequence, a `CNTRL_3p3zData` with
`m_A3 = m_B3 = 0` run through `CNTRL_3p3zInline` and a `CNTRL_2p2zData` run
through `CNTRL_2p2zInline` with the same `Ref`, remaining coefficients, `K`,
`min`, `max` and the same initial histories (32-bit values, as the `long`
fields hold) give identical `Out.m_Int` after every call and identical
`m_U1`, `m_U2`, `m_E1`, `m_E2`; no assumption excludes saturation. -/
theorem CNTRL_3p3z_order_reduction (x : CNTRL_3p3zData) (y : CNTRL_2p2zData) (vs : List Nat)
    (hA3 : x.m_A3 = 0) (hB3 : x.m_B3 = 0) (hRef : x.Ref.m_Int = y.Ref.m_Int)
    (hB2 : x.m_B2 = y.m_B2) (hB1 : x.m_B1 = y.m_B1) (hB0 : x.m_B0 = y.m_B0)
    (hA2 : x.m_A2 = y.m_A2) (hA1 : x.m_A1 = y.m_A1) (hK : x.m_K = y.m_K)
    (hmax : x.m_max = y.m_max) (hmin : x.m_min = y.m_min)
    (hU1 : x.m_U1 = y.m_U1) (hU2 : x.m_U2 = y.m_U2)
    (hE1 : x.m_E1 = y.m_E1) (hE2 : x.m_E2 = y.m_E2)
    (rU1 : isInt32 y.m_U1) (rU2 : isInt32 y.m_U2) (rE1 : isInt32 y.m_E1)
    (rE2 : isInt32 y.m_E2) (rA2 : isInt32 y.m_A2) (rB2 : isInt32 y.m_B2) :
    CNTRL_3p3zOutputs x vs = CNTRL_2p2zOutputs y vs
      ∧ (CNTRL_3p3zRun x vs).m_U1 = (CNTRL_2p2zRun y vs).m_U1
      ∧ (CNTRL_3p3zRun x vs).m_U2 = (CNTRL_2p2zRun y vs).m_U2
      ∧ (CNTRL_3p3zRun x vs).m_E1 = (CNTRL_2p2zRun y vs).m_E1
      ∧ (CNTRL_3p3zRun x vs).m_E2 = (CNTRL_2p2zRun y vs).m_E2 :=
  CNTRL_3p3zRun_agree vs x y hA3 hB3 hRef hB2 hB1 hB0 hA2 hA1 hK hmax hmin hU1 hU2 hE1 hE2
    rU1 rU2 rE1 rE2 rA2 rB2

/-- Witness for C28: the decimal example coefficients truncated to Q26 in both
structures, the pole
histories at the two ends of the 32-bit range so that the pole sum overflows,
and three samples. -/
theorem CNTRL_3p3z_order_reduction_witness :
    CNTRL_3p3zOutputs reduced3p3z [0, 1000, 4095] = CNTRL_2p2zOutputs saturating2p2z [0, 1000, 4095]
      ∧ (CNTRL_3p3zRun reduced3p3z [0, 1000, 4095]).m_U1
          = (CNTRL_2p2zRun saturating2p2z [0, 1000, 4095]).m_U1
      ∧ (CNTRL_3p3zRun reduced3p3z [0, 1000, 4095]).m_U2
          = (CNTRL_2p2zRun saturating2p2z [0, 1000, 4095]).m_U2
      ∧ (CNTRL_3p3zRun reduced3p3z [0, 1000, 4095]).m_E1
          = (CNTRL_2p2zRun saturating2p2z [0, 1000, 4095]).m_E1
      ∧ (CNTRL_3p3zRun reduced3p3z [0, 1000, 4095]).m_E2
          = (CNTRL_2p2zRun saturating2p2z [0, 1000, 4095]).m_E2 :=
  CNTRL_3p3z_order_reduction reduced3p3z saturating2p2z [0, 1000, 4095]
    rfl rfl rfl rfl rfl rfl rfl rfl rfl rfl rfl rfl rfl rfl rfl
    (by decide) (by decide) (by decide) (by decide) (by decide) (by decide)

/-! ### The CLA tasks under single-precision arithmetic -/

/-- The run with exact arithmetic is the run under `exactArith`. -/
theorem claRunFp_exactArith (prog : List ClaInstr) :
    ∀ s : ClaState, claRunFp exactArith prog s = claRun prog s := by
  induction prog with
  | nil => intro s; rfl
  | cons i rest ih =>
    intro s
    have h : claRunFp exactArith rest = claRun rest := funext ih
    simp only [claRunFp, claRun, claStep, h]

theorem CLA_2p2zIMode_runFp_eq (fp : ClaArith) (Adc Cmp : Nat) (A1 A2 B0 B1 B2 K MiN MaX : ℚ)
    (r0 r1 r2 r3 : MVal) (m16 : Mem16 → Nat) (m32 : Mem32 → ℚ) (w : List (Mem16 × Nat)) :
    let e0 := fp.rnd (I16TOF32 (m16 (.Ctrl 1)) - I16TOF32 (m16 (.AdcResult (Adc - 1))))
    let u0 := fp.rnd (m32 (.Data 0) + fp.rnd (e0 * fp.imm32 B0))
    let out := F32TOUI16 (max (min (fp.rnd (u0 * fp.imm32 K)) (fp.imm16 MaX)) (fp.imm16 MiN))
    let pre := fp.rnd (fp.rnd (fp.rnd (fp.rnd (fp.rnd (fp.imm32 0 + fp.imm32 0)
        + fp.rnd (fp.imm32 A2 * m32 (.Data 4))) + fp.rnd (fp.imm32 A1 * u0))
        + fp.rnd (fp.imm32 B2 * m32 (.Data 8))) + fp.rnd (fp.imm32 B1 * e0))
    claRunFp fp (CLA_2p2zIMode Adc Cmp A1 A2 B0 B1 B2 K MiN MaX)
        ⟨r0, r1, r2, r3, m16, m32, w, false⟩
      = some ⟨.f32 e0, .f32 (fp.imm32 B1), .f32 (fp.rnd (fp.imm32 B1 * e0)), .f32 pre,
              Function.update m16 (.CompRegs Cmp 6) out,
              Function.update (Function.update (Function.update (Function.update (Function.update
                m32 (.Data 2) u0) (.Data 6) e0) (.Data 4) u0) (.Data 8) e0) (.Data 0) pre,
              w ++ [(.CompRegs Cmp 6, out)], true⟩ := by
  intro e0 u0 out pre
  rfl

theorem CLA_2p2zVMode_runFp_eq (fp : ClaArith) (Adc Pwm : Nat) (A1 A2 B0 B1 B2 K MiN MaX : ℚ)
    (r0 r1 r2 r3 : MVal) (m16 : Mem16 → Nat) (m32 : Mem32 → ℚ) (w : List (Mem16 × Nat)) :
    let e0 := fp.rnd (I16TOF32 (m16 (.Ctrl 1)) - I16TOF32 (m16 (.AdcResult (Adc - 1))))
    let u0 := fp.rnd (m32 (.Data 0) + fp.rnd (e0 * fp.imm32 B0))
    let out := F32TOUI16 (max (min (fp.rnd (u0 * fp.imm32 K)) (fp.imm16 MaX)) (fp.imm16 MiN))
    let pre := fp.rnd (fp.rnd (fp.rnd (fp.rnd (fp.rnd (fp.imm32 0 + fp.imm32 0)
        + fp.rnd (fp.imm32 A2 * m32 (.Data 4))) + fp.rnd (fp.imm32 A1 * u0))
        + fp.rnd (fp.imm32 B2 * m32 (.Data 8))) + fp.rnd (fp.imm32 B1 * e0))
    claRunFp fp (CLA_2p2zVMode Adc Pwm A1 A2 B0 B1 B2 K MiN MaX)
        ⟨r0, r1, r2, r3, m16, m32, w, false⟩
      = some ⟨.f32 e0, .f32 (fp.imm32 B1), .f32 (fp.rnd (fp.imm32 B1 * e0)), .f32 pre,
              Function.update m16 (.EPwmRegs Pwm 9) out,
              Function.update (Function.update (Function.update (Function.update (Function.update
                m32 (.Data 2) u0) (.Data 6) e0) (.Data 4) u0) (.Data 8) e0) (.Data 0) pre,
              w ++ [(.EPwmRegs Pwm 9, out)], true⟩ := by
  intro e0 u0 out pre
  rfl

/-- One execution of `CLA_2p2zIMode` under the arithmetic `fp`: the values
stored, each difference, product and sum rounded by `fp.rnd`. -/
theorem CLA_2p2zIMode_runFp (fp : ClaArith) (Adc Cmp : Nat) (A1 A2 B0 B1 B2 K MiN MaX : ℚ)
    (s : ClaState) (hs : s.stopped = false) :
    ∃ t, claRunFp fp (CLA_2p2zIMode Adc Cmp A1 A2 B0 B1 B2 K MiN MaX) s = some t
      ∧ t.mem32 (.Data 6)
          = fp.rnd (I16TOF32 (s.mem16 (.Ctrl 1)) - I16TOF32 (s.mem16 (.AdcResult (Adc - 1))))
      ∧ t.mem32 (.Data 8) = t.mem32 (.Data 6)
      ∧ t.mem32 (.Data 2)
          = fp.rnd (s.mem32 (.Data 0) + fp.rnd (t.mem32 (.Data 6) * fp.imm32 B0))
      ∧ t.mem32 (.Data 4) = t.mem32 (.Data 2)
      ∧ t.mem32 (.Data 0)
          = fp.rnd (fp.rnd (fp.rnd (fp.rnd (fp.rnd (fp.imm32 0 + fp.imm32 0)
              + fp.rnd (fp.imm32 A2 * s.mem32 (.Data 4)))
              + fp.rnd (fp.imm32 A1 * t.mem32 (.Data 2)))
              + fp.rnd (fp.imm32 B2 * s.mem32 (.Data 8)))
              + fp.rnd (fp.imm32 B1 * t.mem32 (.Data 6)))
      ∧ t.writes = s.writes ++ [(.CompRegs Cmp 6,
          F32TOUI16 (max (min (fp.rnd (t.mem32 (.Data 2) * fp.imm32 K)) (fp.imm16 MaX))
            (fp.imm16 MiN)))]
      ∧ t.stopped = true := by
  obtain ⟨r0, r1, r2, r3, m16, m32, w, st⟩ := s
  simp only at hs
  subst hs
  refine ⟨_, CLA_2p2zIMode_runFp_eq fp Adc Cmp A1 A2 B0 B1 B2 K MiN MaX r0 r1 r2 r3 m16 m32 w, ?_⟩
  simp [Function.update]

/-- One execution of `CLA_2p2zVMode` under the arithmetic `fp`. -/
theorem CLA_2p2zVMode_runFp (fp : ClaArith) (Adc Pwm : Nat) (A1 A2 B0 B1 B2 K MiN MaX : ℚ)
    (s : ClaState) (hs : s.stopped = false) :
    ∃ t, claRunFp fp (CLA_2p2zVMode Adc Pwm A1 A2 B0 B1 B2 K MiN MaX) s = some t
      ∧ t.mem32 (.Data 6)
          = fp.rnd (I16TOF32 (s.mem16 (.Ctrl 1)) - I16TOF32 (s.mem16 (.AdcResult (Adc - 1))))
      ∧ t.mem32 (.Data 8) = t.mem32 (.Data 6)
      ∧ t.mem32 (.Data 2)
          = fp.rnd (s.mem32 (.Data 0) + fp.rnd (t.mem32 (.Data 6) * fp.imm32 B0))
      ∧ t.mem32 (.Data 4) = t.mem32 (.Data 2)
      ∧ t.mem32 (.Data 0)
          = fp.rnd (fp.rnd (fp.rnd (fp.rnd (fp.rnd (fp.imm32 0 + fp.imm32 0)
              + fp.rnd (fp.imm32 A2 * s.mem32 (.Data 4)))
              + fp.rnd (fp.imm32 A1 * t.mem32 (.Data 2)))
              + fp.rnd (fp.imm32 B2 * s.mem32 (.Data 8)))
              + fp.rnd (fp.imm32 B1 * t.mem32 (.Data 6)))
      ∧ t.writes = s.writes ++ [(.EPwmRegs Pwm 9,
          F32TOUI16 (max (min (fp.rnd (t.mem32 (.Data 2) * fp.imm32 K)) (fp.imm16 MaX))
            (fp.imm16 MiN)))]
      ∧ t.stopped = true := by
  obtain ⟨r0, r1, r2, r3, m16, m32, w, st⟩ := s
  simp only at hs
  subst hs
  refine ⟨_, CLA_2p2zVMode_runFp_eq fp Adc Pwm A1 A2 B0 B1 B2 K MiN MaX r0 r1 r2 r3 m16 m32 w, ?_⟩
  simp [Function.update]

theorem slopeLoopBody_runFp (fp : ClaArith) (Comp : Nat) (rest : List ClaInstr) (r0 r1 : MVal)
    (v d : ℚ) (m16 : Mem16 → Nat) (m32 : Mem32 → ℚ) (w : List (Mem16 × Nat)) :
    claRunFp fp (slopeLoopBody Comp ++ rest) ⟨r0, r1, .f32 d, .f32 v, m16, m32, w, false⟩
      = claRunFp fp rest ⟨r0, .u16 (F32TOUI16 (fp.rnd (v + d))), .f32 d, .f32 (fp.rnd (v + d)),
          Function.update m16 (.CompRegs Comp 6) (F32TOUI16 (fp.rnd (v + d))), m32,
          w ++ [(.CompRegs Comp 6, F32TOUI16 (fp.rnd (v + d)))], false⟩ := rfl

theorem asmLoop_slope_runFp (fp : ClaArith) (Comp : Nat) (d : ℚ) (Steps : Nat)
    (rest : List ClaInstr) :
    ∀ (count x k : Nat) (r0 r1 : MVal) (v : ℚ) (m16 : Mem16 → Nat) (m32 : Mem32 → ℚ)
      (w : List (Mem16 × Nat)), x < Steps → k = min (count + 1) (Steps - x) →
      claRunFp fp (asmLoop (slopeLoopBody Comp) Steps (count + 1) x ++ rest)
          ⟨r0, r1, .f32 d, .f32 v, m16, m32, w, false⟩
        = claRunFp fp rest ⟨r0, .u16 (F32TOUI16 ((fun a => fp.rnd (a + d))^[k] v)), .f32 d,
            .f32 ((fun a => fp.rnd (a + d))^[k] v),
            Function.update m16 (.CompRegs Comp 6) (F32TOUI16 ((fun a => fp.rnd (a + d))^[k] v)),
            m32,
            w ++ (List.range k).map
              (fun i : Nat => (Mem16.CompRegs Comp 6,
                F32TOUI16 ((fun a => fp.rnd (a + d))^[i + 1] v))),
            false⟩ := by
  intro count
  induction count with
  | zero =>
    intro x k r0 r1 v m16 m32 w hx hk
    have hk1 : k = 1 := by omega
    subst hk1
    have hl : asmLoop (slopeLoopBody Comp) Steps (0 + 1) x ++ rest
        = slopeLoopBody Comp ++ rest := by
      simp [asmLoop]
    rw [hl, slopeLoopBody_runFp]
    rfl
  | succ count ih =>
    intro x k r0 r1 v m16 m32 w hx hk
    by_cases hbrk : x + 1 = Steps
    · have hk1 : k = 1 := by omega
      subst hk1
      have hl : asmLoop (slopeLoopBody Comp) Steps (count + 1 + 1) x ++ rest
          = slopeLoopBody Comp ++ rest := by
        simp [asmLoop, hbrk]
      rw [hl, slopeLoopBody_runFp]
      rfl
    · have hl : asmLoop (slopeLoopBody Comp) Steps (count + 1 + 1) x ++ rest
          = slopeLoopBody Comp ++ (asmLoop (slopeLoopBody Comp) Steps (count + 1) (x + 1) ++ rest) := by
        rw [asmLoop]
        simp [hbrk]
      obtain ⟨k', rfl⟩ : ∃ k', k = k' + 1 := ⟨k - 1, by omega⟩
      rw [hl, slopeLoopBody_runFp,
        ih (x + 1) k' r0 _ (fp.rnd (v + d)) _ m32 _ (by omega) (by omega)]
      rw [Function.update_idem, List.range_succ_eq_map k', List.map_cons, List.map_map,
        List.append_assoc]
      rfl

theorem CLA_slopeCode_runFp_eq (fp : ClaArith) (Comp Pwm : Nat) (Delta : ℚ) (Steps k : Nat)
    (h1 : 1 ≤ Steps) (hk : k = min ASM_LOOP_DEFAULT Steps)
    (r0 r1 r2 r3 : MVal) (m16 : Mem16 → Nat) (m32 : Mem32 → ℚ) (w : List (Mem16 × Nat)) :
    claRunFp fp (CLA_slopeCode Comp Pwm Delta Steps) ⟨r0, r1, r2, r3, m16, m32, w, false⟩
      = some ⟨r0,
          .u16 (F32TOUI16 ((fun a => fp.rnd (a + fp.imm32 Delta))^[k]
            (I16TOF32 (m16 (.CompRegs Comp 6))))),
          .f32 (fp.imm32 Delta),
          .f32 ((fun a => fp.rnd (a + fp.imm32 Delta))^[k] (I16TOF32 (m16 (.CompRegs Comp 6)))),
          Function.update (Function.update m16 (.EPwmRegs Pwm 28) 1) (.CompRegs Comp 6)
            (F32TOUI16 ((fun a => fp.rnd (a + fp.imm32 Delta))^[k]
              (I16TOF32 (m16 (.CompRegs Comp 6))))),
          m32,
          (w ++ [(.EPwmRegs Pwm 28, 1)]) ++ (List.range k).map
            (fun i : Nat => (Mem16.CompRegs Comp 6,
              F32TOUI16 ((fun a => fp.rnd (a + fp.imm32 Delta))^[i + 1]
                (I16TOF32 (m16 (.CompRegs Comp 6)))))),
          true⟩ := by
  have hpro : ∀ rest : List ClaInstr,
      claRunFp fp ([ClaInstr.MMOVXI .MR3 1, .MMOV16 (.EPwmRegs Pwm 28) .MR3,
          .MI16TOF32 .MR3 (.CompRegs Comp 6), .MMOVF32 .MR2 Delta] ++ rest)
          ⟨r0, r1, r2, r3, m16, m32, w, false⟩
        = claRunFp fp rest ⟨r0, r1, .f32 (fp.imm32 Delta),
            .f32 (I16TOF32 (m16 (.CompRegs Comp 6))),
            Function.update m16 (.EPwmRegs Pwm 28) 1, m32, w ++ [(.EPwmRegs Pwm 28, 1)],
            false⟩ := fun _ => rfl
  have hk' : k = min (1023 + 1) (Steps - 0) := by
    rw [hk]; rfl
  unfold CLA_slopeCode
  rw [List.append_assoc, hpro]
  show claRunFp fp (asmLoop (slopeLoopBody Comp) Steps (1023 + 1) 0 ++ _) _ = _
  rw [asmLoop_slope_runFp fp Comp (fp.imm32 Delta) Steps _ 1023 0 k r0 r1 _ _ m32 _ (by omega) hk']
  rfl

/-- With a whole-number step `d` and rounding that is exact on the integers up
to `2^24`, the accumulated ramp is `v + i*d` as long as the values stay within
that range. -/
theorem slope_iterate_int (fp : ClaArith) (v d : Int) (n : Nat)
    (hr : ∀ z : Int, |z| ≤ 2 ^ 24 → fp.rnd (z : ℚ) = z)
    (hb : ∀ i : Nat, i ≤ n → |v + i * d| ≤ 2 ^ 24) :
    ∀ i : Nat, i ≤ n →
      (fun a => fp.rnd (a + (d : ℚ)))^[i] (v : ℚ) = ((v + i * d : Int) : ℚ) := by
  intro i
  induction i with
  | zero =>
    intro _
    simp
  | succ i ih =>
    intro hi
    rw [Function.iterate_succ_apply', ih (by omega)]
    have h := hr (v + ((i + 1 : Nat) : Int) * d) (hb (i + 1) hi)
    rw [← h]
    congr 1
    push_cast
    ring

/-- C3 (amended): one execution of `CLA_2p2zIMode` writes to the comparator DAC
the unsigned-integer conversion of `max (min c MaX) MiN`, where `c` is
`K * (PreValue + B0*(Ref - Adc))` as the task computes it in single precision
(the difference, each product and the sum rounded, `K`, `B0`, `MiN`, `MaX` the
encoded immediates) and `PreValue` is the value left in the task data by the
previous execution; the written value is a function of the current sample and
of that stored value only, and when `MiN` is a whole number with
`0 <= MiN <= MaX <= 65535` it lies in `[MiN, MaX]`. -/
theorem CLA_2p2zIMode_dac_value (fp : ClaArith) (Adc Cmp : Nat)
    (A1 A2 B0 B1 B2 K MiN MaX : ℚ) (s : ClaState) (hs : s.stopped = false) :
    ∃ t w, claRunFp fp (CLA_2p2zIMode Adc Cmp A1 A2 B0 B1 B2 K MiN MaX) s = some t
      ∧ t.writes = s.writes ++ [(.CompRegs Cmp 6, w)]
      ∧ w = F32TOUI16 (max (min (fp.rnd (fp.rnd (s.mem32 (.Data 0)
              + fp.rnd (fp.rnd (I16TOF32 (s.mem16 (.Ctrl 1))
                  - I16TOF32 (s.mem16 (.AdcResult (Adc - 1)))) * fp.imm32 B0)) * fp.imm32 K))
            (fp.imm16 MaX)) (fp.imm16 MiN))
      ∧ (0 ≤ fp.imm16 MiN → fp.imm16 MiN ≤ fp.imm16 MaX → fp.imm16 MaX ≤ 65535 →
          ((⌊fp.imm16 MiN⌋ : Int) : ℚ) = fp.imm16 MiN →
          fp.imm16 MiN ≤ (w : ℚ) ∧ (w : ℚ) ≤ fp.imm16 MaX) := by
  obtain ⟨t, ht, h6, -, h2, -, -, hw, -⟩ :=
    CLA_2p2zIMode_runFp fp Adc Cmp A1 A2 B0 B1 B2 K MiN MaX s hs
  rw [h2, h6] at hw
  refine ⟨t, _, ht, hw, rfl, ?_⟩
  intro h0 hle hM hint
  exact F32TOUI16_range _ (fp.imm16 MiN) (fp.imm16 MaX) h0 hint (le_max_right _ _)
    (max_le (min_le_right _ _) hle) hM

/-- Witness for C3: the task of the header example, `MiN = 0`, `MaX = 240`,
with exact arithmetic. -/
theorem CLA_2p2zIMode_dac_value_witness :
    ∃ (t : ClaState) (w : Nat), claRunFp exactArith (CLA_2p2zIMode 7 3 A1 A2 B0 B1 B2 K 0 240)
          ⟨.u16 0, .u16 0, .u16 0, .u16 0, fun _ => 2048, fun _ => 0, [], false⟩ = some t
      ∧ t.writes = [] ++ [(Mem16.CompRegs 3 6, w)]
      ∧ (0 : ℚ) ≤ (w : ℚ) ∧ (w : ℚ) ≤ 240 := by
  obtain ⟨t, w, h1, h2, -, h4⟩ := CLA_2p2zIMode_dac_value exactArith 7 3 A1 A2 B0 B1 B2 K 0 240
    ⟨.u16 0, .u16 0, .u16 0, .u16 0, fun _ => 2048, fun _ => 0, [], false⟩ rfl
  have h5 := h4 (le_refl (0 : ℚ)) (show (0 : ℚ) ≤ 240 by norm_num)
    (show (240 : ℚ) ≤ 65535 by norm_num) (show ((⌊(0 : ℚ)⌋ : Int) : ℚ) = 0 by simp)
  exact ⟨t, w, h1, h2, h5⟩

/-- C4 (amended): for every `Delta` and every `Steps` with
`1 <= Steps <= 1024`, one execution of the task generated by `CLA_slopeCode`
performs (after clearing the PWM interrupt flag) exactly `Steps` writes to the
comparator DAC register and then stops; the `i`-th write is the
unsigned-integer conversion of the accumulator after `i` single-precision
additions of the encoded `Delta` to `v0`, the DAC value read once at task
start, and the DAC finally holds the conversion of the accumulator after
`Steps` additions. When the encoded `Delta` is a whole number `d` and the
additions are exact on the integers up to `2^24`, the accumulator after `i`
additions is `v0 + i*d`. -/
theorem CLA_slopeCode_writes (fp : ClaArith) (Comp Pwm : Nat) (Delta : ℚ) (Steps : Nat)
    (s : ClaState) (h1 : 1 ≤ Steps) (h2 : Steps ≤ 1024) (hs : s.stopped = false) :
    ∃ t, claRunFp fp (CLA_slopeCode Comp Pwm Delta Steps) s = some t
      ∧ t.stopped = true
      ∧ t.writes = s.writes ++ (Mem16.EPwmRegs Pwm 28, 1) :: (List.range Steps).map
          (fun i : Nat => (Mem16.CompRegs Comp 6,
            F32TOUI16 ((fun a => fp.rnd (a + fp.imm32 Delta))^[i + 1]
              (I16TOF32 (s.mem16 (.CompRegs Comp 6))))))
      ∧ (dacWrites Comp t).length = (dacWrites Comp s).length + Steps
      ∧ t.mem16 (.CompRegs Comp 6)
          = F32TOUI16 ((fun a => fp.rnd (a + fp.imm32 Delta))^[Steps]
              (I16TOF32 (s.mem16 (.CompRegs Comp 6))))
      ∧ (∀ d : Int, fp.imm32 Delta = (d : ℚ) →
          (∀ z : Int, |z| ≤ 2 ^ 24 → fp.rnd (z : ℚ) = z) →
          (∀ i : Nat, i ≤ Steps →
            |wrapS 16 (s.mem16 (.CompRegs Comp 6) : Int) + i * d| ≤ 2 ^ 24) →
          ∀ i : Nat, i ≤ Steps →
            (fun a => fp.rnd (a + fp.imm32 Delta))^[i] (I16TOF32 (s.mem16 (.CompRegs Comp 6)))
              = I16TOF32 (s.mem16 (.CompRegs Comp 6)) + (i : ℚ) * (d : ℚ)) := by
  obtain ⟨r0, r1, r2, r3, m16, m32, w, st⟩ := s
  simp only at hs
  subst hs
  have hk : Steps = min ASM_LOOP_DEFAULT Steps := by
    unfold ASM_LOOP_DEFAULT; omega
  refine ⟨_, CLA_slopeCode_runFp_eq fp Comp Pwm Delta Steps Steps h1 hk r0 r1 r2 r3 m16 m32 w,
    rfl, ?_, ?_, ?_, ?_⟩
  · simp
  · simp [dacWrites, List.filter_map, Function.comp_def]
  · simp
  · intro d hd hr hb i hi
    simp only
    rw [hd]
    unfold I16TOF32
    rw [slope_iterate_int fp _ d Steps hr hb i hi]
    push_cast
    ring

/-- Witness for C4: the parameters of `SlopeTask`, DAC value 500 at task
start, exact arithmetic. -/
theorem CLA_slopeCode_writes_witness :
    (1 ≤ 80 ∧ 80 ≤ 1024)
      ∧ ∃ t, claRunFp exactArith (CLA_slopeCode 2 1 (-1) 80)
            ⟨.u16 0, .u16 0, .u16 0, .u16 0, fun _ => 500, fun _ => 0, [], false⟩ = some t
          ∧ t.stopped = true
          ∧ (dacWrites 2 t).length
              = (dacWrites 2 ⟨.u16 0, .u16 0, .u16 0, .u16 0, fun _ => 500, fun _ => 0, [],
                  false⟩).length + 80
          ∧ t.mem16 (.CompRegs 2 6)
              = F32TOUI16 ((fun a => exactArith.rnd (a + exactArith.imm32 (-1)))^[80]
                  (I16TOF32 500))
          ∧ (fun a => exactArith.rnd (a + exactArith.imm32 (-1)))^[80] (I16TOF32 500)
              = I16TOF32 500 + ((80 : Nat) : ℚ) * (((-1 : Int)) : ℚ) := by
  obtain ⟨t, a, b, -, d, e, f⟩ := CLA_slopeCode_writes exactArith 2 1 (-1) 80
      ⟨.u16 0, .u16 0, .u16 0, .u16 0, fun _ => 500, fun _ => 0, [], false⟩
      (by decide) (by decide) rfl
  refine ⟨⟨by decide, by decide⟩, t, a, b, d, e, ?_⟩
  refine f (-1) (by simp [exactArith]) (fun z _ => rfl) ?_ 80 (le_refl 80)
  intro i hi
  have hw : wrapS 16 ((500 : Nat) : Int) = 500 := by decide
  simp only [hw]
  rw [abs_le]
  constructor <;> omega

/-- Counterexample to C4 as stated: with `Steps = 1025` the assembler's `.loop`
stops after its 1024 repetitions before `.break x = Steps` is met, so the task
performs 1024 DAC writes, not `Steps`. -/
theorem CLA_slopeCode_not_every_Steps :
    1 ≤ 1025 ∧ ∃ t, claRun (CLA_slopeCode 2 1 (-1) 1025)
            ⟨.u16 0, .u16 0, .u16 0, .u16 0, fun _ => 0, fun _ => 0, [], false⟩ = some t
        ∧ (dacWrites 2 t).length = 1024 ∧ (1024 : Nat) ≠ 1025 := by
  refine ⟨by decide, _, CLA_slopeCode_run_eq 2 1 (-1) 1025 1024 (by decide) (by decide)
      (.u16 0) (.u16 0) (.u16 0) (.u16 0) (fun _ => 0) (fun _ => 0) [], ?_, by decide⟩
  simp [dacWrites, List.filter_map, Function.comp_def]

/-- Counterexample to C9 as stated: the compensator of `main`, with zero
histories and the feedback equal to the reference, outputs 0, a value in
`[MIN_DUTY, MAX_DUTY]`; the ramped value `v + 1*Delta` is then -1, and started
from a DAC value of 0 `SlopeTask` ramps its accumulator `MR3` down to -80. -/
theorem SlopeTask_ramp_below_zero :
    (CNTRL_2p2zInline (setFdbk MyCntrl_init 2048)).Out.m_Int = 0
      ∧ MIN_DUTY ≤ 0 ∧ 0 ≤ MAX_DUTY
      ∧ ¬ (0 ≤ ((0 : Nat) : ℚ) + ((1 : Nat) : ℚ) * SLOPE_DELTA)
      ∧ ∃ t, claRun SlopeTask
            ⟨.u16 0, .u16 0, .u16 0, .u16 0, fun _ => 0, fun _ => 0, [], false⟩ = some t
          ∧ t.MR3 = .f32 (-80) := by
  refine ⟨by rw [MyCntrl_init_eq]; decide, by decide, by decide,
    by unfold SLOPE_DELTA; norm_num, _,
    CLA_slopeCode_run_eq 2 1 SLOPE_DELTA SLOPE_STEPS 80 (by decide) (by decide)
      (.u16 0) (.u16 0) (.u16 0) (.u16 0) (fun _ => 0) (fun _ => 0) [], ?_⟩
  show MVal.f32 (I16TOF32 0 + ((80 : Nat) : ℚ) * SLOPE_DELTA) = MVal.f32 (-80)
  rw [I16TOF32_zero]
  unfold SLOPE_DELTA
  norm_num

theorem SlopeTask_dac_word_sat (v i : Nat) (hv : v ≤ 1023) :
    F32TOUI16 (I16TOF32 v + ((i : ℚ) + 1) * SLOPE_DELTA) = v - (i + 1) := by
  have h1 : I16TOF32 v + ((i : ℚ) + 1) * SLOPE_DELTA = (((v : Int) - ((i + 1 : Nat) : Int) : Int) : ℚ) := by
    rw [I16TOF32_of_lt v (by omega)]
    unfold SLOPE_DELTA
    push_cast
    norm_num
    ring
  rw [h1]
  unfold F32TOUI16
  rw [Int.floor_intCast, Int.toNat_sub]
  exact min_eq_left (by omega)

/-- The accumulator of `SlopeTask` after `i` additions, for a DAC word
`v <= 1023`, when `-1.0` is encoded exactly and the additions are exact on the
integers up to `2^24`. -/
theorem SlopeTask_accumulator (fp : ClaArith) (v i : Nat) (hv : v ≤ 1023) (hi : i ≤ 80)
    (hr : ∀ z : Int, |z| ≤ 2 ^ 24 → fp.rnd (z : ℚ) = z)
    (hd : fp.imm32 SLOPE_DELTA = SLOPE_DELTA) :
    (fun a => fp.rnd (a + fp.imm32 SLOPE_DELTA))^[i] (I16TOF32 v)
      = I16TOF32 v + (i : ℚ) * SLOPE_DELTA := by
  have hw : wrapS 16 (v : Int) = (v : Int) := by
    apply wrapS_16_of_range <;> omega
  have hD : SLOPE_DELTA = ((-1 : Int) : ℚ) := by
    unfold SLOPE_DELTA
    norm_num
  rw [hd]
  unfold I16TOF32
  rw [hw, hD, slope_iterate_int fp (v : Int) (-1) 80 hr ?_ i hi]
  · push_cast
    ring
  · intro k hk
    rw [abs_le]
    constructor <;> omega

/-- C9 (amended): in the configuration of the program (`MIN_DUTY = 0`,
`MAX_DUTY = 1023`, `SlopeTask` with `Delta = -1.0` and `Steps = 80`) the slope
ramp never takes the DAC word below zero and never wraps it: for every
compensator output `v` in `[MIN_DUTY, MAX_DUTY]` written to the DAC the `i`-th
word written by the ramp (`1 <= i <= 80`) is `v + i*Delta` when that is not
negative and 0 otherwise, the conversion to an unsigned word holding the DAC at
zero; the ramped values `v + i*Delta` themselves are all `>= 0` exactly when
`v >= 80`. The arithmetic is any single-precision arithmetic that encodes
`-1.0` exactly and adds integers up to `2^24` exactly. -/
theorem SlopeTask_dac_not_below_zero (fp : ClaArith) (s : ClaState) (v : Nat)
    (hr : ∀ z : Int, |z| ≤ 2 ^ 24 → fp.rnd (z : ℚ) = z)
    (hd : fp.imm32 SLOPE_DELTA = SLOPE_DELTA)
    (hs : s.stopped = false)
    (hdac : s.mem16 (.CompRegs 2 6) = v) (hlo : MIN_DUTY ≤ (v : Int))
    (hhi : (v : Int) ≤ MAX_DUTY) :
    ∃ t, claRunFp fp SlopeTask s = some t
      ∧ t.writes = s.writes ++ (Mem16.EPwmRegs 1 28, 1) :: (List.range 80).map
          (fun i : Nat => (Mem16.CompRegs 2 6, v - (i + 1)))
      ∧ (∀ i : Nat, ((v - (i + 1) : Nat) : ℚ) = max ((v : ℚ) + ((i : ℚ) + 1) * SLOPE_DELTA) 0)
      ∧ ((∀ i : Nat, 1 ≤ i → i ≤ 80 → 0 ≤ (v : ℚ) + (i : ℚ) * SLOPE_DELTA) ↔ 80 ≤ v) := by
  have _h := hlo
  have hv : v ≤ 1023 := by
    have h : MAX_DUTY = 1023 := rfl
    rw [h] at hhi
    omega
  obtain ⟨r0, r1, r2, r3, m16, m32, w, st⟩ := s
  simp only at hs hdac
  subst hs
  have hrun := CLA_slopeCode_runFp_eq fp 2 1 SLOPE_DELTA SLOPE_STEPS 80 (by decide) (by decide)
    r0 r1 r2 r3 m16 m32 w
  have hlist : (List.range 80).map (fun i : Nat => (Mem16.CompRegs 2 6,
        F32TOUI16 ((fun a => fp.rnd (a + fp.imm32 SLOPE_DELTA))^[i + 1]
          (I16TOF32 (m16 (.CompRegs 2 6))))))
      = (List.range 80).map (fun i : Nat => (Mem16.CompRegs 2 6, v - (i + 1))) := by
    apply List.map_congr_left
    intro i hi
    rw [List.mem_range] at hi
    rw [hdac, SlopeTask_accumulator fp v (i + 1) hv (by omega) hr hd]
    have h := SlopeTask_dac_word_sat v i hv
    push_cast
    rw [h]
  refine ⟨_, hrun, ?_, ?_, ?_⟩
  · simp only [hlist, List.append_assoc, List.singleton_append]
  · intro i
    unfold SLOPE_DELTA
    by_cases h : i + 1 ≤ v
    · rw [Nat.cast_sub h, max_eq_left]
      · push_cast; ring
      · have : ((i + 1 : Nat) : ℚ) ≤ (v : ℚ) := by exact_mod_cast h
        push_cast at this
        linarith
    · push_neg at h
      rw [Nat.sub_eq_zero_of_le (le_of_lt h), max_eq_right]
      · simp
      · have : (v : ℚ) < ((i + 1 : Nat) : ℚ) := by exact_mod_cast h
        push_cast at this
        linarith
  · unfold SLOPE_DELTA
    constructor
    · intro h
      have h80 := h 80 (by decide) (le_refl 80)
      have : (80 : ℚ) ≤ (v : ℚ) := by
        push_cast at h80
        linarith
      exact_mod_cast this
    · intro h i _ hi
      have h1 : (i : ℚ) ≤ (v : ℚ) := by exact_mod_cast le_trans hi h
      linarith

/-- Witness for C9: the DAC at 40 when the task starts, exact arithmetic; the
words written are 39, 38, ..., 0 and then 0 up to the 80th write. -/
theorem SlopeTask_dac_not_below_zero_witness :
    ∃ t, claRunFp exactArith SlopeTask
          ⟨.u16 0, .u16 0, .u16 0, .u16 0, fun _ => 40, fun _ => 0, [], false⟩ = some t
      ∧ t.writes = [] ++ (Mem16.EPwmRegs 1 28, 1) :: (List.range 80).map
          (fun i : Nat => (Mem16.CompRegs 2 6, 40 - (i + 1)))
      ∧ (∀ i : Nat, ((40 - (i + 1) : Nat) : ℚ)
          = max (((40 : Nat) : ℚ) + ((i : ℚ) + 1) * SLOPE_DELTA) 0)
      ∧ ((∀ i : Nat, 1 ≤ i → i ≤ 80 → 0 ≤ ((40 : Nat) : ℚ) + (i : ℚ) * SLOPE_DELTA) ↔ 80 ≤ 40) :=
  SlopeTask_dac_not_below_zero exactArith
    ⟨.u16 0, .u16 0, .u16 0, .u16 0, fun _ => 40, fun _ => 0, [], false⟩ 40
    (fun _ _ => rfl) rfl rfl rfl (by decide) (by decide)

/-- C24 (amended): every execution of the CLA 2p2z task (`CLA_2p2zIMode` and
`CLA_2p2zVMode`), whatever the rounding of the single-precision unit, runs to
completion and leaves the newest values in both cells of each history:
`m_E[0] = m_E[1] = e(n)`, the computed `Ref - Adc`, and
`m_U[0] = m_U[1] = u(n)`, the computed `PreValue + B0*e(n)`; the values
`u(n-1)` and `e(n-1)` found in `m_U[1]` and `m_E[1]` at entry are folded into
`m_PreValue`, the sum `A2*u(n-1) + A1*u(n) + B2*e(n-1) + B1*e(n)` accumulated in
this order in single precision, and are not kept. -/
theorem CLA_2p2z_state_after_execution (fp : ClaArith) (Adc Cmp Pwm : Nat)
    (A1 A2 B0 B1 B2 K MiN MaX : ℚ) (s : ClaState) (hs : s.stopped = false) :
    (∃ t, claRunFp fp (CLA_2p2zIMode Adc Cmp A1 A2 B0 B1 B2 K MiN MaX) s = some t
      ∧ t.mem32 (.Data 6)
          = fp.rnd (I16TOF32 (s.mem16 (.Ctrl 1)) - I16TOF32 (s.mem16 (.AdcResult (Adc - 1))))
      ∧ t.mem32 (.Data 8) = t.mem32 (.Data 6)
      ∧ t.mem32 (.Data 2)
          = fp.rnd (s.mem32 (.Data 0) + fp.rnd (t.mem32 (.Data 6) * fp.imm32 B0))
      ∧ t.mem32 (.Data 4) = t.mem32 (.Data 2)
      ∧ t.mem32 (.Data 0)
          = fp.rnd (fp.rnd (fp.rnd (fp.rnd (fp.rnd (fp.imm32 0 + fp.imm32 0)
              + fp.rnd (fp.imm32 A2 * s.mem32 (.Data 4)))
              + fp.rnd (fp.imm32 A1 * t.mem32 (.Data 2)))
              + fp.rnd (fp.imm32 B2 * s.mem32 (.Data 8)))
              + fp.rnd (fp.imm32 B1 * t.mem32 (.Data 6))))
    ∧ (∃ t, claRunFp fp (CLA_2p2zVMode Adc Pwm A1 A2 B0 B1 B2 K MiN MaX) s = some t
      ∧ t.mem32 (.Data 6)
          = fp.rnd (I16TOF32 (s.mem16 (.Ctrl 1)) - I16TOF32 (s.mem16 (.AdcResult (Adc - 1))))
      ∧ t.mem32 (.Data 8) = t.mem32 (.Data 6)
      ∧ t.mem32 (.Data 2)
          = fp.rnd (s.mem32 (.Data 0) + fp.rnd (t.mem32 (.Data 6) * fp.imm32 B0))
      ∧ t.mem32 (.Data 4) = t.mem32 (.Data 2)
      ∧ t.mem32 (.Data 0)
          = fp.rnd (fp.rnd (fp.rnd (fp.rnd (fp.rnd (fp.imm32 0 + fp.imm32 0)
              + fp.rnd (fp.imm32 A2 * s.mem32 (.Data 4)))
              + fp.rnd (fp.imm32 A1 * t.mem32 (.Data 2)))
              + fp.rnd (fp.imm32 B2 * s.mem32 (.Data 8)))
              + fp.rnd (fp.imm32 B1 * t.mem32 (.Data 6)))) := by
  constructor
  · obtain ⟨t, ht, a6, a8, a2, a4, a0, -, -⟩ :=
      CLA_2p2zIMode_runFp fp Adc Cmp A1 A2 B0 B1 B2 K MiN MaX s hs
    exact ⟨t, ht, a6, a8, a2, a4, a0⟩
  · obtain ⟨t, ht, a6, a8, a2, a4, a0, -, -⟩ :=
      CLA_2p2zVMode_runFp fp Adc Pwm A1 A2 B0 B1 B2 K MiN MaX s hs
    exact ⟨t, ht, a6, a8, a2, a4, a0⟩

/-- Witness for C24: the tasks of the header example triggered with the sample
1000 on zeroed task data and reference word 2048, exact arithmetic. -/
theorem CLA_2p2z_state_after_execution_witness :
    (∃ t, claRunFp exactArith (CLA_2p2zIMode 7 3 A1 A2 B0 B1 B2 K 0 240)
          ⟨.u16 0, .u16 0, .u16 0, .u16 0,
            Function.update (fun _ => 2048) (.AdcResult 6) 1000, fun _ => 0, [], false⟩ = some t
      ∧ t.mem32 (.Data 8) = t.mem32 (.Data 6)
      ∧ t.mem32 (.Data 4) = t.mem32 (.Data 2))
    ∧ (∃ t, claRunFp exactArith (CLA_2p2zVMode 7 1 A1 A2 B0 B1 B2 K 0 240)
          ⟨.u16 0, .u16 0, .u16 0, .u16 0,
            Function.update (fun _ => 2048) (.AdcResult 6) 1000, fun _ => 0, [], false⟩ = some t
      ∧ t.mem32 (.Data 8) = t.mem32 (.Data 6)
      ∧ t.mem32 (.Data 4) = t.mem32 (.Data 2)) := by
  obtain ⟨⟨t, ht, -, a, -, b, -⟩, ⟨u, hu, -, c, -, d, -⟩⟩ :=
    CLA_2p2z_state_after_execution exactArith 7 3 1 A1 A2 B0 B1 B2 K 0 240
      ⟨.u16 0, .u16 0, .u16 0, .u16 0,
        Function.update (fun _ => 2048) (.AdcResult 6) 1000, fun _ => 0, [], false⟩ rfl
  exact ⟨⟨t, ht, a, b⟩, ⟨u, hu, c, d⟩⟩

end BuckConverter
